import Mathlib

/-!
# Verification of the aspasia subtitle library against its specification

Shallow embedding of the core of the `aspasia` Rust crate (subtitle parsing,
inter-format conversion, tag translation, format detection) and proofs about
it.  Strings are modelled as `List Char` (Rust `&str` is UTF-8; we track byte
positions explicitly where the code slices by byte index).  The nom parser
combinators used by the crate are modelled by functions from input to a
result that is either success (with remaining input), a recoverable parse
error, or a crash (a Rust panic).
-/

namespace Aspasia

/-- Strings are lists of unicode scalar values, like Rust `&str` iterated by `char`. -/
abbrev Str := List Char

/-- Shorthand to turn a Lean string literal into the model's string type. -/
def S (s : String) : Str := s.data

/-- Body of `replaceAll`, with fuel for structural recursion (the fuel
`s.length` always suffices: every step consumes at least one character). -/
def replaceAllF (pat rep : Str) : Nat → Str → Str
  | _, [] => []
  | 0, s => s
  | n + 1, c :: cs =>
    if pat ≠ [] ∧ pat.isPrefixOf (c :: cs) then
      rep ++ replaceAllF pat rep n ((c :: cs).drop pat.length)
    else
      c :: replaceAllF pat rep n cs

/-- `Rust String::replace`: replace every non-overlapping occurrence of `pat`
(scanning left to right) by `rep`.  An empty pattern never matches anything
here (the crate only uses nonempty patterns). -/
def replaceAll (pat rep : Str) (s : Str) : Str := replaceAllF pat rep s.length s

/-- Split a string at every `'\n'`, keeping the pieces (a string with `n`
newlines yields `n + 1` pieces). -/
def splitNl (s : Str) : List Str :=
  match s with
  | [] => [[]]
  | c :: cs =>
    if c = '\n' then [] :: splitNl cs
    else
      match splitNl cs with
      | [] => [[c]]
      | p :: ps => (c :: p) :: ps

/-- Strip one trailing `'\r'` from a line, as `BufRead::lines` does. -/
def stripCr (l : Str) : Str :=
  match l.getLast? with
  | some '\r' => l.dropLast
  | _ => l

/-- Rust `BufRead::lines` over an in-memory string: split on `'\n'`, drop the
final empty piece produced by a trailing newline, and strip a `'\r'` that
precedes each `'\n'`. -/
def rustLines (s : Str) : List Str :=
  match s with
  | [] => []
  | _ =>
    let ps := splitNl s
    let ps := if s.getLast? = some '\n' then ps.dropLast else ps
    ps.map stripCr

/-- Decimal digits of `n`, most significant first, accumulator style, with
fuel for structural recursion (`n + 1` always suffices). -/
def natDigitsGo : Nat → Nat → Str → Str
  | 0, n, acc => Char.ofNat (48 + n % 10) :: acc
  | f + 1, n, acc =>
    if n < 10 then Char.ofNat (48 + n % 10) :: acc
    else natDigitsGo f (n / 10) (Char.ofNat (48 + n % 10) :: acc)

/-- Decimal rendering of a natural number, as Rust `{}` formatting of an
unsigned integer. -/
def natDigits (n : Nat) : Str := natDigitsGo n n []

/-- Numeric value of a list of decimal digit characters (`0` for `[]`). -/
def foldDigits (ds : Str) : Nat := ds.foldl (fun v c => v * 10 + (c.toNat - 48)) 0

/-- Rust `{:0w}` formatting of an `i64` value: sign, then zero padding up to
width `w` (the sign counts towards the width), then the decimal digits. -/
def i64Pad (w : Nat) (n : Int) : Str :=
  let ds := natDigits n.natAbs
  let sign : Str := if n < 0 then ['-'] else []
  sign ++ List.replicate (w - (sign.length + ds.length)) '0' ++ ds

/-- Rust `{}` formatting of an `i64` value. -/
def i64Str (n : Int) : Str := i64Pad 0 n

/-! ## The nom parser model

A parse attempt either succeeds with the remaining input and an output,
fails recoverably (nom `Err::Error`), or crashes (a Rust panic raised while
computing the output).  All the crate's parsers are `complete` ones, so
`Incomplete`/`Failure` never arise. -/

/-- Result of running an embedded nom parser. -/
inductive PRes (α : Type) : Type where
  /-- Success: remaining input and output value. -/
  | ok (rest : Str) (out : α)
  /-- Recoverable parse error (nom `Err::Error`). -/
  | fail
  /-- A Rust panic occurred while producing the output. -/
  | crash
deriving DecidableEq, Repr

/-- An embedded nom parser over `Str`. -/
def NomP (α : Type) : Type := Str → PRes α

/-- Sequence a parse result with a continuation on the remaining input. -/
def PRes.andThen {α β : Type} (r : PRes α) (f : Str → α → PRes β) : PRes β :=
  match r with
  | .ok rest a => f rest a
  | .fail => .fail
  | .crash => .crash

/-- `nom::bytes::complete::tag`. -/
def pTag (t : Str) : NomP Str := fun i =>
  if t.isPrefixOf i then .ok (i.drop t.length) t else .fail

/-- Case-insensitive character equality as used by nom's `tag_no_case` on the
crate's ASCII tags. -/
def charNoCaseEq (a b : Char) : Bool := a.toLower = b.toLower

/-- `nom::bytes::complete::tag_no_case` (ASCII tags only in this crate).
Outputs the consumed slice of the input. -/
def pTagNoCase (t : Str) : NomP Str := fun i =>
  if (i.take t.length).length = t.length ∧
      ((i.take t.length).zip t).all fun p => charNoCaseEq p.1 p.2 then
    .ok (i.drop t.length) (i.take t.length)
  else .fail

/-- `nom::character::complete::char`. -/
def pChar (c : Char) : NomP Char := fun i =>
  match i with
  | c' :: cs => if c' = c then .ok cs c else .fail
  | [] => .fail

/-- `nom::character::complete::anychar`. -/
def pAnychar : NomP Char := fun i =>
  match i with
  | c :: cs => .ok cs c
  | [] => .fail

/-- `nom::character::complete::one_of`. -/
def pOneOf (s : Str) : NomP Char := fun i =>
  match i with
  | c :: cs => if c ∈ s then .ok cs c else .fail
  | [] => .fail

/-- First index at which `t` occurs as a prefix of a suffix of `i`. -/
def findSub (t : Str) : Str → Option Nat
  | [] => if t.isPrefixOf [] then some 0 else none
  | c :: cs =>
    if t.isPrefixOf (c :: cs) then some 0
    else (findSub t cs).map (· + 1)

/-- `nom::bytes::complete::take_until`: consume up to (not including) the
first occurrence of `t`; error if `t` does not occur. -/
def pTakeUntil (t : Str) : NomP Str := fun i =>
  match findSub t i with
  | some j => .ok (i.drop j) (i.take j)
  | none => .fail

/-- `nom::bytes::complete::take_while` (zero or more). -/
def pTakeWhile0 (p : Char → Bool) : NomP Str := fun i =>
  .ok (i.dropWhile p) (i.takeWhile p)

/-- `nom::bytes::complete::take_while1`. -/
def pTakeWhile1 (p : Char → Bool) : NomP Str := fun i =>
  match i.takeWhile p with
  | [] => .fail
  | ds => .ok (i.dropWhile p) ds

/-- `nom::combinator::rest`. -/
def pRest : NomP Str := fun i => .ok [] i

/-- `nom::combinator::eof`. -/
def pEof : NomP Str := fun i =>
  match i with
  | [] => .ok [] []
  | _ => .fail

/-- `nom::combinator::opt`. -/
def pOpt {α : Type} (p : NomP α) : NomP (Option α) := fun i =>
  match p i with
  | .ok r a => .ok r (some a)
  | .fail => .ok i none
  | .crash => .crash

/-- `nom::combinator::map`. -/
def pMap {α β : Type} (f : α → β) (p : NomP α) : NomP β := fun i =>
  match p i with
  | .ok r a => .ok r (f a)
  | .fail => .fail
  | .crash => .crash

/-- `nom::combinator::value`. -/
def pValue {α β : Type} (v : β) (p : NomP α) : NomP β := pMap (fun _ => v) p

/-- Two-way `nom::branch::alt` (nom's `alt` tuple is right-nested `alt2`s). -/
def alt2 {α : Type} (p q : NomP α) : NomP α := fun i =>
  match p i with
  | .fail => q i
  | r => r

/-- `nom::character::complete::line_ending` (`"\n"` or `"\r\n"`). -/
def pLineEnding : NomP Str := fun i =>
  match i with
  | '\n' :: cs => .ok cs ['\n']
  | '\r' :: '\n' :: cs => .ok cs ['\r', '\n']
  | _ => .fail

/-- A space or tab. -/
def isSp (c : Char) : Bool := c = ' ' || c = '\t'

/-- Any nom whitespace character. -/
def isWs (c : Char) : Bool := c = ' ' || c = '\t' || c = '\r' || c = '\n'

/-- `nom::character::complete::space0`. -/
def pSpace0 : NomP Str := pTakeWhile0 isSp

/-- `nom::character::complete::space1`. -/
def pSpace1 : NomP Str := pTakeWhile1 isSp

/-- `nom::character::complete::multispace0`. -/
def pMultispace0 : NomP Str := pTakeWhile0 isWs

/-- `nom::character::complete::u32`: one or more decimal digits, failing on
overflow past `u32::MAX`. -/
def pU32 : NomP Nat := fun i =>
  match i.takeWhile Char.isDigit with
  | [] => .fail
  | ds =>
    if foldDigits ds < 2 ^ 32 then .ok (i.dropWhile Char.isDigit) (foldDigits ds)
    else .fail

/-- Digit part of `nom::character::complete::i64` with the sign already
consumed: one or more decimal digits, failing on overflow past `i64`. -/
def pI64Body (sg : Int) (j : Str) : PRes Int :=
  match j.takeWhile Char.isDigit with
  | [] => .fail
  | ds =>
    if -(2 ^ 63) ≤ sg * (foldDigits ds : Int) ∧
        sg * (foldDigits ds : Int) ≤ 2 ^ 63 - 1 then
      .ok (j.dropWhile Char.isDigit) (sg * (foldDigits ds : Int))
    else .fail

/-- `nom::character::complete::i64`: optional sign, one or more decimal
digits, failing on overflow past the `i64` range. -/
def pI64 : NomP Int := fun i =>
  match i with
  | '+' :: r => pI64Body 1 r
  | '-' :: r => pI64Body (-1) r
  | i => pI64Body 1 i

/-- `nom::multi::many_till(f, g)` with explicit fuel.  Faithful to nom 7:
the terminator `g` is tried first at each step, and an iteration of `f`
that consumes no input is an error (nom's infinite-loop guard). -/
def manyTillF {α β : Type} (inner : NomP α) (term : NomP β) :
    Nat → NomP (List α × β)
  | 0, _ => .fail
  | n + 1, i =>
    match term i with
    | .ok r b => .ok r ([], b)
    | .crash => .crash
    | .fail =>
      match inner i with
      | .ok r a =>
        if r.length = i.length then .fail
        else
          match manyTillF inner term n r with
          | .ok r2 (as, b) => .ok r2 (a :: as, b)
          | .fail => .fail
          | .crash => .crash
      | .fail => .fail
      | .crash => .crash

/-- `nom::multi::many0` with explicit fuel; an iteration that consumes no
input is an error, as in nom 7. -/
def many0F {α : Type} (inner : NomP α) : Nat → NomP (List α)
  | 0, _ => .fail
  | n + 1, i =>
    match inner i with
    | .fail => .ok i []
    | .crash => .crash
    | .ok r a =>
      if r.length = i.length then .fail
      else
        match many0F inner n r with
        | .ok r2 as => .ok r2 (a :: as)
        | .fail => .fail
        | .crash => .crash

/-- `nom::multi::many1`: one unguarded iteration, then a guarded `many0` loop. -/
def many1F {α : Type} (inner : NomP α) (n : Nat) : NomP (List α) := fun i =>
  match inner i with
  | .fail => .fail
  | .crash => .crash
  | .ok r a =>
    match many0F inner n r with
    | .ok r2 as => .ok r2 (a :: as)
    | .fail => .fail
    | .crash => .crash

/-- Loop of `nom::multi::separated_list1` after the first element: parse a
separator (error if it consumes nothing) then an element; stop, restoring
the pre-separator input, when either fails. -/
def sepListLoopF {α γ : Type} (sep : NomP γ) (elem : NomP α) :
    Nat → NomP (List α)
  | 0, _ => .fail
  | n + 1, i =>
    match sep i with
    | .fail => .ok i []
    | .crash => .crash
    | .ok r1 _ =>
      if r1.length = i.length then .fail
      else
        match elem r1 with
        | .fail => .ok i []
        | .crash => .crash
        | .ok r2 a =>
          match sepListLoopF sep elem n r2 with
          | .ok r3 as => .ok r3 (a :: as)
          | .fail => .fail
          | .crash => .crash

/-- `nom::multi::separated_list1`. -/
def sepList1F {α γ : Type} (sep : NomP γ) (elem : NomP α) (n : Nat) :
    NomP (List α) := fun i =>
  match elem i with
  | .fail => .fail
  | .crash => .crash
  | .ok r a =>
    match sepListLoopF sep elem n r with
    | .ok r2 as => .ok r2 (a :: as)
    | .fail => .fail
    | .crash => .crash

/-- `nom::multi::many_till(anychar, p)`: scan forward one character at a
time until `p` succeeds, collecting the skipped characters.  Structural
recursion on the input, so no fuel is needed. -/
def scanFor {α : Type} (p : NomP α) : Str → PRes (Str × α)
  | [] =>
    match p [] with
    | .ok r a => .ok r ([], a)
    | .crash => .crash
    | .fail => .fail
  | c :: cs =>
    match p (c :: cs) with
    | .ok r a => .ok r ([], a)
    | .crash => .crash
    | .fail =>
      match scanFor p cs with
      | .ok r (acc, a) => .ok r (c :: acc, a)
      | .fail => .fail
      | .crash => .crash

/-- `nom::sequence::pair` (also models 2-tuples). -/
def pairP {α β : Type} (p : NomP α) (q : NomP β) : NomP (α × β) := fun i =>
  (p i).andThen fun r a => (q r).andThen fun r2 b => .ok r2 (a, b)

/-- `nom::sequence::preceded`. -/
def precededP {α β : Type} (p : NomP α) (q : NomP β) : NomP β := fun i =>
  (p i).andThen fun r _ => q r

/-- `nom::sequence::terminated`. -/
def terminatedP {α β : Type} (p : NomP α) (q : NomP β) : NomP α := fun i =>
  (p i).andThen fun r a => (q r).andThen fun r2 _ => .ok r2 a

/-- `nom::sequence::delimited`. -/
def delimitedP {α β γ : Type} (a : NomP α) (b : NomP β) (c : NomP γ) :
    NomP β := fun i =>
  (a i).andThen fun r _ => (b r).andThen fun r2 x => (c r2).andThen fun r3 _ => .ok r3 x

/-- `nom::sequence::separated_pair`. -/
def sepPairP {α β γ : Type} (a : NomP α) (sep : NomP γ) (b : NomP β) :
    NomP (α × β) := fun i =>
  (a i).andThen fun r x => (sep r).andThen fun r2 _ => (b r2).andThen fun r3 y => .ok r3 (x, y)

/-! ## Byte slicing and the colour-hex conversion

`src/substation/common/convert.rs` (`convert_hex`) and
`src/subrip/convert.rs` (`correct_colour_hex`) format the payload with
`format!("{input:06}")` and then byte-slice `&s[4..6]`, `&s[2..4]`,
`&s[0..2]`.  Two Rust facts are embedded faithfully here:
* `{:06}` applied to a `&str` does NOT zero-pad: the `0` flag is the
  numeric-only sign-aware-zero-pad flag, so the fill character stays `' '`
  and a string keeps its default left alignment.  Padding counts `char`s.
* indexing `&s[a..b]` panics when `a` or `b` is not a `char` boundary of
  the UTF-8 encoding; this is modelled by `Option`, `none` being a panic. -/

/-- Drop exactly `n` bytes worth of characters; `none` when `n` is not a
character boundary (or past the end). -/
def dropBytes : Str → Nat → Option Str
  | l, 0 => some l
  | [], _ + 1 => none
  | c :: cs, n + 1 =>
    if c.utf8Size ≤ n + 1 then dropBytes cs (n + 1 - c.utf8Size) else none

/-- Take exactly `n` bytes worth of characters; `none` when `n` is not a
character boundary (or past the end). -/
def takeBytes : Str → Nat → Option Str
  | _, 0 => some []
  | [], _ + 1 => none
  | c :: cs, n + 1 =>
    if c.utf8Size ≤ n + 1 then (takeBytes cs (n + 1 - c.utf8Size)).map (c :: ·)
    else none

/-- Rust `&s[a..b]` for `a ≤ b`: `none` models the char-boundary panic. -/
def sliceBytes (l : Str) (a b : Nat) : Option Str :=
  (dropBytes l a).bind fun t => takeBytes t (b - a)

/-- `format!("{input:06}")` for a `&str` input: left-aligned, space-filled
to a minimum width of 6 characters (the `0` flag has no effect on strings). -/
def rustPad6 (s : Str) : Str :=
  if 6 ≤ s.length then s else s ++ List.replicate (6 - s.length) ' '

/-- `convert_hex` from `src/substation/common/convert.rs`; `none` models the
byte-slicing panic. -/
def convertHex (s : Str) : Option Str :=
  let p := rustPad6 s
  match sliceBytes p 4 6, sliceBytes p 2 4, sliceBytes p 0 2 with
  | some x, some y, some z => some (x ++ y ++ z)
  | _, _, _ => none

/-- `correct_colour_hex` from `src/subrip/convert.rs` (same body as
`convert_hex`, duplicated in the source). -/
def correctColourHex (s : Str) : Option Str :=
  let p := rustPad6 s
  match sliceBytes p 4 6, sliceBytes p 2 4, sliceBytes p 0 2 with
  | some x, some y, some z => some (x ++ y ++ z)
  | _, _, _ => none

/-! ## Shared tag primitives (`src/parsing.rs`) -/

/-- `bracket_tag`: `delimited(char('{'), take_until("}"), char('}'))`. -/
def bracketTagP : NomP Str :=
  delimitedP (pChar '\x7b') (pTakeUntil (S ("\x7d"))) (pChar '\x7d')

/-- `html_tag`: `delimited(char('<'), take_until(">"), char('>'))`. -/
def htmlTagP : NomP Str :=
  delimitedP (pChar '<') (pTakeUntil (S (">"))) (pChar '>')

/-- `take_until_end_of_block`: scan to a double line ending, or to
whitespace followed by end of input. -/
def takeUntilEndOfBlock : NomP Str := fun i =>
  match scanFor (alt2 (pairP pLineEnding pLineEnding) (pairP pMultispace0 pEof)) i with
  | .ok r (acc, _) => .ok r acc
  | .fail => .fail
  | .crash => .crash

/-! ## `src/substation/common/convert.rs` -/

/-- One `\code` piece inside a bundled override group. -/
def splitTagPiece : NomP Str :=
  precededP (pChar '\\') (alt2 (pTakeUntil (S ("\\"))) pRest)

/-- `split_tag`: turn `{\b1\i1}` into `{\b1}{\i1}`. -/
def splitTag : NomP Str := fun i =>
  match bracketTagP i with
  | .fail => .fail
  | .crash => .crash
  | .ok r content =>
    match many1F splitTagPiece (content.length + 1) content with
    | .fail => .fail
    | .crash => .crash
    | .ok _ pieces =>
      .ok r (pieces.foldl (fun res s => res ++ S ("\x7b\\") ++ s ++ S ("\x7d")) [])

/-- `split_formatting_tags` (fuelled loop body). -/
def splitFormattingTagsF (n : Nat) : NomP Str := fun i =>
  match manyTillF (alt2 splitTag (alt2 (pTakeUntil (S ("\x7b"))) pRest)) pEof n i with
  | .ok r (pieces, _) => .ok r pieces.flatten
  | .fail => .fail
  | .crash => .crash

/-- `split_formatting_tags`. -/
def splitFormattingTags : NomP Str := fun i => splitFormattingTagsF (i.length + 1) i

/-- `discard_tag` (consumes `{…}` exactly like `bracket_tag`, outputs `""`). -/
def discardTag : NomP Str := pValue [] bracketTagP

/-- One branch of `convert_font_color_tag`: a colour override with the given
opening delimiter; crashes when `convert_hex` would panic. -/
def fontColorTagFrom (pre : Str) : NomP Str := fun i =>
  (pTag pre i).andThen fun r _ =>
  (pTakeUntil (S ("&\x7d")) r).andThen fun r2 payload =>
  (pTag (S ("&\x7d")) r2).andThen fun r3 _ =>
  match convertHex payload with
  | some hex => .ok r3 (S ("<font color=\"#") ++ hex ++ S ("\">"))
  | none => .crash

/-- `convert_font_color_tag`: `{\1c&H…&}` tried before `{\c&H…&}`. -/
def convertFontColorTag : NomP Str :=
  alt2 (fontColorTagFrom (S ("\x7b\\1c&H"))) (fontColorTagFrom (S ("\x7b\\c&H")))

/-! ## `src/subrip/convert.rs` -/

/-- `value(out, tag(inp))`. -/
def vtag (inp out : String) : NomP Str := pValue (S (out)) (pTag (S (inp)))

/-- `discard_html_tag`. -/
def discardHtmlTag : NomP Str := pValue [] htmlTagP

/-- `discard_bracket_tag`. -/
def discardBracketTag : NomP Str := pValue [] bracketTagP

/-- `convert_to_ssa_tag`. -/
def convertToSsaTagSrt : NomP Str :=
  alt2 (vtag ("<b>") ("\x7b\\b1\x7d"))
    (alt2 (vtag ("</b>") ("\x7b\\b0\x7d"))
      (alt2 (vtag ("\x7bb\x7d") ("\x7b\\b1\x7d"))
        (alt2 (vtag ("\x7b/b\x7d") ("\x7b\\b0\x7d"))
          (alt2 (vtag ("<i>") ("\x7b\\i1\x7d"))
            (alt2 (vtag ("</i>") ("\x7b\\i0\x7d"))
              (alt2 (vtag ("\x7bi\x7d") ("\x7b\\i1\x7d"))
                (vtag ("\x7b/i\x7d") ("\x7b\\i0\x7d"))))))))

/-- `convert_to_ass_tag`. -/
def convertToAssTagSrt : NomP Str :=
  alt2 convertToSsaTagSrt
    (alt2 (vtag ("<u>") ("\x7b\\u1\x7d"))
      (alt2 (vtag ("</u>") ("\x7b\\u0\x7d"))
        (alt2 (vtag ("\x7bu\x7d") ("\x7b\\u1\x7d"))
          (vtag ("\x7b/u\x7d") ("\x7b\\u0\x7d")))))

/-- `convert_to_vtt_tag`. -/
def convertToVttTagSrt : NomP Str :=
  alt2 (vtag ("\x7bb\x7d") ("<b>"))
    (alt2 (vtag ("\x7b/b\x7d") ("</b>"))
      (alt2 (vtag ("\x7bi\x7d") ("<i>"))
        (alt2 (vtag ("\x7b/i\x7d") ("</i>"))
          (alt2 (vtag ("\x7bu\x7d") ("<u>"))
            (vtag ("\x7b/u\x7d") ("</u>"))))))

/-- `keep_html_tags` (also the identical function in
`src/webvtt/convert.rs`). -/
def keepHtmlTags : NomP Str :=
  alt2 (pTag (S ("<b>")))
    (alt2 (pTag (S ("</b>")))
      (alt2 (pTag (S ("<i>")))
        (alt2 (pTag (S ("</i>")))
          (alt2 (pTag (S ("<u>"))) (pTag (S ("</u>")))))))

/-- `replace_font_color_tag`: HTML `<font color="#…">` to an SSA/ASS colour
override; crashes when `correct_colour_hex` would panic. -/
def replaceFontColorTag : NomP Str := fun i =>
  (pTag (S ("<font color=\"#")) i).andThen fun r _ =>
  (pTakeUntil (S ("\">")) r).andThen fun r2 payload =>
  (pTag (S ("\">")) r2).andThen fun r3 _ =>
  match correctColourHex payload with
  | some hex => .ok r3 (S ("\x7b\\c&H") ++ hex ++ S ("&\x7d"))
  | none => .crash

/-- `convert_to_ass_formatting` in `src/subrip/convert.rs` (fuelled). -/
def srtToAssFormattingF (n : Nat) : NomP Str := fun i =>
  match manyTillF
      (alt2 convertToAssTagSrt
        (alt2 replaceFontColorTag
          (alt2 discardHtmlTag
            (alt2 discardBracketTag
              (alt2 (pTakeWhile0 (fun c => c != '<' && c != '\x7b')) pRest)))))
      pEof n i with
  | .ok r (pieces, _) => .ok r pieces.flatten
  | .fail => .fail
  | .crash => .crash

/-- `convert_to_ass_formatting` in `src/subrip/convert.rs` (exported as
`srt_to_ass_formatting`). -/
def srtToAssFormatting : NomP Str := fun i => srtToAssFormattingF (i.length + 1) i

/-- `convert_to_ssa_formatting` in `src/subrip/convert.rs` (fuelled). -/
def srtToSsaFormattingF (n : Nat) : NomP Str := fun i =>
  match manyTillF
      (alt2 convertToSsaTagSrt
        (alt2 replaceFontColorTag
          (alt2 discardHtmlTag
            (alt2 discardBracketTag
              (alt2 (pTakeWhile0 (fun c => c != '<' && c != '\x7b')) pRest)))))
      pEof n i with
  | .ok r (pieces, _) => .ok r pieces.flatten
  | .fail => .fail
  | .crash => .crash

/-- `convert_to_ssa_formatting` in `src/subrip/convert.rs`. -/
def srtToSsaFormatting : NomP Str := fun i => srtToSsaFormattingF (i.length + 1) i

/-- `convert_to_vtt_formatting` in `src/subrip/convert.rs` (fuelled). -/
def srtToVttFormattingF (n : Nat) : NomP Str := fun i =>
  match manyTillF
      (alt2 convertToVttTagSrt
        (alt2 keepHtmlTags
          (alt2 discardHtmlTag
            (alt2 discardBracketTag
              (alt2 (pTakeWhile1 (fun c => c != '<' && c != '\x7b')) pRest)))))
      pEof n i with
  | .ok r (pieces, _) => .ok r pieces.flatten
  | .fail => .fail
  | .crash => .crash

/-- `convert_to_vtt_formatting` in `src/subrip/convert.rs` (exported as
`srt_to_vtt_formatting`). -/
def srtToVttFormatting : NomP Str := fun i => srtToVttFormattingF (i.length + 1) i

/-! ## `src/substation/ass/convert.rs` -/

/-- `convert_to_html_tag` in `src/substation/ass/convert.rs`. -/
def convertAssTagToHtml : NomP Str :=
  alt2 (vtag ("\x7b\\b1\x7d") ("<b>"))
    (alt2 (vtag ("\x7b\\b0\x7d") ("</b>"))
      (alt2 (vtag ("\x7b\\i1\x7d") ("<i>"))
        (alt2 (vtag ("\x7b\\i0\x7d") ("</i>"))
          (alt2 (vtag ("\x7b\\u1\x7d") ("<u>"))
            (vtag ("\x7b\\u0\x7d") ("</u>"))))))

/-- `convert_to_srt_formatting` in `src/substation/ass/convert.rs`
(exported as `ass_to_srt_formatting`), fuelled. -/
def assToSrtFormattingF (n : Nat) : NomP Str := fun i =>
  match manyTillF
      (alt2 convertAssTagToHtml
        (alt2 convertFontColorTag
          (alt2 discardTag (alt2 (pTakeUntil (S ("\x7b"))) pRest))))
      pEof n i with
  | .ok r (pieces, _) => .ok r pieces.flatten
  | .fail => .fail
  | .crash => .crash

/-- `ass_to_srt_formatting`. -/
def assToSrtFormatting : NomP Str := fun i => assToSrtFormattingF (i.length + 1) i

/-- `convert_to_vtt_formatting` in `src/substation/ass/convert.rs`
(exported as `ass_to_vtt_formatting`), fuelled. -/
def assToVttFormattingF (n : Nat) : NomP Str := fun i =>
  match manyTillF
      (alt2 convertAssTagToHtml
        (alt2 discardTag (alt2 (pTakeUntil (S ("\x7b"))) pRest)))
      pEof n i with
  | .ok r (pieces, _) => .ok r pieces.flatten
  | .fail => .fail
  | .crash => .crash

/-- `ass_to_vtt_formatting`. -/
def assToVttFormatting : NomP Str := fun i => assToVttFormattingF (i.length + 1) i

/-- `parse_drawing_end_tag`: an override block whose content contains `\p0`;
consumes through its closing brace. -/
def parseDrawingEndTag : NomP Str := fun i =>
  ((precededP (pChar '\x7b') (pTakeUntil (S ("\x7d")))) i).andThen fun _ content =>
  match pTakeUntil (S ("\\p0")) content with
  | .fail => .fail
  | .crash => .crash
  | .ok _ _ => (terminatedP (pTakeUntil (S ("\x7d"))) (pChar '\x7d')) i

/-- `discard_drawing_span`: an override block whose first `\p` is followed
by a nonzero digit starts a drawing span; everything through the next block
containing `\p0` (or the whole rest if none) is discarded. -/
def discardDrawingSpan : NomP Str := fun i =>
  match bracketTagP i with
  | .fail => .fail
  | .crash => .crash
  | .ok _ content =>
    match (pTakeUntil (S ("\\p")) content).andThen (fun c1 _ =>
        (pTag (S ("\\p")) c1).andThen fun c2 _ => pOneOf (S ("123456789")) c2) with
    | .fail => .fail
    | .crash => .crash
    | .ok _ _ =>
      match scanFor parseDrawingEndTag i with
      | .ok r _ => .ok r []
      | .crash => .crash
      | .fail => .ok [] []

/-- `strip_formatting_tags` in `src/substation/ass/convert.rs` (fuelled). -/
def assStripFormattingTagsF (n : Nat) : NomP Str := fun i =>
  match many0F
      (alt2 discardDrawingSpan
        (alt2 discardTag
          (alt2 (pTakeUntil (S ("\x7b"))) (pTakeWhile1 (fun _ => true)))))
      n i with
  | .ok r pieces => .ok r pieces.flatten
  | .fail => .fail
  | .crash => .crash

/-- ASS `strip_formatting_tags`. -/
def assStripFormattingTags : NomP Str := fun i => assStripFormattingTagsF (i.length + 1) i

/-! ## `src/substation/ssa/convert.rs` -/

/-- `convert_to_html_tag` in `src/substation/ssa/convert.rs` (no underline
in SSA). -/
def convertSsaTagToHtml : NomP Str :=
  alt2 (vtag ("\x7b\\b1\x7d") ("<b>"))
    (alt2 (vtag ("\x7b\\b0\x7d") ("</b>"))
      (alt2 (vtag ("\x7b\\i1\x7d") ("<i>"))
        (vtag ("\x7b\\i0\x7d") ("</i>"))))

/-- `ssa_to_srt_formatting` (fuelled). -/
def ssaToSrtFormattingF (n : Nat) : NomP Str := fun i =>
  match manyTillF
      (alt2 convertSsaTagToHtml
        (alt2 convertFontColorTag
          (alt2 (pValue [] bracketTagP)
            (alt2 (pTakeUntil (S ("\x7b"))) pRest))))
      pEof n i with
  | .ok r (pieces, _) => .ok r pieces.flatten
  | .fail => .fail
  | .crash => .crash

/-- `ssa_to_srt_formatting`. -/
def ssaToSrtFormatting : NomP Str := fun i => ssaToSrtFormattingF (i.length + 1) i

/-- `ssa_to_vtt_formatting` (fuelled). -/
def ssaToVttFormattingF (n : Nat) : NomP Str := fun i =>
  match manyTillF
      (alt2 convertSsaTagToHtml
        (alt2 (pValue [] bracketTagP)
          (alt2 (pTakeUntil (S ("\x7b"))) pRest)))
      pEof n i with
  | .ok r (pieces, _) => .ok r pieces.flatten
  | .fail => .fail
  | .crash => .crash

/-- `ssa_to_vtt_formatting`. -/
def ssaToVttFormatting : NomP Str := fun i => ssaToVttFormattingF (i.length + 1) i

/-- `strip_formatting_tags` in `src/substation/ssa/convert.rs` (fuelled):
discards bracket tags only — no drawing-span handling. -/
def ssaStripFormattingTagsF (n : Nat) : NomP Str := fun i =>
  match manyTillF
      (alt2 (pValue [] bracketTagP) (alt2 (pTakeUntil (S ("\x7b"))) pRest))
      pEof n i with
  | .ok r (pieces, _) => .ok r pieces.flatten
  | .fail => .fail
  | .crash => .crash

/-- SSA `strip_formatting_tags`. -/
def ssaStripFormattingTags : NomP Str := fun i => ssaStripFormattingTagsF (i.length + 1) i

/-! ## `src/webvtt/convert.rs` -/

/-- `convert_to_ass_tag` in `src/webvtt/convert.rs`. -/
def convertVttTagToAss : NomP Str :=
  alt2 (vtag ("<b>") ("\x7b\\b1\x7d"))
    (alt2 (vtag ("</b>") ("\x7b\\b0\x7d"))
      (alt2 (vtag ("<i>") ("\x7b\\i1\x7d"))
        (alt2 (vtag ("</i>") ("\x7b\\i0\x7d"))
          (alt2 (vtag ("<u>") ("\x7b\\u1\x7d"))
            (vtag ("</u>") ("\x7b\\u0\x7d"))))))

/-- `convert_to_ass_formatting` in `src/webvtt/convert.rs` (exported as
`vtt_to_ass_formatting`), fuelled.  Its `discard_tag` is the HTML discard. -/
def vttToAssFormattingF (n : Nat) : NomP Str := fun i =>
  match manyTillF
      (alt2 convertVttTagToAss
        (alt2 discardHtmlTag (alt2 (pTakeUntil (S ("<"))) pRest)))
      pEof n i with
  | .ok r (pieces, _) => .ok r pieces.flatten
  | .fail => .fail
  | .crash => .crash

/-- `vtt_to_ass_formatting`. -/
def vttToAssFormatting : NomP Str := fun i => vttToAssFormattingF (i.length + 1) i

/-- `convert_to_srt_formatting` in `src/webvtt/convert.rs` (exported as
`vtt_to_srt_formatting`), fuelled. -/
def vttToSrtFormattingF (n : Nat) : NomP Str := fun i =>
  match manyTillF
      (alt2 keepHtmlTags
        (alt2 discardHtmlTag (alt2 (pTakeUntil (S ("<"))) pRest)))
      pEof n i with
  | .ok r (pieces, _) => .ok r pieces.flatten
  | .fail => .fail
  | .crash => .crash

/-- `vtt_to_srt_formatting`. -/
def vttToSrtFormatting : NomP Str := fun i => vttToSrtFormattingF (i.length + 1) i

/-- `discard_html_tags` in `src/webvtt/convert.rs` (exported as
`strip_html_tags`), fuelled. -/
def stripHtmlTagsF (n : Nat) : NomP Str := fun i =>
  match many0F
      (alt2 discardHtmlTag
        (alt2 (pTakeUntil (S ("<"))) (pTakeWhile1 (fun _ => true))))
      n i with
  | .ok r pieces => .ok r pieces.flatten
  | .fail => .fail
  | .crash => .crash

/-- `strip_html_tags`. -/
def stripHtmlTags : NomP Str := fun i => stripHtmlTagsF (i.length + 1) i

/-- `parse_non_tags` in `src/subrip/parse.rs` (exported as
`strip_srt_formatting`), fuelled. -/
def stripSrtFormattingF (n : Nat) : NomP Str := fun i =>
  match many0F
      (alt2 (pValue [] htmlTagP)
        (alt2 (pValue [] bracketTagP)
          (pTakeWhile1 (fun c => c != '<' && c != '\x7b'))))
      n i with
  | .ok r pieces => .ok r pieces.flatten
  | .fail => .fail
  | .crash => .crash

/-- `strip_srt_formatting`. -/
def stripSrtFormatting : NomP Str := fun i => stripSrtFormattingF (i.length + 1) i

/-! ## Data model (`src/timing.rs` and the per-format `data.rs` files)

`Moment` is a signed 64-bit millisecond count; arithmetic overflow cannot
occur for any value a timestamp parse can feed it within the ranges the
claims quantify over, so it is modelled as `Int`.  `end` is a Lean keyword,
so the Rust `end` fields are called `stop` here. -/

/-- `Format` from `src/timed_subtitle.rs`. -/
inductive Format : Type where
  | ass
  | microDvd
  | ssa
  | subRip
  | webVtt
deriving DecidableEq, Repr

/-- `Moment::from_timestamp` (no validation, plain arithmetic). -/
def momentFromTimestamp (h m s sub : Int) : Int :=
  h * 3600000 + m * 60000 + s * 1000 + sub

/-- `SubRipEvent` from `src/subrip/data.rs`. -/
structure SubRipEvent : Type where
  lineNumber : Nat
  text : Str
  start : Int
  stop : Int
  coordinates : Option Str
deriving DecidableEq, Repr

/-- `WebVttCue` from `src/webvtt/data.rs`. -/
structure WebVttCue : Type where
  identifier : Option Str
  text : Str
  settings : Option Str
  start : Int
  stop : Int
deriving DecidableEq, Repr

/-- `SubStationEventKind` (conversions only construct `Dialogue`). -/
inductive SubStationEventKind : Type where
  | dialogue
  | picture
  | sound
  | movie
  | command
deriving DecidableEq, Repr

/-- `AssEvent` from `src/substation/ass/data.rs`. -/
structure AssEvent : Type where
  kind : SubStationEventKind
  layer : Int
  start : Int
  stop : Int
  style : Option Str
  name : Option Str
  marginL : Int
  marginR : Int
  marginV : Int
  effect : Option Str
  text : Str
deriving DecidableEq, Repr

/-- `SsaEvent` from `src/substation/ssa/data.rs`. -/
structure SsaEvent : Type where
  kind : SubStationEventKind
  marked : Bool
  start : Int
  stop : Int
  style : Option Str
  name : Option Str
  marginL : Int
  marginR : Int
  marginV : Int
  effect : Option Str
  text : Str
deriving DecidableEq, Repr

/-- `TimedMicroDvdEvent` from `src/microdvd/data.rs`. -/
structure TimedMicroDvdEvent : Type where
  start : Int
  stop : Int
  text : Str
deriving DecidableEq, Repr

/-- `MicroDvdEvent` (raw, frame-indexed) from `src/microdvd/data.rs`. -/
structure MicroDvdEvent : Type where
  start : Int
  stop : Int
  text : Str
deriving DecidableEq, Repr

/-- `PlainEvent` from `src/plain.rs`. -/
structure PlainEvent : Type where
  text : Str
  start : Int
  stop : Int
deriving DecidableEq, Repr

/-- `SubRipSubtitle`: only a list of events. -/
structure SubRipSubtitle : Type where
  events : List SubRipEvent
deriving DecidableEq, Repr

/-- `WebVttSubtitle`: header, cues, styles, regions. -/
structure WebVttSubtitle : Type where
  header : Option Str
  cues : List WebVttCue
  styles : List Str
  regions : List Str
deriving DecidableEq, Repr

/-- `AssSubtitle`.  Of the script-info block only the `title` field is
modelled (it is the only script-info field any conversion reads); the
auxiliary picture/sound/movie/command buckets, styles, fonts and graphics
are empty in every document a conversion builds and are read by no claim,
so they are omitted. -/
structure AssSubtitle : Type where
  scriptInfoTitle : Option Str
  dialogue : List AssEvent
deriving DecidableEq, Repr

/-- `SsaSubtitle`, modelled like `AssSubtitle`. -/
structure SsaSubtitle : Type where
  scriptInfoTitle : Option Str
  dialogue : List SsaEvent
deriving DecidableEq, Repr

/-- `TimedMicroDvdSubtitle`: events plus the frame rate used to derive them. -/
structure TimedMicroDvdSubtitle : Type where
  events : List TimedMicroDvdEvent
  framerate : Float
deriving Repr

/-- `MicroDvdSubtitle` (raw). -/
structure MicroDvdSubtitle : Type where
  events : List MicroDvdEvent
deriving DecidableEq, Repr

/-- `PlainSubtitle`. -/
structure PlainSubtitle : Type where
  events : List PlainEvent
deriving DecidableEq, Repr

/-! ## `src/subrip/parse.rs` -/

/-- SubRip `parse_timestamp`: `space0 i64 ':' i64 ':' i64 ',' i64 space0`. -/
def parseTimestampSrt : NomP Int := fun i =>
  (pSpace0 i).andThen fun r _ =>
  (terminatedP pI64 (pChar ':') r).andThen fun r1 h =>
  (pI64 r1).andThen fun r2 m =>
  (delimitedP (pChar ':') pI64 (pChar ',') r2).andThen fun r3 s =>
  (pI64 r3).andThen fun r4 ms =>
  (pSpace0 r4).andThen fun r5 _ =>
  .ok r5 (momentFromTimestamp h m s ms)

/-- SubRip `parse_timing`: two timestamps around `-->`, then the optional
coordinate text up to the line ending. -/
def parseTimingSrt : NomP ((Int × Int) × Option Str) :=
  pairP (sepPairP parseTimestampSrt (pTag (S ("-->"))) parseTimestampSrt)
    (terminatedP (pOpt (pTakeUntil (S ("\n")))) pLineEnding)

/-- SubRip `parse_line_number`. -/
def parseLineNumber : NomP Nat := terminatedP pU32 pLineEnding

/-- `SubRipBlock`. -/
inductive SubRipBlock : Type where
  | newLine (e : SubRipEvent)
  | continuation (s : Str)
deriving DecidableEq, Repr

/-- SubRip `parse_new_line`. -/
def parseNewLine : NomP SubRipBlock := fun i =>
  (many0F pLineEnding (i.length + 1) i).andThen fun r _ =>
  (parseLineNumber r).andThen fun r1 n =>
  (parseTimingSrt r1).andThen fun r2 tc =>
  (takeUntilEndOfBlock r2).andThen fun r3 text =>
  .ok r3 (.newLine
    { lineNumber := n, text := text, start := tc.1.1, stop := tc.1.2,
      coordinates := tc.2 })

/-- SubRip `parse_continuation`. -/
def parseContinuation : NomP SubRipBlock :=
  pMap .continuation (pTakeUntil (S ("\n\n")))

/-- SubRip `parse_block`. -/
def parseBlockSrt : NomP SubRipBlock :=
  precededP pMultispace0 (alt2 parseNewLine parseContinuation)

/-- SubRip `parse_blocks` (fuelled). -/
def parseBlocksSrtF (n : Nat) : NomP (List SubRipBlock) :=
  sepList1F (pTag (S ("\n\n"))) parseBlockSrt n

/-- SubRip `parse_blocks`. -/
def parseBlocksSrt : NomP (List SubRipBlock) := fun i =>
  parseBlocksSrtF (i.length + 1) i

/-- Folding one parsed block into the event list (body of the `for block`
loop in `parse_srt`). -/
def srtApplyBlock (evs : List SubRipEvent) : SubRipBlock → List SubRipEvent
  | .newLine e => evs ++ [e]
  | .continuation c =>
    match evs.getLast? with
    | none => evs
    | some l => evs.dropLast ++ [{ l with text := l.text ++ S ("\n\n") ++ c }]

/-- One parse attempt over the queue in `parse_srt` (a failed attempt keeps
the queue unchanged; this grammar never panics). -/
def srtRound (queue : Str) (evs : List SubRipEvent) :
    Str × List SubRipEvent :=
  match parseBlocksSrt queue with
  | .ok rest bs => (rest, bs.foldl srtApplyBlock evs)
  | .fail => (queue, evs)
  | .crash => (queue, evs)

/-- The streaming loop of `parse_srt`: append each line plus `'\n'` to the
queue, attempt a parse at every empty line, and once more at end of input. -/
def srtLoop : List Str → Str → List SubRipEvent → List SubRipEvent
  | [], q, evs => (srtRound q evs).2
  | l :: ls, q, evs =>
    let q2 := q ++ l ++ ['\n']
    if l = [] then
      let p := srtRound q2 evs
      srtLoop ls p.1 p.2
    else srtLoop ls q2 evs

/-- `parse_srt` over an in-memory string (as `SubRipSubtitle::from_str`). -/
def parseSrtStr (s : Str) : SubRipSubtitle :=
  { events := srtLoop (rustLines s) [] [] }

/-! ## `src/webvtt/parse.rs` -/

/-- WebVTT `parse_header`: `WEBVTT` (case-insensitive), optional `-`, and
the rest of the line up to a `'\n'` — note that `take_until("\n")` fails
(so `opt` yields `none`) when the input contains no newline. -/
def parseHeaderVtt : NomP (Option Str) := fun i =>
  (pTagNoCase (S ("WEBVTT")) i).andThen fun r _ =>
  (pSpace0 r).andThen fun r1 _ =>
  (pOpt (pTag (S ("-"))) r1).andThen fun r2 _ =>
  (pSpace0 r2).andThen fun r3 _ =>
  pOpt (pTakeUntil (S ("\n"))) r3

/-- WebVTT `parse_timestamp`: `H:MM:SS.mmm`, or `MM:SS.mmm` with hour 0. -/
def parseTimestampVtt : NomP Int :=
  alt2
    (fun i =>
      (delimitedP pSpace0 pI64 (pChar ':') i).andThen fun r1 h =>
      (terminatedP pI64 (pChar ':') r1).andThen fun r2 m =>
      (terminatedP pI64 (pChar '.') r2).andThen fun r3 s =>
      (terminatedP pI64 pSpace0 r3).andThen fun r4 ms =>
      .ok r4 (momentFromTimestamp h m s ms))
    (fun i =>
      (delimitedP pSpace0 pI64 (pChar ':') i).andThen fun r1 m =>
      (terminatedP pI64 (pChar '.') r1).andThen fun r2 s =>
      (terminatedP pI64 pSpace0 r2).andThen fun r3 ms =>
      .ok r3 (momentFromTimestamp 0 m s ms))

/-- WebVTT `parse_cue_timing`. -/
def parseCueTiming : NomP ((Int × Int) × Option Str) :=
  terminatedP
    (pairP (sepPairP parseTimestampVtt (pTag (S ("-->"))) parseTimestampVtt)
      (pOpt (pTakeUntil (S ("\n")))))
    pLineEnding

/-- WebVTT `parse_cue_identifier`. -/
def parseCueIdentifier : NomP Str :=
  terminatedP (pTakeUntil (S ("\n"))) pLineEnding

/-- `WebVttBlock`. -/
inductive WebVttBlock : Type where
  | cue (c : WebVttCue)
  | note (s : Str)
  | style (s : Str)
  | region (s : Str)
  | invalid (s : Str)
deriving DecidableEq, Repr

/-- WebVTT `parse_cue`.  In the second `alt` branch `opt(space0)` always
succeeds, so a cue without an identifier line carries `some` of the spaces
`space0` consumed (usually the empty string). -/
def parseCue : NomP WebVttBlock := fun i =>
  ((alt2 (pairP (pOpt parseCueIdentifier) parseCueTiming)
      (pairP (pOpt pSpace0) parseCueTiming)) i).andThen fun r x =>
  (takeUntilEndOfBlock r).andThen fun r2 text =>
  .ok r2 (.cue
    { identifier := x.1, text := text, settings := x.2.2,
      start := x.2.1.1, stop := x.2.1.2 })

/-- WebVTT `parse_style`. -/
def parseStyleVtt : NomP WebVttBlock :=
  pMap .style
    (precededP (pairP (pTag (S ("STYLE"))) pLineEnding) takeUntilEndOfBlock)

/-- WebVTT `parse_note`. -/
def parseNoteVtt : NomP WebVttBlock :=
  pMap .note
    (precededP (pairP (pTag (S ("NOTE"))) (alt2 pSpace1 pLineEnding))
      takeUntilEndOfBlock)

/-- WebVTT `parse_region`. -/
def parseRegionVtt : NomP WebVttBlock :=
  pMap .region
    (precededP (pairP (pTag (S ("REGION"))) pLineEnding) takeUntilEndOfBlock)

/-- WebVTT `parse_invalid`. -/
def parseInvalidVtt : NomP WebVttBlock :=
  pMap .invalid (alt2 (pTakeUntil (S ("\n\n"))) pRest)

/-- WebVTT `parse_block`. -/
def parseBlockVtt : NomP WebVttBlock :=
  precededP pMultispace0
    (alt2 parseCue
      (alt2 parseStyleVtt (alt2 parseNoteVtt (alt2 parseRegionVtt parseInvalidVtt))))

/-- WebVTT `parse_blocks` (fuelled); the separator is `parse_double_newline`. -/
def parseBlocksVttF (n : Nat) : NomP (List WebVttBlock) :=
  sepList1F (pValue ([] : Str) (pairP pLineEnding pLineEnding)) parseBlockVtt n

/-- WebVTT `parse_blocks`. -/
def parseBlocksVtt : NomP (List WebVttBlock) := fun i =>
  parseBlocksVttF (i.length + 1) i

/-- Accumulated cue/style/region state of the `parse_vtt` loop. -/
structure VttState : Type where
  cues : List WebVttCue
  styles : List Str
  regions : List Str
deriving DecidableEq, Repr

/-- Body of the `for block` loop in `parse_vtt`. -/
def vttApplyBlock (st : VttState) : WebVttBlock → VttState
  | .cue c => { st with cues := st.cues ++ [c] }
  | .style s => { st with styles := st.styles ++ [s] }
  | .region s => { st with regions := st.regions ++ [s] }
  | .note _ => st
  | .invalid _ => st

/-- One parse attempt over the queue in `parse_vtt`. -/
def vttRound (queue : Str) (st : VttState) : Str × VttState :=
  match parseBlocksVtt queue with
  | .ok rest bs => (rest, bs.foldl vttApplyBlock st)
  | .fail => (queue, st)
  | .crash => (queue, st)

/-- The streaming loop of `parse_vtt` (after the header line was taken). -/
def vttLoop : List Str → Str → VttState → VttState
  | [], q, st => (vttRound q st).2
  | l :: ls, q, st =>
    let q2 := q ++ l ++ ['\n']
    if l = [] then
      let p := vttRound q2 st
      vttLoop ls p.1 p.2
    else vttLoop ls q2 st

/-- `parse_vtt` over an in-memory string (as `WebVttSubtitle::from_str`):
the first line (already stripped of its newline by `lines()`) is offered to
`parse_header`, the remaining lines are streamed. -/
def parseVttStr (s : Str) : WebVttSubtitle :=
  let ls := rustLines s
  let header : Option Str :=
    match ls.head? with
    | some l =>
      match parseHeaderVtt l with
      | .ok _ h => h
      | _ => none
    | none => none
  let st := vttLoop ls.tail [] ⟨[], [], []⟩
  { header := header, cues := st.cues, styles := st.styles, regions := st.regions }

/-! ## `src/microdvd/parse.rs` -/

/-- MicroDVD `parse_frame`. -/
def parseFrameP : NomP Int := delimitedP (pChar '\x7b') pI64 (pChar '\x7d')

/-- MicroDVD `parse_frame_interval`. -/
def parseFrameInterval : NomP (Int × Int) := pairP parseFrameP parseFrameP

/-- MicroDVD `parse_microdvd_line`. -/
def parseMicrodvdLine : NomP MicroDvdEvent := fun i =>
  (parseFrameInterval i).andThen fun r se =>
  ((alt2 (pTakeUntil (S ("\n"))) pRest) r).andThen fun r2 text =>
  .ok r2 { start := se.1, stop := se.2, text := text }

/-- `parse_microdvd` over an in-memory string: each line independently, bad
lines skipped. -/
def parseMicrodvdStr (s : Str) : MicroDvdSubtitle :=
  { events :=
      (rustLines s).foldl
        (fun evs l =>
          match parseMicrodvdLine l with
          | .ok _ e => evs ++ [e]
          | _ => evs)
        [] }

/-! ## `src/substation/common/parse.rs` and `src/detection.rs` -/

/-- `parse_script_info_heading`. -/
def parseScriptInfoHeading : NomP Str :=
  delimitedP (pChar '[') (pTagNoCase (S ("Script Info"))) (pChar ']')

/-- `parse_script_type`: `ScriptType : v4.00+` (ASS) or `v4.00` (SSA),
case-insensitive, with loose spacing. -/
def parseScriptType : NomP Format := fun i =>
  (pSpace0 i).andThen fun r _ =>
  (pTagNoCase (S ("ScriptType")) r).andThen fun r1 _ =>
  (pSpace0 r1).andThen fun r2 _ =>
  (pChar ':' r2).andThen fun r3 _ =>
  (pSpace0 r3).andThen fun r4 _ =>
  ((alt2 (pTagNoCase (S ("v4.00+"))) (pTagNoCase (S ("v4.00")))) r4).andThen fun r5 s =>
  (pMultispace0 r5).andThen fun r6 _ =>
  .ok r6 (if s.map Char.toLower = S ("v4.00") then Format.ssa else Format.ass)

/-- `parse_format`: scan the text for the first `ScriptType` declaration. -/
def parseFormatSt : NomP Format := fun i =>
  match scanFor parseScriptType i with
  | .ok r x => .ok r x.2
  | .fail => .fail
  | .crash => .crash

/-- `Result::is_ok` on a parse result. -/
def isOkB {α : Type} : PRes α → Bool
  | .ok _ _ => true
  | _ => false

/-- `detect_format_from_str`: WebVTT header, then SubRip record, then
script-info heading (ASS/SSA via `ScriptType`, default ASS), then MicroDVD
line; `none` models `Error::FormatUnknownError`. -/
def detectFormatFromStr (s : Str) : Option Format :=
  if isOkB (parseHeaderVtt s) then some .webVtt
  else if isOkB (parseNewLine s) then some .subRip
  else if isOkB (parseScriptInfoHeading s) then
    match parseFormatSt s with
    | .ok _ f => some f
    | _ => some .ass
  else if isOkB (parseMicrodvdLine s) then some .microDvd
  else none

/-! ## Unformatted / plain text per event type (`TextEvent` impls) -/

/-- `SubRipEvent::unformatted_text`: strip tags, original text on failure. -/
def subRipUnformattedText (e : SubRipEvent) : Str :=
  match stripSrtFormatting e.text with
  | .ok _ s => s
  | _ => e.text

/-- `WebVttCue::unformatted_text`. -/
def webVttUnformattedText (e : WebVttCue) : Str :=
  match stripHtmlTags e.text with
  | .ok _ s => s
  | _ => e.text

/-- `AssEvent::unformatted_text`. -/
def assUnformattedText (e : AssEvent) : Str :=
  match assStripFormattingTags e.text with
  | .ok _ s => s
  | _ => e.text

/-- `SsaEvent::unformatted_text`. -/
def ssaUnformattedText (e : SsaEvent) : Str :=
  match ssaStripFormattingTags e.text with
  | .ok _ s => s
  | _ => e.text

/-- `TimedMicroDvdEvent::unformatted_text` (`src/microdvd/data.rs`,
lines 272–276): replaces every `'|'` with a newline. -/
def timedMicroDvdUnformattedText (e : TimedMicroDvdEvent) : Str :=
  replaceAll (S ("|")) (S ("\n")) e.text

/-- `MicroDvdEvent::unformatted_text` (`src/microdvd/data.rs`,
lines 394–398): replaces every `'|'` with a newline. -/
def microDvdUnformattedText (e : MicroDvdEvent) : Str :=
  replaceAll (S ("|")) (S ("\n")) e.text

/-- Modelled from the spec: the default body of `TextEvent::as_plaintext`
is not under `src/` (`src/traits.rs` as provided lacks the method, while
`src/plain.rs` and the tests call it); per the spec's §4.4 the plain-text
operation coincides with the per-format unformatted text, refined by the
format-specific overrides below. -/
def asPlaintextDefault (unformatted : Str) : Str := unformatted

/-- `SsaEvent::as_plaintext` (the override in `src/substation/ssa/data.rs`):
unformatted text with `\N` markers resolved to newlines. -/
def ssaAsPlaintext (e : SsaEvent) : Str :=
  replaceAll (S ("\\N")) (S ("\n")) (ssaUnformattedText e)

/-- `AssEvent` has no `as_plaintext` override in `src/`, so it uses the
trait default. -/
def assAsPlaintext (e : AssEvent) : Str := asPlaintextDefault (assUnformattedText e)

/-- `SubRipEvent::as_plaintext` via the trait default. -/
def subRipAsPlaintext (e : SubRipEvent) : Str :=
  asPlaintextDefault (subRipUnformattedText e)

/-- `WebVttCue::as_plaintext` via the trait default. -/
def webVttAsPlaintext (e : WebVttCue) : Str :=
  asPlaintextDefault (webVttUnformattedText e)

/-- `TimedMicroDvdEvent::as_plaintext` via the trait default. -/
def timedMicroDvdAsPlaintext (e : TimedMicroDvdEvent) : Str :=
  asPlaintextDefault (timedMicroDvdUnformattedText e)

/-! ## Cross-format conversions (the `From<&X> for Y` impls)

Each conversion maps the source's event list in order.  The four
conversions whose tag translation can reach the colour-hex byte slicing
(`ASS→SubRip`, `SSA→SubRip`, `SubRip→ASS`, `SubRip→SSA`) return `Option`;
`none` models the Rust panic aborting the conversion. -/

/-- `enumerate().map(...)` with an index-aware function (helper). -/
def enumMapGo {α β : Type} (f : Nat → α → β) : Nat → List α → List β
  | _, [] => []
  | i, a :: as => f i a :: enumMapGo f (i + 1) as

/-- `iter().enumerate().map(f).collect()`. -/
def enumMap {α β : Type} (f : Nat → α → β) (l : List α) : List β :=
  enumMapGo f 0 l

/-- Fallible `enumerate().map(...)`: `none` as soon as `f` panics. -/
def optEnumMapGo {α β : Type} (f : Nat → α → Option β) :
    Nat → List α → Option (List β)
  | _, [] => some []
  | i, a :: as =>
    match f i a with
    | none => none
    | some b => (optEnumMapGo f (i + 1) as).map (b :: ·)

/-- Fallible `iter().enumerate().map(f).collect()`. -/
def optEnumMap {α β : Type} (f : Nat → α → Option β) (l : List α) :
    Option (List β) :=
  optEnumMapGo f 0 l

/-- Fallible `iter().map(f).collect()`: `none` as soon as `f` panics. -/
def optMap {α β : Type} (f : α → Option β) : List α → Option (List β)
  | [] => some []
  | a :: as =>
    match f a with
    | none => none
    | some b => (optMap f as).map (b :: ·)

/-- Rust `str::parse::<usize>()`: optional leading `+`, one or more digits,
no other characters, value within `u64` range (`Ok` modelled as `some`). -/
def rustParseUsize (s : Str) : Option Nat :=
  let t := match s with
    | '+' :: r => r
    | _ => s
  if t ≠ [] ∧ t.all Char.isDigit ∧ foldDigits t < 2 ^ 64 then some (foldDigits t)
  else none

/-- Event-text step of `From<&AssSubtitle> for SubRipSubtitle`: resolve
`\N`, split bundled override groups, convert; keep the `\N`-resolved text
when a step fails; `none` models the colour-conversion panic. -/
def assToSrtEventText (t : Str) : Option Str :=
  let t1 := replaceAll (S ("\\N")) (S ("\n")) t
  match splitFormattingTags t1 with
  | .ok _ sep =>
    match assToSrtFormatting sep with
    | .ok _ conv => some conv
    | .fail => some t1
    | .crash => none
  | .fail => some t1
  | .crash => none

/-- `From<&AssSubtitle> for SubRipSubtitle`. -/
def subRipFromAss (v : AssSubtitle) : Option SubRipSubtitle :=
  (optEnumMap
      (fun i d =>
        (assToSrtEventText d.text).map fun text =>
          ({ lineNumber := i + 1, text := text, start := d.start,
             stop := d.stop, coordinates := none } : SubRipEvent))
      v.dialogue).map
    fun evs => { events := evs }

/-- `From<&TimedMicroDvdSubtitle> for SubRipSubtitle`. -/
def subRipFromTimedMicroDvd (v : TimedMicroDvdSubtitle) : SubRipSubtitle :=
  { events :=
      enumMap
        (fun i l =>
          { lineNumber := i + 1, text := replaceAll (S ("|")) (S ("\n")) l.text,
            start := l.start, stop := l.stop, coordinates := none })
        v.events }

/-- Event-text step of `From<&SsaSubtitle> for SubRipSubtitle`. -/
def ssaToSrtEventText (t : Str) : Option Str :=
  let t1 := replaceAll (S ("\\N")) (S ("\n")) t
  match splitFormattingTags t1 with
  | .ok _ sep =>
    match ssaToSrtFormatting sep with
    | .ok _ conv => some conv
    | .fail => some t1
    | .crash => none
  | .fail => some t1
  | .crash => none

/-- `From<&SsaSubtitle> for SubRipSubtitle`. -/
def subRipFromSsa (v : SsaSubtitle) : Option SubRipSubtitle :=
  (optEnumMap
      (fun i d =>
        (ssaToSrtEventText d.text).map fun text =>
          ({ lineNumber := i + 1, text := text, start := d.start,
             stop := d.stop, coordinates := none } : SubRipEvent))
      v.dialogue).map
    fun evs => { events := evs }

/-- `From<&WebVttSubtitle> for SubRipSubtitle`: numeric cue identifiers
become line numbers. -/
def subRipFromWebVtt (v : WebVttSubtitle) : SubRipSubtitle :=
  { events :=
      enumMap
        (fun i cue =>
          let text :=
            match vttToSrtFormatting cue.text with
            | .ok _ conv => conv
            | _ => cue.text
          let ident := cue.identifier.bind rustParseUsize
          { lineNumber := ident.getD (i + 1), text := text,
            start := cue.start, stop := cue.stop, coordinates := none })
        v.cues }

/-- `From<&AssSubtitle> for WebVttSubtitle` (header from the script title). -/
def webVttFromAss (v : AssSubtitle) : WebVttSubtitle :=
  { header := v.scriptInfoTitle
    cues :=
      v.dialogue.map fun d =>
        let t1 := replaceAll (S ("\\N")) (S ("\n")) d.text
        let text :=
          match splitFormattingTags t1 with
          | .ok _ sep =>
            match assToVttFormatting sep with
            | .ok _ conv => conv
            | _ => t1
          | _ => t1
        { identifier := none, text := text, settings := none,
          start := d.start, stop := d.stop }
    styles := []
    regions := [] }

/-- `From<&TimedMicroDvdSubtitle> for WebVttSubtitle`. -/
def webVttFromTimedMicroDvd (v : TimedMicroDvdSubtitle) : WebVttSubtitle :=
  { header := none
    cues :=
      v.events.map fun l =>
        { identifier := none, text := replaceAll (S ("|")) (S ("\n")) l.text,
          settings := none, start := l.start, stop := l.stop }
    styles := []
    regions := [] }

/-- `From<&SsaSubtitle> for WebVttSubtitle` (header is `None` here). -/
def webVttFromSsa (v : SsaSubtitle) : WebVttSubtitle :=
  { header := none
    cues :=
      v.dialogue.map fun d =>
        let t1 := replaceAll (S ("\\N")) (S ("\n")) d.text
        let text :=
          match splitFormattingTags t1 with
          | .ok _ sep =>
            match ssaToVttFormatting sep with
            | .ok _ conv => conv
            | _ => t1
          | _ => t1
        { identifier := none, text := text, settings := none,
          start := d.start, stop := d.stop }
    styles := []
    regions := [] }

/-- `From<&SubRipSubtitle> for WebVttSubtitle` (line numbers become cue
identifiers). -/
def webVttFromSubRip (v : SubRipSubtitle) : WebVttSubtitle :=
  { header := none
    cues :=
      v.events.map fun l =>
        let text :=
          match srtToVttFormatting l.text with
          | .ok _ conv => conv
          | _ => l.text
        { identifier := some (natDigits l.lineNumber), text := text,
          settings := none, start := l.start, stop := l.stop }
    styles := []
    regions := [] }

/-- `From<&TimedMicroDvdSubtitle> for AssSubtitle`. -/
def assFromTimedMicroDvd (v : TimedMicroDvdSubtitle) : AssSubtitle :=
  { scriptInfoTitle := none
    dialogue :=
      v.events.map fun l =>
        { kind := .dialogue, layer := 0, start := l.start, stop := l.stop,
          style := none, name := none, marginL := 0, marginR := 0,
          marginV := 0, effect := none,
          text := replaceAll (S ("|")) (S ("\\N")) l.text } }

/-- `From<&SsaSubtitle> for AssSubtitle` (fields copied, layer 0). -/
def assFromSsa (v : SsaSubtitle) : AssSubtitle :=
  { scriptInfoTitle := none
    dialogue :=
      v.dialogue.map fun e =>
        { kind := .dialogue, layer := 0, start := e.start, stop := e.stop,
          style := e.style, name := e.name, marginL := e.marginL,
          marginR := e.marginR, marginV := e.marginV, effect := e.effect,
          text := e.text } }

/-- Event-text step of `From<&SubRipSubtitle> for AssSubtitle`. -/
def srtToAssEventText (t : Str) : Option Str :=
  let t1 := replaceAll (S ("\n")) (S ("\\N")) t
  match srtToAssFormatting t1 with
  | .ok _ conv => some conv
  | .fail => some t1
  | .crash => none

/-- `From<&SubRipSubtitle> for AssSubtitle`. -/
def assFromSubRip (v : SubRipSubtitle) : Option AssSubtitle :=
  (optMap (fun l =>
      (srtToAssEventText l.text).map fun text =>
        ({ kind := .dialogue, layer := 0, start := l.start, stop := l.stop,
           style := none, name := none, marginL := 0, marginR := 0,
           marginV := 0, effect := none, text := text } : AssEvent)) v.events).map
    fun evs => { scriptInfoTitle := none, dialogue := evs }

/-- `From<&WebVttSubtitle> for AssSubtitle` (title from the header). -/
def assFromWebVtt (v : WebVttSubtitle) : AssSubtitle :=
  { scriptInfoTitle := v.header
    dialogue :=
      v.cues.map fun cue =>
        let t1 := replaceAll (S ("\n")) (S ("\\N")) cue.text
        let text :=
          match vttToAssFormatting t1 with
          | .ok _ conv => conv
          | _ => t1
        { kind := .dialogue, layer := 0, start := cue.start, stop := cue.stop,
          style := none, name := none, marginL := 0, marginR := 0,
          marginV := 0, effect := none, text := text } }

/-- `From<&AssSubtitle> for SsaSubtitle` (fields copied, marked false). -/
def ssaFromAss (v : AssSubtitle) : SsaSubtitle :=
  { scriptInfoTitle := none
    dialogue :=
      v.dialogue.map fun e =>
        { kind := .dialogue, marked := false, start := e.start, stop := e.stop,
          style := e.style, name := e.name, marginL := e.marginL,
          marginR := e.marginR, marginV := e.marginV, effect := e.effect,
          text := e.text } }

/-- `From<&TimedMicroDvdSubtitle> for SsaSubtitle`. -/
def ssaFromTimedMicroDvd (v : TimedMicroDvdSubtitle) : SsaSubtitle :=
  { scriptInfoTitle := none
    dialogue :=
      v.events.map fun l =>
        { kind := .dialogue, marked := false, start := l.start, stop := l.stop,
          style := none, name := none, marginL := 0, marginR := 0,
          marginV := 0, effect := none,
          text := replaceAll (S ("|")) (S ("\\N")) l.text } }

/-- Event-text step of `From<&SubRipSubtitle> for SsaSubtitle`. -/
def srtToSsaEventText (t : Str) : Option Str :=
  let t1 := replaceAll (S ("\n")) (S ("\\N")) t
  match srtToSsaFormatting t1 with
  | .ok _ conv => some conv
  | .fail => some t1
  | .crash => none

/-- `From<&SubRipSubtitle> for SsaSubtitle`. -/
def ssaFromSubRip (v : SubRipSubtitle) : Option SsaSubtitle :=
  (optMap (fun l =>
      (srtToSsaEventText l.text).map fun text =>
        ({ kind := .dialogue, marked := false, start := l.start,
           stop := l.stop, style := none, name := none, marginL := 0,
           marginR := 0, marginV := 0, effect := none,
           text := text } : SsaEvent)) v.events).map
    fun evs => { scriptInfoTitle := none, dialogue := evs }

/-- `From<&WebVttSubtitle> for SsaSubtitle` (uses the WebVTT→ASS tag
converter and takes the title from the header). -/
def ssaFromWebVtt (v : WebVttSubtitle) : SsaSubtitle :=
  { scriptInfoTitle := v.header
    dialogue :=
      v.cues.map fun cue =>
        let t1 := replaceAll (S ("\n")) (S ("\\N")) cue.text
        let text :=
          match vttToAssFormatting t1 with
          | .ok _ conv => conv
          | _ => t1
        { kind := .dialogue, marked := false, start := cue.start,
          stop := cue.stop, style := none, name := none, marginL := 0,
          marginR := 0, marginV := 0, effect := none, text := text } }

/-- `From<&AssSubtitle> for TimedMicroDvdSubtitle`. -/
def timedMicroDvdFromAss (v : AssSubtitle) : TimedMicroDvdSubtitle :=
  { events :=
      v.dialogue.map fun l =>
        { text := replaceAll (S ("\n")) (S ("|")) (assUnformattedText l),
          start := l.start, stop := l.stop }
    framerate := 24.0 }

/-- `From<&SsaSubtitle> for TimedMicroDvdSubtitle`. -/
def timedMicroDvdFromSsa (v : SsaSubtitle) : TimedMicroDvdSubtitle :=
  { events :=
      v.dialogue.map fun l =>
        { text := replaceAll (S ("\n")) (S ("|")) (ssaUnformattedText l),
          start := l.start, stop := l.stop }
    framerate := 24.0 }

/-- `From<&SubRipSubtitle> for TimedMicroDvdSubtitle`. -/
def timedMicroDvdFromSubRip (v : SubRipSubtitle) : TimedMicroDvdSubtitle :=
  { events :=
      v.events.map fun l =>
        { text := replaceAll (S ("\n")) (S ("|")) (subRipUnformattedText l),
          start := l.start, stop := l.stop }
    framerate := 24.0 }

/-- `From<&WebVttSubtitle> for TimedMicroDvdSubtitle`. -/
def timedMicroDvdFromWebVtt (v : WebVttSubtitle) : TimedMicroDvdSubtitle :=
  { events :=
      v.cues.map fun l =>
        { text := replaceAll (S ("\n")) (S ("|")) (webVttUnformattedText l),
          start := l.start, stop := l.stop }
    framerate := 24.0 }

/-- `From<&AssSubtitle> for PlainSubtitle` (the generic impl in
`src/plain.rs` at this type). -/
def plainFromAss (v : AssSubtitle) : PlainSubtitle :=
  { events :=
      v.dialogue.map fun e =>
        { text := assAsPlaintext e, start := e.start, stop := e.stop } }

/-- `From<&SsaSubtitle> for PlainSubtitle`. -/
def plainFromSsa (v : SsaSubtitle) : PlainSubtitle :=
  { events :=
      v.dialogue.map fun e =>
        { text := ssaAsPlaintext e, start := e.start, stop := e.stop } }

/-- `From<&SubRipSubtitle> for PlainSubtitle`. -/
def plainFromSubRip (v : SubRipSubtitle) : PlainSubtitle :=
  { events :=
      v.events.map fun e =>
        { text := subRipAsPlaintext e, start := e.start, stop := e.stop } }

/-- `From<&WebVttSubtitle> for PlainSubtitle`. -/
def plainFromWebVtt (v : WebVttSubtitle) : PlainSubtitle :=
  { events :=
      v.cues.map fun e =>
        { text := webVttAsPlaintext e, start := e.start, stop := e.stop } }

/-- `From<&TimedMicroDvdSubtitle> for PlainSubtitle`. -/
def plainFromTimedMicroDvd (v : TimedMicroDvdSubtitle) : PlainSubtitle :=
  { events :=
      v.events.map fun e =>
        { text := timedMicroDvdAsPlaintext e, start := e.start, stop := e.stop } }

/-! ## SubRip rendering (`Display` impls in `src/subrip/data.rs` and the
`Moment` timestamp formatting in `src/timing.rs`).  Rust `i64` division and
remainder truncate towards zero: `Int.tdiv` / `Int.tmod`. -/

/-- `Moment::hours`. -/
def momentHours (m : Int) : Int := ((m.tdiv 1000).tdiv 60).tdiv 60

/-- `Moment::minutes`. -/
def momentMinutes (m : Int) : Int := ((m.tdiv 1000).tdiv 60).tmod 60

/-- `Moment::seconds`. -/
def momentSeconds (m : Int) : Int := (m.tdiv 1000).tmod 60

/-- `Moment::ms`. -/
def momentMs (m : Int) : Int := m.tmod 1000

/-- `Moment::as_srt_timestamp`: `{:02}:{:02}:{:02},{:03}`. -/
def asSrtTimestamp (m : Int) : Str :=
  i64Pad 2 (momentHours m) ++ S (":") ++ i64Pad 2 (momentMinutes m) ++ S (":") ++
    i64Pad 2 (momentSeconds m) ++ S (",") ++ i64Pad 3 (momentMs m)

/-- `Display for SubRipEvent`. -/
def renderSrtEvent (e : SubRipEvent) : Str :=
  natDigits e.lineNumber ++ S ("\n") ++ asSrtTimestamp e.start ++ S (" --> ") ++
    asSrtTimestamp e.stop ++ (if e.coordinates.isSome then [' '] else []) ++
    e.coordinates.getD [] ++ S ("\n") ++ e.text

/-- `Display for SubRipSubtitle`: `writeln!("{}{}", sep, event)` with a
`"\n"` separator before every event but the first. -/
def renderSrt (d : SubRipSubtitle) : Str :=
  (enumMap (fun i e => (if 0 < i then ['\n'] else []) ++ renderSrtEvent e ++ ['\n'])
    d.events).flatten

/-! ## Canonical SubRip documents (for the round-trip property) -/

/-- Canonical event text: nonempty, carriage-return free, no blank line
inside (`"\n\n"`), no leading newline, and not ending in whitespace. -/
def textOkSrt (t : Str) : Bool :=
  !t.isEmpty && !t.any (fun c => c = '\r') && (findSub (S ("\n\n")) t).isNone &&
    t.head? != some '\n' &&
    (match t.getLast? with
     | some c => !isWs c
     | none => false)

/-- Canonical coordinate string: newline- and carriage-return-free and not
starting with a space or tab (it may be empty). -/
def coordOkSrt (c : Str) : Bool :=
  !c.any (fun x => x = '\n' || x = '\r') &&
    (match c.head? with
     | some x => !isSp x
     | none => true)

/-- Canonical SubRip event: parseable line number, timestamps within
`00:00:00,000`–`99:59:59,999`, a coordinate string present, canonical text. -/
def eventOkSrt (e : SubRipEvent) : Bool :=
  decide (e.lineNumber < 2 ^ 32) && decide (0 ≤ e.start) &&
    decide (e.start < 360000000) && decide (0 ≤ e.stop) &&
    decide (e.stop < 360000000) &&
    (match e.coordinates with
     | some c => coordOkSrt c
     | none => false) &&
    textOkSrt e.text

/-- Canonical SubRip document. -/
def canonSrt (d : SubRipSubtitle) : Bool := d.events.all eventOkSrt

/-- Start and end `Moment`s of a SubRip document's events, in order. -/
def srtTimings (d : SubRipSubtitle) : List (Int × Int) :=
  d.events.map fun e => (e.start, e.stop)

/-- Start and end `Moment`s of a WebVTT document's cues, in order. -/
def vttTimings (d : WebVttSubtitle) : List (Int × Int) :=
  d.cues.map fun e => (e.start, e.stop)

/-- Start and end `Moment`s of an ASS document's dialogue, in order. -/
def assTimings (d : AssSubtitle) : List (Int × Int) :=
  d.dialogue.map fun e => (e.start, e.stop)

/-- Start and end `Moment`s of an SSA document's dialogue, in order. -/
def ssaTimings (d : SsaSubtitle) : List (Int × Int) :=
  d.dialogue.map fun e => (e.start, e.stop)

/-- Start and end `Moment`s of a timed MicroDVD document's events. -/
def mdvdTimings (d : TimedMicroDvdSubtitle) : List (Int × Int) :=
  d.events.map fun e => (e.start, e.stop)

/-- Start and end `Moment`s of a plain document's events. -/
def plainTimings (d : PlainSubtitle) : List (Int × Int) :=
  d.events.map fun e => (e.start, e.stop)

/-- The byte-pair permutation the colour conversion performs on the padded
6-byte payload: bytes 4–6, then 2–4, then 0–2 (BB GG RR to RR GG BB for a
six-digit payload). -/
def byteSwap6 (l : Str) : Str :=
  (l.drop 4).take 2 ++ (l.drop 2).take 2 ++ l.take 2

/-- Join lines with a `'\n'` after each (the queue shape the streaming
parser rebuilds from `lines()`). -/
def joinLines (L : List Str) : Str := (L.map (fun l => l ++ ['\n'])).flatten

/-- The timing line a canonical SubRip event renders to. -/
def srtTimingLine (e : SubRipEvent) : Str :=
  asSrtTimestamp e.start ++ S (" --> ") ++ asSrtTimestamp e.stop ++
    (if e.coordinates.isSome then [' '] else []) ++ e.coordinates.getD []

/-- The lines a canonical SubRip event renders to: number line, timing
line, then the lines of its text. -/
def eventLines (e : SubRipEvent) : List Str :=
  natDigits e.lineNumber :: srtTimingLine e :: splitNl e.text

/-- The lines a SubRip document renders to: the first event's lines, then
an empty separator line before each further event's lines. -/
def docLines : List SubRipEvent → List Str
  | [] => []
  | e :: es => eventLines e ++ (es.map (fun e2 => [] :: eventLines e2)).flatten

/-- A parser that on success never returns more input than it was given
(every nom parser returns a suffix of its input); this is what makes each
loop iteration make progress. -/
def Shrinks {α : Type} (p : NomP α) : Prop :=
  ∀ i r a, p i = PRes.ok r a → r.length ≤ i.length

end Aspasia

namespace Aspasia

/-! # Theorems -/

/-! ## Parsers only shrink their input -/

theorem andThen_ok_elim {α β : Type} {x : PRes α} {f : Str → α → PRes β}
    {rest : Str} {b : β} (h : x.andThen f = .ok rest b) :
    ∃ j a, x = .ok j a ∧ f j a = .ok rest b := by
  cases x with
  | ok j a => exact ⟨j, a, rfl, h⟩
  | fail => simp [PRes.andThen] at h
  | crash => simp [PRes.andThen] at h

theorem length_dropWhile_le (p : Char → Bool) (l : Str) :
    (l.dropWhile p).length ≤ l.length := by
  induction l with
  | nil => simp [List.dropWhile]
  | cons c cs ih =>
    by_cases hc : p c
    · simp only [List.dropWhile, hc]
      exact le_trans ih (by simp)
    · simp [List.dropWhile, hc]

theorem shrinks_pTag (t : Str) : Shrinks (pTag t) := by
  intro i r a h
  unfold pTag at h
  split at h
  · injection h with h1 _
    subst h1
    simp
  · cases h

theorem shrinks_pTagNoCase (t : Str) : Shrinks (pTagNoCase t) := by
  intro i r a h
  unfold pTagNoCase at h
  split at h
  · injection h with h1 _
    subst h1
    simp
  · cases h

theorem shrinks_pChar (c : Char) : Shrinks (pChar c) := by
  intro i r a h
  unfold pChar at h
  split at h
  · rename_i c' cs _
    split at h
    · injection h with h1 _
      subst h1
      simp
    · cases h
  · cases h

theorem shrinks_pAnychar : Shrinks pAnychar := by
  intro i r a h
  unfold pAnychar at h
  split at h
  · injection h with h1 _
    subst h1
    simp
  · cases h

theorem shrinks_pOneOf (s : Str) : Shrinks (pOneOf s) := by
  intro i r a h
  unfold pOneOf at h
  split at h
  · split at h
    · injection h with h1 _
      subst h1
      simp
    · cases h
  · cases h

theorem shrinks_pTakeUntil (t : Str) : Shrinks (pTakeUntil t) := by
  intro i r a h
  unfold pTakeUntil at h
  split at h
  · injection h with h1 _
    subst h1
    simp
  · cases h

theorem shrinks_pTakeWhile0 (p : Char → Bool) : Shrinks (pTakeWhile0 p) := by
  intro i r a h
  unfold pTakeWhile0 at h
  injection h with h1 _
  subst h1
  exact length_dropWhile_le p i

theorem shrinks_pTakeWhile1 (p : Char → Bool) : Shrinks (pTakeWhile1 p) := by
  intro i r a h
  unfold pTakeWhile1 at h
  split at h
  · cases h
  · injection h with h1 _
    subst h1
    exact length_dropWhile_le p i

theorem shrinks_pRest : Shrinks pRest := by
  intro i r a h
  injection h with h1 _
  subst h1
  simp

theorem shrinks_pEof : Shrinks pEof := by
  intro i r a h
  unfold pEof at h
  split at h
  · injection h with h1 _
    subst h1
    simp
  · cases h

theorem shrinks_pOpt {α : Type} {p : NomP α} (hp : Shrinks p) :
    Shrinks (pOpt p) := by
  intro i r a h
  unfold pOpt at h
  split at h
  · rename_i j x heq
    injection h with h1 _
    subst h1
    exact hp i j x heq
  · injection h with h1 _
    subst h1
    exact le_refl _
  · cases h

theorem shrinks_pMap {α β : Type} (f : α → β) {p : NomP α} (hp : Shrinks p) :
    Shrinks (pMap f p) := by
  intro i r a h
  unfold pMap at h
  split at h
  · rename_i j x heq
    injection h with h1 _
    subst h1
    exact hp i j x heq
  · cases h
  · cases h

theorem shrinks_pValue {α β : Type} (v : β) {p : NomP α} (hp : Shrinks p) :
    Shrinks (pValue v p) :=
  shrinks_pMap _ hp

theorem shrinks_alt2 {α : Type} {p q : NomP α} (hp : Shrinks p)
    (hq : Shrinks q) : Shrinks (alt2 p q) := by
  intro i r a h
  unfold alt2 at h
  cases hpi : p i with
  | ok j x =>
    rw [hpi] at h
    have h2 : PRes.ok j x = PRes.ok r a := h
    injection h2 with h3 _
    exact h3 ▸ hp i j x hpi
  | fail =>
    rw [hpi] at h
    exact hq i r a h
  | crash =>
    rw [hpi] at h
    have h2 : (PRes.crash : PRes α) = PRes.ok r a := h
    cases h2

theorem shrinks_pairP {α β : Type} {p : NomP α} {q : NomP β} (hp : Shrinks p)
    (hq : Shrinks q) : Shrinks (pairP p q) := by
  intro i r a h
  unfold pairP at h
  obtain ⟨j, x, hx, h⟩ := andThen_ok_elim h
  obtain ⟨k, y, hy, h2⟩ := andThen_ok_elim h
  injection h2 with h3 _
  subst h3
  exact le_trans (hq j k y hy) (hp i j x hx)

theorem shrinks_precededP {α β : Type} {p : NomP α} {q : NomP β}
    (hp : Shrinks p) (hq : Shrinks q) : Shrinks (precededP p q) := by
  intro i r a h
  unfold precededP at h
  obtain ⟨j, x, hx, h⟩ := andThen_ok_elim h
  exact le_trans (hq j r a h) (hp i j x hx)

theorem shrinks_terminatedP {α β : Type} {p : NomP α} {q : NomP β}
    (hp : Shrinks p) (hq : Shrinks q) : Shrinks (terminatedP p q) := by
  intro i r a h
  unfold terminatedP at h
  obtain ⟨j, x, hx, h⟩ := andThen_ok_elim h
  obtain ⟨k, y, hy, h2⟩ := andThen_ok_elim h
  injection h2 with h3 _
  subst h3
  exact le_trans (hq j k y hy) (hp i j x hx)

theorem shrinks_delimitedP {α β γ : Type} {p : NomP α} {q : NomP β}
    {w : NomP γ} (hp : Shrinks p) (hq : Shrinks q) (hw : Shrinks w) :
    Shrinks (delimitedP p q w) := by
  intro i r a h
  unfold delimitedP at h
  obtain ⟨j, x, hx, h⟩ := andThen_ok_elim h
  obtain ⟨k, y, hy, h2⟩ := andThen_ok_elim h
  obtain ⟨l, z, hz, h3⟩ := andThen_ok_elim h2
  injection h3 with h4 _
  subst h4
  exact le_trans (hw k l z hz) (le_trans (hq j k y hy) (hp i j x hx))

theorem shrinks_sepPairP {α β γ : Type} {p : NomP α} {q : NomP β}
    {w : NomP γ} (hp : Shrinks p) (hw : Shrinks w) (hq : Shrinks q) :
    Shrinks (sepPairP p w q) := by
  intro i r a h
  unfold sepPairP at h
  obtain ⟨j, x, hx, h⟩ := andThen_ok_elim h
  obtain ⟨k, y, hy, h2⟩ := andThen_ok_elim h
  obtain ⟨l, z, hz, h3⟩ := andThen_ok_elim h2
  injection h3 with h4 _
  subst h4
  exact le_trans (hq k l z hz) (le_trans (hw j k y hy) (hp i j x hx))

theorem shrinks_pLineEnding : Shrinks pLineEnding := by
  intro i r a h
  unfold pLineEnding at h
  split at h
  · injection h with h1 _
    subst h1
    simp
  · injection h with h1 _
    subst h1
    simp only [List.length_cons]
    omega
  · cases h

theorem shrinks_pSpace0 : Shrinks pSpace0 := shrinks_pTakeWhile0 _

theorem shrinks_pSpace1 : Shrinks pSpace1 := shrinks_pTakeWhile1 _

theorem shrinks_pMultispace0 : Shrinks pMultispace0 := shrinks_pTakeWhile0 _

theorem shrinks_pU32 : Shrinks pU32 := by
  intro i r a h
  unfold pU32 at h
  split at h
  · cases h
  · split at h
    · injection h with h1 _
      subst h1
      exact length_dropWhile_le _ i
    · cases h

theorem shrinks_pI64Body (sg : Int) : ∀ j r a,
    pI64Body sg j = PRes.ok r a → r.length ≤ j.length := by
  intro j r a h
  unfold pI64Body at h
  split at h
  · cases h
  · split at h
    · injection h with h1 _
      subst h1
      exact length_dropWhile_le _ j
    · cases h

theorem shrinks_pI64 : Shrinks pI64 := by
  intro i r a h
  unfold pI64 at h
  split at h
  · rename_i t
    exact le_trans (shrinks_pI64Body 1 t r a h) (by simp)
  · rename_i t
    exact le_trans (shrinks_pI64Body (-1) t r a h) (by simp)
  · exact shrinks_pI64Body 1 _ r a h

theorem shrinks_many0F {α : Type} {p : NomP α} (hp : Shrinks p) :
    ∀ n, Shrinks (many0F p n) := by
  intro n
  induction n with
  | zero => intro i r a h; cases h
  | succ m ih =>
    intro i r a h
    unfold many0F at h
    cases hpi : p i with
    | fail =>
      rw [hpi] at h
      have h2 : PRes.ok i ([] : List α) = PRes.ok r a := h
      injection h2 with h3 _
      exact h3 ▸ le_refl _
    | crash =>
      rw [hpi] at h
      have h2 : (PRes.crash : PRes (List α)) = PRes.ok r a := h
      cases h2
    | ok j x =>
      rw [hpi] at h
      simp only at h
      split at h
      · cases h
      · cases hrec : many0F p m j with
        | ok k xs =>
          rw [hrec] at h
          have h2 : PRes.ok k (x :: xs) = PRes.ok r a := h
          injection h2 with h3 _
          exact h3 ▸ le_trans (ih j k xs hrec) (hp i j x hpi)
        | fail =>
          rw [hrec] at h
          have h2 : (PRes.fail : PRes (List α)) = PRes.ok r a := h
          cases h2
        | crash =>
          rw [hrec] at h
          have h2 : (PRes.crash : PRes (List α)) = PRes.ok r a := h
          cases h2

theorem shrinks_many1F {α : Type} {p : NomP α} (hp : Shrinks p) (n : Nat) :
    Shrinks (many1F p n) := by
  intro i r a h
  unfold many1F at h
  cases hpi : p i with
  | fail => rw [hpi] at h; cases h
  | crash => rw [hpi] at h; cases h
  | ok j x =>
    rw [hpi] at h
    simp only at h
    cases hrec : many0F p n j with
    | ok k xs =>
      rw [hrec] at h
      have h2 : PRes.ok k (x :: xs) = PRes.ok r a := h
      injection h2 with h3 _
      exact h3 ▸ le_trans (shrinks_many0F hp n j k xs hrec) (hp i j x hpi)
    | fail => rw [hrec] at h; cases h
    | crash => rw [hrec] at h; cases h

theorem shrinks_manyTillF {α β : Type} {p : NomP α} {g : NomP β}
    (hp : Shrinks p) (hg : Shrinks g) : ∀ n, Shrinks (manyTillF p g n) := by
  intro n
  induction n with
  | zero => intro i r a h; cases h
  | succ m ih =>
    intro i r a h
    unfold manyTillF at h
    cases hgi : g i with
    | ok j b =>
      rw [hgi] at h
      have h2 : PRes.ok j (([] : List α), b) = PRes.ok r a := h
      injection h2 with h3 _
      exact h3 ▸ hg i j b hgi
    | crash => rw [hgi] at h; cases h
    | fail =>
      rw [hgi] at h
      cases hpi : p i with
      | fail => rw [hpi] at h; cases h
      | crash => rw [hpi] at h; cases h
      | ok j x =>
        rw [hpi] at h
        simp only at h
        split at h
        · cases h
        · cases hrec : manyTillF p g m j with
          | ok k y =>
            rw [hrec] at h
            have h2 : PRes.ok k (x :: y.1, y.2) = PRes.ok r a := by
              cases y
              exact h
            injection h2 with h3 _
            exact h3 ▸ le_trans (ih j k y hrec) (hp i j x hpi)
          | fail => rw [hrec] at h; cases h
          | crash => rw [hrec] at h; cases h

theorem shrinks_scanFor {α : Type} {p : NomP α} (hp : Shrinks p) :
    ∀ i r x, scanFor p i = .ok r x → r.length ≤ i.length := by
  intro i
  induction i with
  | nil =>
    intro r x h
    unfold scanFor at h
    cases hpi : p [] with
    | ok j b =>
      rw [hpi] at h
      have h2 : PRes.ok j (([] : Str), b) = PRes.ok r x := h
      injection h2 with h3 _
      exact h3 ▸ hp [] j b hpi
    | fail => rw [hpi] at h; cases h
    | crash => rw [hpi] at h; cases h
  | cons c cs ih =>
    intro r x h
    unfold scanFor at h
    cases hpi : p (c :: cs) with
    | ok j b =>
      rw [hpi] at h
      have h2 : PRes.ok j (([] : Str), b) = PRes.ok r x := h
      injection h2 with h3 _
      exact h3 ▸ hp (c :: cs) j b hpi
    | crash => rw [hpi] at h; cases h
    | fail =>
      rw [hpi] at h
      simp only at h
      cases hrec : scanFor p cs with
      | ok k y =>
        rw [hrec] at h
        have h2 : PRes.ok k (c :: y.1, y.2) = PRes.ok r x := by
          cases y
          exact h
        injection h2 with h3 _
        subst h3
        exact le_trans (ih k y hrec) (by simp)
      | fail => rw [hrec] at h; cases h
      | crash => rw [hrec] at h; cases h

theorem shrinks_sepListLoopF {α γ : Type} {sep : NomP γ} {p : NomP α}
    (hsep : Shrinks sep) (hp : Shrinks p) : ∀ n, Shrinks (sepListLoopF sep p n) := by
  intro n
  induction n with
  | zero => intro i r a h; cases h
  | succ m ih =>
    intro i r a h
    unfold sepListLoopF at h
    cases hsi : sep i with
    | fail =>
      rw [hsi] at h
      have h2 : PRes.ok i ([] : List α) = PRes.ok r a := h
      injection h2 with h3 _
      exact h3 ▸ le_refl _
    | crash => rw [hsi] at h; cases h
    | ok j x =>
      rw [hsi] at h
      simp only at h
      split at h
      · cases h
      · cases hpi : p j with
        | fail =>
          rw [hpi] at h
          have h2 : PRes.ok i ([] : List α) = PRes.ok r a := h
          injection h2 with h3 _
          exact h3 ▸ le_refl _
        | crash => rw [hpi] at h; cases h
        | ok k y =>
          rw [hpi] at h
          simp only at h
          cases hrec : sepListLoopF sep p m k with
          | ok l ys =>
            rw [hrec] at h
            have h2 : PRes.ok l (y :: ys) = PRes.ok r a := h
            injection h2 with h3 _
            subst h3
            exact le_trans (ih k l ys hrec)
              (le_trans (hp j k y hpi) (hsep i j x hsi))
          | fail => rw [hrec] at h; cases h
          | crash => rw [hrec] at h; cases h

theorem shrinks_sepList1F {α γ : Type} {sep : NomP γ} {p : NomP α}
    (hsep : Shrinks sep) (hp : Shrinks p) (n : Nat) :
    Shrinks (sepList1F sep p n) := by
  intro i r a h
  unfold sepList1F at h
  cases hpi : p i with
  | fail => rw [hpi] at h; cases h
  | crash => rw [hpi] at h; cases h
  | ok j x =>
    rw [hpi] at h
    simp only at h
    cases hrec : sepListLoopF sep p n j with
    | ok k ys =>
      rw [hrec] at h
      have h2 : PRes.ok k (x :: ys) = PRes.ok r a := h
      injection h2 with h3 _
      exact h3 ▸ le_trans (shrinks_sepListLoopF hsep hp n j k ys hrec) (hp i j x hpi)
    | fail => rw [hrec] at h; cases h
    | crash => rw [hrec] at h; cases h

theorem shrinks_bracketTagP : Shrinks bracketTagP :=
  shrinks_delimitedP (shrinks_pChar _) (shrinks_pTakeUntil _) (shrinks_pChar _)

theorem shrinks_htmlTagP : Shrinks htmlTagP :=
  shrinks_delimitedP (shrinks_pChar _) (shrinks_pTakeUntil _) (shrinks_pChar _)

theorem shrinks_vtag (inp out : String) : Shrinks (vtag inp out) :=
  shrinks_pValue _ (shrinks_pTag _)

theorem shrinks_discardTag : Shrinks discardTag :=
  shrinks_pValue _ shrinks_bracketTagP

theorem shrinks_discardHtmlTag : Shrinks discardHtmlTag :=
  shrinks_pValue _ shrinks_htmlTagP

theorem shrinks_discardBracketTag : Shrinks discardBracketTag :=
  shrinks_pValue _ shrinks_bracketTagP

theorem shrinks_splitTag : Shrinks splitTag := by
  intro i r a h
  unfold splitTag at h
  cases hb : bracketTagP i with
  | fail => rw [hb] at h; cases h
  | crash => rw [hb] at h; cases h
  | ok j content =>
    rw [hb] at h
    simp only at h
    cases hm : many1F splitTagPiece (content.length + 1) content with
    | fail => rw [hm] at h; cases h
    | crash => rw [hm] at h; cases h
    | ok k pieces =>
      rw [hm] at h
      have h2 : PRes.ok j
          (pieces.foldl (fun res s => res ++ S ("\x7b\\") ++ s ++ S ("\x7d")) []) =
          PRes.ok r a := h
      injection h2 with h3 _
      exact h3 ▸ shrinks_bracketTagP i j content hb

theorem shrinks_fontColorTagFrom (pre : Str) : Shrinks (fontColorTagFrom pre) := by
  intro i r a h
  unfold fontColorTagFrom at h
  obtain ⟨j, x, hx, h⟩ := andThen_ok_elim h
  obtain ⟨k, y, hy, h⟩ := andThen_ok_elim h
  obtain ⟨l, z, hz, h⟩ := andThen_ok_elim h
  split at h
  · injection h with h1 _
    subst h1
    exact le_trans (shrinks_pTag _ k l z hz)
      (le_trans (shrinks_pTakeUntil _ j k y hy) (shrinks_pTag _ i j x hx))
  · cases h

theorem shrinks_convertFontColorTag : Shrinks convertFontColorTag :=
  shrinks_alt2 (shrinks_fontColorTagFrom _) (shrinks_fontColorTagFrom _)

theorem shrinks_replaceFontColorTag : Shrinks replaceFontColorTag := by
  intro i r a h
  unfold replaceFontColorTag at h
  obtain ⟨j, x, hx, h⟩ := andThen_ok_elim h
  obtain ⟨k, y, hy, h⟩ := andThen_ok_elim h
  obtain ⟨l, z, hz, h⟩ := andThen_ok_elim h
  split at h
  · injection h with h1 _
    subst h1
    exact le_trans (shrinks_pTag _ k l z hz)
      (le_trans (shrinks_pTakeUntil _ j k y hy) (shrinks_pTag _ i j x hx))
  · cases h

theorem shrinks_keepHtmlTags : Shrinks keepHtmlTags :=
  shrinks_alt2 (shrinks_pTag _)
    (shrinks_alt2 (shrinks_pTag _)
      (shrinks_alt2 (shrinks_pTag _)
        (shrinks_alt2 (shrinks_pTag _)
          (shrinks_alt2 (shrinks_pTag _) (shrinks_pTag _)))))

theorem shrinks_convertToSsaTagSrt : Shrinks convertToSsaTagSrt :=
  shrinks_alt2 (shrinks_vtag _ _)
    (shrinks_alt2 (shrinks_vtag _ _)
      (shrinks_alt2 (shrinks_vtag _ _)
        (shrinks_alt2 (shrinks_vtag _ _)
          (shrinks_alt2 (shrinks_vtag _ _)
            (shrinks_alt2 (shrinks_vtag _ _)
              (shrinks_alt2 (shrinks_vtag _ _) (shrinks_vtag _ _)))))))

theorem shrinks_convertToAssTagSrt : Shrinks convertToAssTagSrt :=
  shrinks_alt2 shrinks_convertToSsaTagSrt
    (shrinks_alt2 (shrinks_vtag _ _)
      (shrinks_alt2 (shrinks_vtag _ _)
        (shrinks_alt2 (shrinks_vtag _ _) (shrinks_vtag _ _))))

theorem shrinks_convertToVttTagSrt : Shrinks convertToVttTagSrt :=
  shrinks_alt2 (shrinks_vtag _ _)
    (shrinks_alt2 (shrinks_vtag _ _)
      (shrinks_alt2 (shrinks_vtag _ _)
        (shrinks_alt2 (shrinks_vtag _ _)
          (shrinks_alt2 (shrinks_vtag _ _) (shrinks_vtag _ _)))))

theorem shrinks_convertAssTagToHtml : Shrinks convertAssTagToHtml :=
  shrinks_alt2 (shrinks_vtag _ _)
    (shrinks_alt2 (shrinks_vtag _ _)
      (shrinks_alt2 (shrinks_vtag _ _)
        (shrinks_alt2 (shrinks_vtag _ _)
          (shrinks_alt2 (shrinks_vtag _ _) (shrinks_vtag _ _)))))

theorem shrinks_convertSsaTagToHtml : Shrinks convertSsaTagToHtml :=
  shrinks_alt2 (shrinks_vtag _ _)
    (shrinks_alt2 (shrinks_vtag _ _)
      (shrinks_alt2 (shrinks_vtag _ _) (shrinks_vtag _ _)))

theorem shrinks_convertVttTagToAss : Shrinks convertVttTagToAss :=
  shrinks_alt2 (shrinks_vtag _ _)
    (shrinks_alt2 (shrinks_vtag _ _)
      (shrinks_alt2 (shrinks_vtag _ _)
        (shrinks_alt2 (shrinks_vtag _ _)
          (shrinks_alt2 (shrinks_vtag _ _) (shrinks_vtag _ _)))))

theorem shrinks_parseDrawingEndTag : Shrinks parseDrawingEndTag := by
  intro i r a h
  unfold parseDrawingEndTag at h
  obtain ⟨j, content, hj, h⟩ := andThen_ok_elim h
  split at h
  · cases h
  · cases h
  · exact shrinks_terminatedP (shrinks_pTakeUntil _) (shrinks_pChar _) i r a h

theorem shrinks_discardDrawingSpan : Shrinks discardDrawingSpan := by
  intro i r a h
  unfold discardDrawingSpan at h
  cases hb : bracketTagP i with
  | fail => rw [hb] at h; cases h
  | crash => rw [hb] at h; cases h
  | ok j content =>
    rw [hb] at h
    simp only at h
    split at h
    · cases h
    · cases h
    · cases hs : scanFor parseDrawingEndTag i with
      | ok k y =>
        rw [hs] at h
        have h2 : PRes.ok k ([] : Str) = PRes.ok r a := h
        injection h2 with h3 _
        exact h3 ▸ shrinks_scanFor shrinks_parseDrawingEndTag i k y hs
      | crash => rw [hs] at h; cases h
      | fail =>
        rw [hs] at h
        have h2 : PRes.ok ([] : Str) ([] : Str) = PRes.ok r a := h
        injection h2 with h3 _
        subst h3
        simp

theorem shrinks_takeUntilEndOfBlock : Shrinks takeUntilEndOfBlock := by
  intro i r a h
  unfold takeUntilEndOfBlock at h
  cases hs : scanFor (alt2 (pairP pLineEnding pLineEnding) (pairP pMultispace0 pEof)) i with
  | ok k y =>
    rw [hs] at h
    have h2 : PRes.ok k y.1 = PRes.ok r a := by
      cases y
      exact h
    injection h2 with h3 _
    refine h3 ▸ shrinks_scanFor ?_ i k y hs
    exact shrinks_alt2 (shrinks_pairP shrinks_pLineEnding shrinks_pLineEnding)
      (shrinks_pairP shrinks_pMultispace0 shrinks_pEof)
  | fail => rw [hs] at h; cases h
  | crash => rw [hs] at h; cases h

theorem shrinks_parseTimestampSrt : Shrinks parseTimestampSrt := by
  intro i r a h
  unfold parseTimestampSrt at h
  obtain ⟨r0, x0, h0, h⟩ := andThen_ok_elim h
  obtain ⟨r1, x1, h1, h⟩ := andThen_ok_elim h
  obtain ⟨r2, x2, h2, h⟩ := andThen_ok_elim h
  obtain ⟨r3, x3, h3, h⟩ := andThen_ok_elim h
  obtain ⟨r4, x4, h4, h⟩ := andThen_ok_elim h
  obtain ⟨r5, x5, h5, h⟩ := andThen_ok_elim h
  injection h with h6 _
  subst h6
  have l0 := shrinks_pSpace0 i r0 x0 h0
  have l1 := shrinks_terminatedP shrinks_pI64 (shrinks_pChar _) r0 r1 x1 h1
  have l2 := shrinks_pI64 r1 r2 x2 h2
  have l3 := shrinks_delimitedP (shrinks_pChar _) shrinks_pI64 (shrinks_pChar _) r2 r3 x3 h3
  have l4 := shrinks_pI64 r3 r4 x4 h4
  have l5 := shrinks_pSpace0 r4 r5 x5 h5
  omega

theorem shrinks_parseTimingSrt : Shrinks parseTimingSrt :=
  shrinks_pairP
    (shrinks_sepPairP shrinks_parseTimestampSrt (shrinks_pTag _)
      shrinks_parseTimestampSrt)
    (shrinks_terminatedP (shrinks_pOpt (shrinks_pTakeUntil _)) shrinks_pLineEnding)

theorem shrinks_parseLineNumber : Shrinks parseLineNumber :=
  shrinks_terminatedP shrinks_pU32 shrinks_pLineEnding

theorem shrinks_parseNewLine : Shrinks parseNewLine := by
  intro i r a h
  unfold parseNewLine at h
  obtain ⟨r0, x0, h0, h⟩ := andThen_ok_elim h
  obtain ⟨r1, x1, h1, h⟩ := andThen_ok_elim h
  obtain ⟨r2, x2, h2, h⟩ := andThen_ok_elim h
  obtain ⟨r3, x3, h3, h⟩ := andThen_ok_elim h
  injection h with h4 _
  subst h4
  have l0 := shrinks_many0F shrinks_pLineEnding (i.length + 1) i r0 x0 h0
  have l1 := shrinks_parseLineNumber r0 r1 x1 h1
  have l2 := shrinks_parseTimingSrt r1 r2 x2 h2
  have l3 := shrinks_takeUntilEndOfBlock r2 r3 x3 h3
  omega

theorem shrinks_parseContinuation : Shrinks parseContinuation :=
  shrinks_pMap _ (shrinks_pTakeUntil _)

theorem shrinks_parseBlockSrt : Shrinks parseBlockSrt :=
  shrinks_precededP shrinks_pMultispace0
    (shrinks_alt2 shrinks_parseNewLine shrinks_parseContinuation)

theorem shrinks_parseTimestampVtt : Shrinks parseTimestampVtt := by
  refine shrinks_alt2 ?_ ?_
  · intro i r a h
    obtain ⟨r1, x1, h1, h⟩ := andThen_ok_elim h
    obtain ⟨r2, x2, h2, h⟩ := andThen_ok_elim h
    obtain ⟨r3, x3, h3, h⟩ := andThen_ok_elim h
    obtain ⟨r4, x4, h4, h⟩ := andThen_ok_elim h
    injection h with h5 _
    subst h5
    have l1 := shrinks_delimitedP shrinks_pSpace0 shrinks_pI64 (shrinks_pChar _) i r1 x1 h1
    have l2 := shrinks_terminatedP shrinks_pI64 (shrinks_pChar _) r1 r2 x2 h2
    have l3 := shrinks_terminatedP shrinks_pI64 (shrinks_pChar _) r2 r3 x3 h3
    have l4 := shrinks_terminatedP shrinks_pI64 shrinks_pSpace0 r3 r4 x4 h4
    omega
  · intro i r a h
    obtain ⟨r1, x1, h1, h⟩ := andThen_ok_elim h
    obtain ⟨r2, x2, h2, h⟩ := andThen_ok_elim h
    obtain ⟨r3, x3, h3, h⟩ := andThen_ok_elim h
    injection h with h4 _
    subst h4
    have l1 := shrinks_delimitedP shrinks_pSpace0 shrinks_pI64 (shrinks_pChar _) i r1 x1 h1
    have l2 := shrinks_terminatedP shrinks_pI64 (shrinks_pChar _) r1 r2 x2 h2
    have l3 := shrinks_terminatedP shrinks_pI64 shrinks_pSpace0 r2 r3 x3 h3
    omega

theorem shrinks_parseCueTiming : Shrinks parseCueTiming :=
  shrinks_terminatedP
    (shrinks_pairP
      (shrinks_sepPairP shrinks_parseTimestampVtt (shrinks_pTag _)
        shrinks_parseTimestampVtt)
      (shrinks_pOpt (shrinks_pTakeUntil _)))
    shrinks_pLineEnding

theorem shrinks_parseCueIdentifier : Shrinks parseCueIdentifier :=
  shrinks_terminatedP (shrinks_pTakeUntil _) shrinks_pLineEnding

theorem shrinks_parseCue : Shrinks parseCue := by
  intro i r a h
  unfold parseCue at h
  obtain ⟨j, x, hx, h⟩ := andThen_ok_elim h
  obtain ⟨k, t, ht, h2⟩ := andThen_ok_elim h
  injection h2 with h3 _
  subst h3
  refine le_trans (shrinks_takeUntilEndOfBlock j k t ht) ?_
  refine shrinks_alt2 ?_ ?_ i j x hx
  · exact shrinks_pairP (shrinks_pOpt shrinks_parseCueIdentifier) shrinks_parseCueTiming
  · exact shrinks_pairP (shrinks_pOpt shrinks_pSpace0) shrinks_parseCueTiming

theorem shrinks_parseStyleVtt : Shrinks parseStyleVtt :=
  shrinks_pMap _
    (shrinks_precededP (shrinks_pairP (shrinks_pTag _) shrinks_pLineEnding)
      shrinks_takeUntilEndOfBlock)

theorem shrinks_parseNoteVtt : Shrinks parseNoteVtt :=
  shrinks_pMap _
    (shrinks_precededP
      (shrinks_pairP (shrinks_pTag _) (shrinks_alt2 shrinks_pSpace1 shrinks_pLineEnding))
      shrinks_takeUntilEndOfBlock)

theorem shrinks_parseRegionVtt : Shrinks parseRegionVtt :=
  shrinks_pMap _
    (shrinks_precededP (shrinks_pairP (shrinks_pTag _) shrinks_pLineEnding)
      shrinks_takeUntilEndOfBlock)

theorem shrinks_parseInvalidVtt : Shrinks parseInvalidVtt :=
  shrinks_pMap _ (shrinks_alt2 (shrinks_pTakeUntil _) shrinks_pRest)

theorem shrinks_parseBlockVtt : Shrinks parseBlockVtt :=
  shrinks_precededP shrinks_pMultispace0
    (shrinks_alt2 shrinks_parseCue
      (shrinks_alt2 shrinks_parseStyleVtt
        (shrinks_alt2 shrinks_parseNoteVtt
          (shrinks_alt2 shrinks_parseRegionVtt shrinks_parseInvalidVtt))))

/-! ## Fuel stability: every loop's result is unchanged by extra fuel

Because nom's loops error out on an iteration that consumes nothing, and
every parser returns a suffix of its input, fuel `|input| + 1` is enough
for any loop; more fuel never changes the result.  This is the formal
content of "no input makes a parse or conversion loop forever". -/

theorem manyTillF_stable {α β : Type} {p : NomP α} {g : NomP β}
    (hp : Shrinks p) :
    ∀ (k : Nat) (i : Str), i.length ≤ k → ∀ n m, i.length < n →
      i.length < m → manyTillF p g n i = manyTillF p g m i := by
  intro k
  induction k with
  | zero =>
    intro i hik n m hn hm
    obtain ⟨n1, rfl⟩ : ∃ n1, n = n1 + 1 := ⟨n - 1, by omega⟩
    obtain ⟨m1, rfl⟩ : ∃ m1, m = m1 + 1 := ⟨m - 1, by omega⟩
    unfold manyTillF
    cases hgi : g i <;> simp only [hgi]
    cases hpi : p i <;> simp only [hpi]
    have hr : _ = i.length := le_antisymm (hp i _ _ hpi) (by omega)
    simp [hr]
  | succ k1 ih =>
    intro i hik n m hn hm
    obtain ⟨n1, rfl⟩ : ∃ n1, n = n1 + 1 := ⟨n - 1, by omega⟩
    obtain ⟨m1, rfl⟩ : ∃ m1, m = m1 + 1 := ⟨m - 1, by omega⟩
    unfold manyTillF
    cases hgi : g i <;> simp only [hgi]
    cases hpi : p i <;> simp only [hpi]
    rename_i r a
    by_cases hr : r.length = i.length
    · simp [hr]
    · have hle := hp i r a hpi
      have hstep : manyTillF p g n1 r = manyTillF p g m1 r :=
        ih r (by omega) n1 m1 (by omega) (by omega)
      simp [hr, hstep]

theorem many0F_stable {α : Type} {p : NomP α} (hp : Shrinks p) :
    ∀ (k : Nat) (i : Str), i.length ≤ k → ∀ n m, i.length < n →
      i.length < m → many0F p n i = many0F p m i := by
  intro k
  induction k with
  | zero =>
    intro i hik n m hn hm
    obtain ⟨n1, rfl⟩ : ∃ n1, n = n1 + 1 := ⟨n - 1, by omega⟩
    obtain ⟨m1, rfl⟩ : ∃ m1, m = m1 + 1 := ⟨m - 1, by omega⟩
    unfold many0F
    cases hpi : p i <;> simp only [hpi]
    have hr : _ = i.length := le_antisymm (hp i _ _ hpi) (by omega)
    simp [hr]
  | succ k1 ih =>
    intro i hik n m hn hm
    obtain ⟨n1, rfl⟩ : ∃ n1, n = n1 + 1 := ⟨n - 1, by omega⟩
    obtain ⟨m1, rfl⟩ : ∃ m1, m = m1 + 1 := ⟨m - 1, by omega⟩
    unfold many0F
    cases hpi : p i <;> simp only [hpi]
    rename_i r a
    by_cases hr : r.length = i.length
    · simp [hr]
    · have hle := hp i r a hpi
      have hstep : many0F p n1 r = many0F p m1 r :=
        ih r (by omega) n1 m1 (by omega) (by omega)
      simp [hr, hstep]

theorem sepListLoopF_stable {α γ : Type} {sep : NomP γ} {p : NomP α}
    (hsep : Shrinks sep) (hp : Shrinks p) :
    ∀ (k : Nat) (i : Str), i.length ≤ k → ∀ n m, i.length < n →
      i.length < m → sepListLoopF sep p n i = sepListLoopF sep p m i := by
  intro k
  induction k with
  | zero =>
    intro i hik n m hn hm
    obtain ⟨n1, rfl⟩ : ∃ n1, n = n1 + 1 := ⟨n - 1, by omega⟩
    obtain ⟨m1, rfl⟩ : ∃ m1, m = m1 + 1 := ⟨m - 1, by omega⟩
    unfold sepListLoopF
    cases hsi : sep i <;> simp only [hsi]
    have hr : _ = i.length := le_antisymm (hsep i _ _ hsi) (by omega)
    simp [hr]
  | succ k1 ih =>
    intro i hik n m hn hm
    obtain ⟨n1, rfl⟩ : ∃ n1, n = n1 + 1 := ⟨n - 1, by omega⟩
    obtain ⟨m1, rfl⟩ : ∃ m1, m = m1 + 1 := ⟨m - 1, by omega⟩
    unfold sepListLoopF
    cases hsi : sep i <;> simp only [hsi]
    rename_i r1 x
    by_cases hr : r1.length = i.length
    · simp [hr]
    · have hle1 := hsep i r1 x hsi
      cases hpi : p r1 <;> simp only [hpi, hr, if_neg, reduceIte]
      rename_i r2 y
      have hle2 := hp r1 r2 y hpi
      have hstep : sepListLoopF sep p n1 r2 = sepListLoopF sep p m1 r2 :=
        ih r2 (by omega) n1 m1 (by omega) (by omega)
      simp [hstep]

theorem sepList1F_stable {α γ : Type} {sep : NomP γ} {p : NomP α}
    (hsep : Shrinks sep) (hp : Shrinks p) (i : Str) (n m : Nat)
    (hn : i.length < n) (hm : i.length < m) :
    sepList1F sep p n i = sepList1F sep p m i := by
  unfold sepList1F
  cases hpi : p i <;> simp only [hpi]
  rename_i r x
  have hle := hp i r x hpi
  have hstep : sepListLoopF sep p n r = sepListLoopF sep p m r :=
    sepListLoopF_stable hsep hp r.length r (le_refl _) n m (by omega) (by omega)
  simp [hstep]

/-! ## Map projection lemmas (for timing preservation) -/

theorem map_map_proj {α β γ : Type} {f : α → β} {proj : β → γ} {p : α → γ}
    (hf : ∀ a, proj (f a) = p a) :
    ∀ l : List α, (l.map f).map proj = l.map p := by
  intro l
  induction l with
  | nil => rfl
  | cons a as ih => simp [hf, ih]

theorem enumMapGo_map_proj {α β γ : Type} {f : Nat → α → β} {proj : β → γ}
    {p : α → γ} (hf : ∀ i a, proj (f i a) = p a) :
    ∀ (st : Nat) (l : List α), (enumMapGo f st l).map proj = l.map p := by
  intro st l
  induction l generalizing st with
  | nil => rfl
  | cons a as ih => simp [enumMapGo, hf, ih]

theorem optEnumMapGo_map_proj {α β γ : Type} {f : Nat → α → Option β}
    {proj : β → γ} {p : α → γ}
    (hf : ∀ i a b, f i a = some b → proj b = p a) :
    ∀ (st : Nat) (l : List α) (out : List β),
      optEnumMapGo f st l = some out → out.map proj = l.map p := by
  intro st l
  induction l generalizing st with
  | nil =>
    intro out h
    unfold optEnumMapGo at h
    injection h with h1
    subst h1
    rfl
  | cons a as ih =>
    intro out h
    unfold optEnumMapGo at h
    cases hfa : f st a with
    | none => rw [hfa] at h; cases h
    | some b =>
      rw [hfa] at h
      cases hrec : optEnumMapGo f (st + 1) as with
      | none => rw [hrec] at h; cases h
      | some os =>
        rw [hrec] at h
        simp only [Option.map_some] at h
        injection h with h1
        subst h1
        simp only [List.map_cons]
        rw [hf st a b hfa, ih (st + 1) os hrec]

theorem optMap_map_proj {α β γ : Type} {f : α → Option β} {proj : β → γ}
    {p : α → γ} (hf : ∀ a b, f a = some b → proj b = p a) :
    ∀ (l : List α) (out : List β),
      optMap f l = some out → out.map proj = l.map p := by
  intro l
  induction l with
  | nil =>
    intro out h
    unfold optMap at h
    injection h with h1
    subst h1
    rfl
  | cons a as ih =>
    intro out h
    unfold optMap at h
    cases hfa : f a with
    | none => rw [hfa] at h; cases h
    | some b =>
      rw [hfa] at h
      cases hrec : optMap f as with
      | none => rw [hrec] at h; cases h
      | some os =>
        rw [hrec] at h
        simp only [Option.map_some] at h
        injection h with h1
        subst h1
        simp only [List.map_cons]
        rw [hf a b hfa, ih os hrec]

/-! ## Helper lemmas about byte slicing -/

theorem dropBytes_all_one (l : Str) :
    ∀ n, (∀ c ∈ l, c.utf8Size = 1) → n ≤ l.length →
      dropBytes l n = some (l.drop n) := by
  induction l with
  | nil =>
    intro n _ hn
    simp only [List.length_nil, Nat.le_zero] at hn
    subst hn
    rfl
  | cons c cs ih =>
    intro n hall hn
    cases n with
    | zero => rfl
    | succ m =>
      have hc : c.utf8Size = 1 := hall c (by simp)
      simp only [dropBytes, hc, List.drop_succ_cons]
      rw [if_pos (by omega)]
      have : m + 1 - 1 = m := by omega
      rw [this]
      exact ih m (fun x hx => hall x (by simp [hx])) (by simpa using hn)

theorem takeBytes_all_one (l : Str) :
    ∀ n, (∀ c ∈ l, c.utf8Size = 1) → n ≤ l.length →
      takeBytes l n = some (l.take n) := by
  induction l with
  | nil =>
    intro n _ hn
    simp only [List.length_nil, Nat.le_zero] at hn
    subst hn
    rfl
  | cons c cs ih =>
    intro n hall hn
    cases n with
    | zero => rfl
    | succ m =>
      have hc : c.utf8Size = 1 := hall c (by simp)
      simp only [takeBytes, hc, List.take_succ_cons]
      rw [if_pos (by omega)]
      have : m + 1 - 1 = m := by omega
      rw [this, ih m (fun x hx => hall x (by simp [hx])) (by simpa using hn)]
      rfl

/-- Claim C1 (code bug): the claim says no conversion panics for any
payload between the colour delimiters, but `convert_hex` /
`correct_colour_hex` byte-slice `&s[2..4]` of the padded payload, which is
not a character boundary when the payload holds a multi-byte character such
as `€`; converting `{\1c&H€&}` (ASS→SubRip), `{\c&H€&}` (SSA→SubRip) or
`<font color="#€">` (SubRip→ASS/SSA) panics, and the document-level
ASS→SubRip conversion aborts. -/
theorem c1_color_conversion_crash_on_nonascii_payload :
    convertHex (S ("€")) = none ∧
    correctColourHex (S ("€")) = none ∧
    assToSrtFormatting (S ("\x7b\\1c&H€&\x7d")) = PRes.crash ∧
    ssaToSrtFormatting (S ("\x7b\\c&H€&\x7d")) = PRes.crash ∧
    replaceFontColorTag (S ("<font color=\"#€\">")) = PRes.crash ∧
    subRipFromAss
      { scriptInfoTitle := none
        dialogue := [{ kind := .dialogue, layer := 0, start := 0, stop := 1000,
                       style := none, name := none, marginL := 0, marginR := 0,
                       marginV := 0, effect := none,
                       text := S ("\x7b\\1c&H€&\x7d") }] } = none := by
  decide

/-- Claim C2, counterexample: the claim says a 2-digit payload `XY` is
zero-padded to `0000XY` and swapped to `XY0000`; the code instead formats
the payload with `{:06}`, which for a `&str` left-aligns and fills with
spaces, so payload `AB` yields `"    AB"`, not `"AB0000"`. -/
theorem c2_counterexample_space_padding :
    convertHex (S ("AB")) = some (S ("    AB")) ∧
    convertHex (S ("AB")) ≠ some (S ("AB0000")) ∧
    correctColourHex (S ("AB")) = some (S ("    AB")) := by
  decide

/-- Claim C2 as amended: the colour conversion formats the payload with
`{:06}`, which for a string left-aligns and pads on the right with spaces
(the `0` flag only zero-pads numbers), and then performs the pure byte-pair
permutation bytes 4–6, 2–4, 0–2.  For a payload of up to six one-byte
characters the result is that permutation of the space-padded payload — for
a full six-digit payload `BBGGRR` exactly the swap to `RRGGBB`, but for a
2-digit payload `XY` the output is four spaces followed by `XY`. -/
theorem c2_amended_space_padded_byte_swap (p : Str) (hlen : p.length ≤ 6)
    (hone : ∀ c ∈ p, c.utf8Size = 1) :
    convertHex p = some (byteSwap6 (p ++ List.replicate (6 - p.length) ' ')) ∧
    correctColourHex p = some (byteSwap6 (p ++ List.replicate (6 - p.length) ' ')) := by
  set q : Str := p ++ List.replicate (6 - p.length) ' ' with hq
  have hqlen : q.length = 6 := by
    simp only [hq, List.length_append, List.length_replicate]
    omega
  have hqall : ∀ c ∈ q, c.utf8Size = 1 := by
    intro c hc
    rcases List.mem_append.1 hc with h | h
    · exact hone c h
    · rw [List.eq_of_mem_replicate h]
      decide
  have hpad : rustPad6 p = q := by
    unfold rustPad6
    by_cases h6 : 6 ≤ p.length
    · have h66 : p.length = 6 := le_antisymm hlen h6
      simp [h6, hq, h66]
    · simp [h6, hq]
  have hs46 : sliceBytes q 4 6 = some ((q.drop 4).take 2) := by
    unfold sliceBytes
    rw [dropBytes_all_one q 4 hqall (by omega)]
    exact takeBytes_all_one (q.drop 4)
      2 (fun c hc => hqall c (List.mem_of_mem_drop hc)) (by simp [hqlen])
  have hs24 : sliceBytes q 2 4 = some ((q.drop 2).take 2) := by
    unfold sliceBytes
    rw [dropBytes_all_one q 2 hqall (by omega)]
    exact takeBytes_all_one (q.drop 2)
      2 (fun c hc => hqall c (List.mem_of_mem_drop hc)) (by simp [hqlen])
  have hs02 : sliceBytes q 0 2 = some (q.take 2) := by
    unfold sliceBytes
    rw [dropBytes_all_one q 0 hqall (by omega)]
    exact takeBytes_all_one q 2 hqall (by omega)
  constructor
  · simp only [convertHex, hpad, hs46, hs24, hs02, byteSwap6]
  · simp only [correctColourHex, hpad, hs46, hs24, hs02, byteSwap6]

/-- Witness for the amended C2 at the concrete six-digit payload `FF2022`
(the swap yields `2220FF`). -/
theorem c2_amended_space_padded_byte_swap_witness :
    (convertHex (S ("FF2022")) =
        some (byteSwap6 (S ("FF2022") ++ List.replicate (6 - (S ("FF2022")).length) ' ')) ∧
      correctColourHex (S ("FF2022")) =
        some (byteSwap6 (S ("FF2022") ++ List.replicate (6 - (S ("FF2022")).length) ' '))) ∧
    byteSwap6 (S ("FF2022") ++ List.replicate (6 - (S ("FF2022")).length) ' ') = S ("2220FF") :=
  ⟨c2_amended_space_padded_byte_swap (S ("FF2022")) (by decide) (by decide), by decide⟩

/-- Claim C3: converting an ASS document whose single Dialogue event has
text `- Oh\N{\b1\i1}{\fs14\1c&HFF2022&}{\shad1}- That's right` to SubRip
yields exactly `- Oh` + newline + `<b><i><font color="#2220FF">- That's
right`: `\N` becomes a newline, bundled override groups are split, `{\b1}`
and `{\i1}` map to `<b>`/`<i>`, BGR `FF2022` maps to `#2220FF`, and `\fs14`
and `\shad1` are dropped. -/
theorem c3_ass_dialogue_to_subrip :
    subRipFromAss
      { scriptInfoTitle := none
        dialogue := [{ kind := .dialogue, layer := 0, start := 27920, stop := 30260,
                       style := some (S ("*Default")), name := some (S ("NTP")),
                       marginL := 0, marginR := 0, marginV := 0, effect := none,
                       text := S ("- Oh\\N\x7b\\b1\\i1\x7d\x7b\\fs14\\1c&HFF2022&\x7d\x7b\\shad1\x7d- That's right") }] }
    = some
      { events := [{ lineNumber := 1,
                     text := S ("- Oh\n<b><i><font color=\"#2220FF\">- That's right"),
                     start := 27920, stop := 30260, coordinates := none }] } := by
  decide

/-- Claim C5 (code bug): the claim (and the crate's own test
`tests/microdvd.rs::convert_newlines`) says MicroDVD `unformatted_text`
keeps the `|` marker verbatim; the code at `src/microdvd/data.rs` replaces
every `|` with a newline, for both the timed and the raw event type. -/
theorem c5_microdvd_unformatted_replaces_pipe :
    timedMicroDvdUnformattedText ⟨0, 375, S ("Hello|there")⟩ = S ("Hello\nthere") ∧
    microDvdUnformattedText ⟨0, 9, S ("Hello|there")⟩ = S ("Hello\nthere") ∧
    timedMicroDvdUnformattedText ⟨0, 375, S ("Hello|there")⟩ ≠ S ("Hello|there") ∧
    (parseMicrodvdStr (S ("\x7b0\x7d\x7b9\x7dHello|there"))).events.map
        microDvdUnformattedText = [S ("Hello\nthere")] := by
  decide

/-- Claim C6 (code bug): the claim says a `WEBVTT - free text` first line
is captured as the document header, but `parse_vtt` feeds `parse_header`
the first line with its newline already stripped by `lines()`, so the
header-capturing `take_until("\n")` always fails and the parsed header is
`none` even for `WEBVTT - hello`; `parse_header` does capture the text when
a newline is still present, which shows where the slip is. -/
theorem c6_webvtt_header_never_captured :
    (parseVttStr (S ("WEBVTT - hello\n\n00:00:00.000 --> 00:00:01.000\nHi\n"))).header
        = none ∧
    (parseVttStr (S ("WEBVTT\n\n00:00:00.000 --> 00:00:01.000\nHi\n"))).header
        = none ∧
    parseHeaderVtt (S ("WEBVTT - hello\nx")) = .ok (S ("\nx")) (some (S ("hello"))) := by
  decide

/-- Claim C7, counterexample: the claim says SSA plain-text extraction also
removes drawing spans, so `Oh, {\b1\p9}yes.` would yield `Oh, `; the SSA
`strip_formatting_tags` has no drawing handling and yields `Oh, yes.`. -/
theorem c7_counterexample_ssa_keeps_drawing_text :
    ssaUnformattedText
        ⟨.dialogue, false, 0, 1000, none, none, 0, 0, 0, none,
          S ("Oh, \x7b\\b1\\p9\x7dyes.")⟩ = S ("Oh, yes.") ∧
    S ("Oh, yes.") ≠ S ("Oh, ") := by
  decide

/-- Claim C7 as amended: only ASS plain-text extraction removes drawing
spans, and a span starts at an override block whose first `\p` occurrence
is followed by a nonzero digit (a block such as `{\pos(1,2)\p9}` where
another `\p…` code precedes it is merely discarded like any tag); the span
ends at the next block containing `\p0`, or at the end of the text; SSA
extraction only discards bracket tags. -/
theorem c7_amended_drawing_spans :
    assUnformattedText
        ⟨.dialogue, 0, 0, 1000, none, none, 0, 0, 0, none,
          S ("Oh, \x7b\\b1\\p9\x7dyes.")⟩ = S ("Oh, ") ∧
    assUnformattedText
        ⟨.dialogue, 0, 0, 1000, none, none, 0, 0, 0, none,
          S ("A\x7b\\p1\x7ddraw\x7b\\p0\x7dB")⟩ = S ("AB") ∧
    assUnformattedText
        ⟨.dialogue, 0, 0, 1000, none, none, 0, 0, 0, none,
          S ("Oh, \x7b\\pos(1,2)\\p9\x7dyes.")⟩ = S ("Oh, yes.") ∧
    ssaUnformattedText
        ⟨.dialogue, false, 0, 1000, none, none, 0, 0, 0, none,
          S ("Oh, \x7b\\b1\\p9\x7dyes.")⟩ = S ("Oh, yes.") := by
  decide

/-- Claim C4: string-based detection tries, in order, the WebVTT header,
the SubRip first record, the ASS/SSA script-info heading (SSA exactly when
the first `ScriptType` value found parses as `v4.00`, ASS for `v4.00+` or
when none is found), then the MicroDVD first line; the first match wins and
the unknown-format error is returned iff none of the four patterns matches.
The four spec examples detect as WebVTT, ASS, SSA and MicroDVD. -/
theorem c4_detection_order_and_examples :
    detectFormatFromStr (S ("WEBVTT")) = some Format.webVtt ∧
    detectFormatFromStr (S ("[Script Info]\nScriptType: v4.00+")) = some Format.ass ∧
    detectFormatFromStr (S ("[Script Info]\nScriptType: v4.00 ")) = some Format.ssa ∧
    detectFormatFromStr (S ("\x7b0\x7d\x7b120\x7dHelp|me")) = some Format.microDvd ∧
    ∀ s : Str,
      (detectFormatFromStr s =
        if isOkB (parseHeaderVtt s) then some Format.webVtt
        else if isOkB (parseNewLine s) then some Format.subRip
        else if isOkB (parseScriptInfoHeading s) then
          match parseFormatSt s with
          | .ok _ f => some f
          | _ => some Format.ass
        else if isOkB (parseMicrodvdLine s) then some Format.microDvd
        else none) ∧
      (detectFormatFromStr s = none ↔
        isOkB (parseHeaderVtt s) = false ∧ isOkB (parseNewLine s) = false ∧
          isOkB (parseScriptInfoHeading s) = false ∧
          isOkB (parseMicrodvdLine s) = false) := by
  refine ⟨by decide, by decide, by decide, by decide, fun s => ⟨rfl, ?_⟩⟩
  cases h1 : isOkB (parseHeaderVtt s) <;>
    cases h2 : isOkB (parseNewLine s) <;>
      cases h3 : isOkB (parseScriptInfoHeading s) <;>
        cases h4 : isOkB (parseMicrodvdLine s) <;>
          cases hf : parseFormatSt s <;>
            simp_all [detectFormatFromStr]

/-- Claim C9: every parsing and tag-conversion loop terminates on every
finite input.  Each loop (nom's `many_till`, `many0`, `separated_list1`)
errors out on an iteration that consumes nothing and every parser returns a
suffix of its input, so fuel `|input| + 1` bounds the iteration count:
giving any loop more fuel never changes its result, for every input,
including wholly unparseable ones.  (The per-character scans and the
line-streaming loops of `parse_srt`/`parse_vtt`/`parse_microdvd` are
structurally recursive over the input and terminate by construction.) -/
theorem c9_loops_terminate_fuel_stable :
    (∀ (s : Str) (k : Nat),
      splitFormattingTagsF (s.length + 1 + k) s = splitFormattingTagsF (s.length + 1) s) ∧
    (∀ (s : Str) (k : Nat),
      srtToAssFormattingF (s.length + 1 + k) s = srtToAssFormattingF (s.length + 1) s) ∧
    (∀ (s : Str) (k : Nat),
      srtToSsaFormattingF (s.length + 1 + k) s = srtToSsaFormattingF (s.length + 1) s) ∧
    (∀ (s : Str) (k : Nat),
      srtToVttFormattingF (s.length + 1 + k) s = srtToVttFormattingF (s.length + 1) s) ∧
    (∀ (s : Str) (k : Nat),
      assToSrtFormattingF (s.length + 1 + k) s = assToSrtFormattingF (s.length + 1) s) ∧
    (∀ (s : Str) (k : Nat),
      assToVttFormattingF (s.length + 1 + k) s = assToVttFormattingF (s.length + 1) s) ∧
    (∀ (s : Str) (k : Nat),
      ssaToSrtFormattingF (s.length + 1 + k) s = ssaToSrtFormattingF (s.length + 1) s) ∧
    (∀ (s : Str) (k : Nat),
      ssaToVttFormattingF (s.length + 1 + k) s = ssaToVttFormattingF (s.length + 1) s) ∧
    (∀ (s : Str) (k : Nat),
      ssaStripFormattingTagsF (s.length + 1 + k) s = ssaStripFormattingTagsF (s.length + 1) s) ∧
    (∀ (s : Str) (k : Nat),
      vttToAssFormattingF (s.length + 1 + k) s = vttToAssFormattingF (s.length + 1) s) ∧
    (∀ (s : Str) (k : Nat),
      vttToSrtFormattingF (s.length + 1 + k) s = vttToSrtFormattingF (s.length + 1) s) ∧
    (∀ (s : Str) (k : Nat),
      assStripFormattingTagsF (s.length + 1 + k) s = assStripFormattingTagsF (s.length + 1) s) ∧
    (∀ (s : Str) (k : Nat),
      stripHtmlTagsF (s.length + 1 + k) s = stripHtmlTagsF (s.length + 1) s) ∧
    (∀ (s : Str) (k : Nat),
      stripSrtFormattingF (s.length + 1 + k) s = stripSrtFormattingF (s.length + 1) s) ∧
    (∀ (s : Str) (k : Nat),
      parseBlocksSrtF (s.length + 1 + k) s = parseBlocksSrtF (s.length + 1) s) ∧
    (∀ (s : Str) (k : Nat),
      parseBlocksVttF (s.length + 1 + k) s = parseBlocksVttF (s.length + 1) s) := by
  refine ⟨?_, ?_, ?_, ?_, ?_, ?_, ?_, ?_, ?_, ?_, ?_, ?_, ?_, ?_, ?_, ?_⟩ <;>
    intro s k
  · unfold splitFormattingTagsF
    rw [manyTillF_stable
      (shrinks_alt2 shrinks_splitTag
        (shrinks_alt2 (shrinks_pTakeUntil _) shrinks_pRest))
      s.length s (le_refl _) (s.length + 1 + k) (s.length + 1) (by omega) (by omega)]
  · unfold srtToAssFormattingF
    rw [manyTillF_stable
      (shrinks_alt2 shrinks_convertToAssTagSrt
        (shrinks_alt2 shrinks_replaceFontColorTag
          (shrinks_alt2 shrinks_discardHtmlTag
            (shrinks_alt2 shrinks_discardBracketTag
              (shrinks_alt2 (shrinks_pTakeWhile0 _) shrinks_pRest)))))
      s.length s (le_refl _) (s.length + 1 + k) (s.length + 1) (by omega) (by omega)]
  · unfold srtToSsaFormattingF
    rw [manyTillF_stable
      (shrinks_alt2 shrinks_convertToSsaTagSrt
        (shrinks_alt2 shrinks_replaceFontColorTag
          (shrinks_alt2 shrinks_discardHtmlTag
            (shrinks_alt2 shrinks_discardBracketTag
              (shrinks_alt2 (shrinks_pTakeWhile0 _) shrinks_pRest)))))
      s.length s (le_refl _) (s.length + 1 + k) (s.length + 1) (by omega) (by omega)]
  · unfold srtToVttFormattingF
    rw [manyTillF_stable
      (shrinks_alt2 shrinks_convertToVttTagSrt
        (shrinks_alt2 shrinks_keepHtmlTags
          (shrinks_alt2 shrinks_discardHtmlTag
            (shrinks_alt2 shrinks_discardBracketTag
              (shrinks_alt2 (shrinks_pTakeWhile1 _) shrinks_pRest)))))
      s.length s (le_refl _) (s.length + 1 + k) (s.length + 1) (by omega) (by omega)]
  · unfold assToSrtFormattingF
    rw [manyTillF_stable
      (shrinks_alt2 shrinks_convertAssTagToHtml
        (shrinks_alt2 shrinks_convertFontColorTag
          (shrinks_alt2 shrinks_discardTag
            (shrinks_alt2 (shrinks_pTakeUntil _) shrinks_pRest))))
      s.length s (le_refl _) (s.length + 1 + k) (s.length + 1) (by omega) (by omega)]
  · unfold assToVttFormattingF
    rw [manyTillF_stable
      (shrinks_alt2 shrinks_convertAssTagToHtml
        (shrinks_alt2 shrinks_discardTag
          (shrinks_alt2 (shrinks_pTakeUntil _) shrinks_pRest)))
      s.length s (le_refl _) (s.length + 1 + k) (s.length + 1) (by omega) (by omega)]
  · unfold ssaToSrtFormattingF
    rw [manyTillF_stable
      (shrinks_alt2 shrinks_convertSsaTagToHtml
        (shrinks_alt2 shrinks_convertFontColorTag
          (shrinks_alt2 (shrinks_pValue _ shrinks_bracketTagP)
            (shrinks_alt2 (shrinks_pTakeUntil _) shrinks_pRest))))
      s.length s (le_refl _) (s.length + 1 + k) (s.length + 1) (by omega) (by omega)]
  · unfold ssaToVttFormattingF
    rw [manyTillF_stable
      (shrinks_alt2 shrinks_convertSsaTagToHtml
        (shrinks_alt2 (shrinks_pValue _ shrinks_bracketTagP)
          (shrinks_alt2 (shrinks_pTakeUntil _) shrinks_pRest)))
      s.length s (le_refl _) (s.length + 1 + k) (s.length + 1) (by omega) (by omega)]
  · unfold ssaStripFormattingTagsF
    rw [manyTillF_stable
      (shrinks_alt2 (shrinks_pValue _ shrinks_bracketTagP)
        (shrinks_alt2 (shrinks_pTakeUntil _) shrinks_pRest))
      s.length s (le_refl _) (s.length + 1 + k) (s.length + 1) (by omega) (by omega)]
  · unfold vttToAssFormattingF
    rw [manyTillF_stable
      (shrinks_alt2 shrinks_convertVttTagToAss
        (shrinks_alt2 shrinks_discardHtmlTag
          (shrinks_alt2 (shrinks_pTakeUntil _) shrinks_pRest)))
      s.length s (le_refl _) (s.length + 1 + k) (s.length + 1) (by omega) (by omega)]
  · unfold vttToSrtFormattingF
    rw [manyTillF_stable
      (shrinks_alt2 shrinks_keepHtmlTags
        (shrinks_alt2 shrinks_discardHtmlTag
          (shrinks_alt2 (shrinks_pTakeUntil _) shrinks_pRest)))
      s.length s (le_refl _) (s.length + 1 + k) (s.length + 1) (by omega) (by omega)]
  · unfold assStripFormattingTagsF
    rw [many0F_stable
      (shrinks_alt2 shrinks_discardDrawingSpan
        (shrinks_alt2 shrinks_discardTag
          (shrinks_alt2 (shrinks_pTakeUntil _) (shrinks_pTakeWhile1 _))))
      s.length s (le_refl _) (s.length + 1 + k) (s.length + 1) (by omega) (by omega)]
  · unfold stripHtmlTagsF
    rw [many0F_stable
      (shrinks_alt2 shrinks_discardHtmlTag
        (shrinks_alt2 (shrinks_pTakeUntil _) (shrinks_pTakeWhile1 _)))
      s.length s (le_refl _) (s.length + 1 + k) (s.length + 1) (by omega) (by omega)]
  · unfold stripSrtFormattingF
    rw [many0F_stable
      (shrinks_alt2 (shrinks_pValue _ shrinks_htmlTagP)
        (shrinks_alt2 (shrinks_pValue _ shrinks_bracketTagP)
          (shrinks_pTakeWhile1 _)))
      s.length s (le_refl _) (s.length + 1 + k) (s.length + 1) (by omega) (by omega)]
  · unfold parseBlocksSrtF
    rw [sepList1F_stable (shrinks_pTag _) shrinks_parseBlockSrt s
      (s.length + 1 + k) (s.length + 1) (by omega) (by omega)]
  · unfold parseBlocksVttF
    rw [sepList1F_stable
      (shrinks_pValue _ (shrinks_pairP shrinks_pLineEnding shrinks_pLineEnding))
      shrinks_parseBlockVtt s (s.length + 1 + k) (s.length + 1) (by omega) (by omega)]

/-- Claim C10: every cross-format conversion among the five timed document
types, and every conversion to the plain representation, produces exactly
one event per source event, in order, with the source event's start and end
`Moment`s copied unchanged (stated as equality of the timing lists, which
fixes length, order and both endpoints at every index).  The four
conversions whose tag translation can panic are quantified over the
successful case. -/
theorem c10_conversions_preserve_timings :
    (∀ (v : AssSubtitle) (out : SubRipSubtitle),
      subRipFromAss v = some out → srtTimings out = assTimings v) ∧
    (∀ v : TimedMicroDvdSubtitle,
      srtTimings (subRipFromTimedMicroDvd v) = mdvdTimings v) ∧
    (∀ (v : SsaSubtitle) (out : SubRipSubtitle),
      subRipFromSsa v = some out → srtTimings out = ssaTimings v) ∧
    (∀ v : WebVttSubtitle, srtTimings (subRipFromWebVtt v) = vttTimings v) ∧
    (∀ v : AssSubtitle, vttTimings (webVttFromAss v) = assTimings v) ∧
    (∀ v : TimedMicroDvdSubtitle,
      vttTimings (webVttFromTimedMicroDvd v) = mdvdTimings v) ∧
    (∀ v : SsaSubtitle, vttTimings (webVttFromSsa v) = ssaTimings v) ∧
    (∀ v : SubRipSubtitle, vttTimings (webVttFromSubRip v) = srtTimings v) ∧
    (∀ (v : SubRipSubtitle) (out : AssSubtitle),
      assFromSubRip v = some out → assTimings out = srtTimings v) ∧
    (∀ v : TimedMicroDvdSubtitle,
      assTimings (assFromTimedMicroDvd v) = mdvdTimings v) ∧
    (∀ v : SsaSubtitle, assTimings (assFromSsa v) = ssaTimings v) ∧
    (∀ v : WebVttSubtitle, assTimings (assFromWebVtt v) = vttTimings v) ∧
    (∀ v : AssSubtitle, ssaTimings (ssaFromAss v) = assTimings v) ∧
    (∀ v : TimedMicroDvdSubtitle,
      ssaTimings (ssaFromTimedMicroDvd v) = mdvdTimings v) ∧
    (∀ (v : SubRipSubtitle) (out : SsaSubtitle),
      ssaFromSubRip v = some out → ssaTimings out = srtTimings v) ∧
    (∀ v : WebVttSubtitle, ssaTimings (ssaFromWebVtt v) = vttTimings v) ∧
    (∀ v : AssSubtitle, mdvdTimings (timedMicroDvdFromAss v) = assTimings v) ∧
    (∀ v : SsaSubtitle, mdvdTimings (timedMicroDvdFromSsa v) = ssaTimings v) ∧
    (∀ v : SubRipSubtitle,
      mdvdTimings (timedMicroDvdFromSubRip v) = srtTimings v) ∧
    (∀ v : WebVttSubtitle,
      mdvdTimings (timedMicroDvdFromWebVtt v) = vttTimings v) ∧
    (∀ v : AssSubtitle, plainTimings (plainFromAss v) = assTimings v) ∧
    (∀ v : SsaSubtitle, plainTimings (plainFromSsa v) = ssaTimings v) ∧
    (∀ v : SubRipSubtitle, plainTimings (plainFromSubRip v) = srtTimings v) ∧
    (∀ v : WebVttSubtitle, plainTimings (plainFromWebVtt v) = vttTimings v) ∧
    (∀ v : TimedMicroDvdSubtitle,
      plainTimings (plainFromTimedMicroDvd v) = mdvdTimings v) := by
  refine ⟨?_, ?_, ?_, ?_, ?_, ?_, ?_, ?_, ?_, ?_, ?_, ?_, ?_, ?_, ?_, ?_, ?_,
    ?_, ?_, ?_, ?_, ?_, ?_, ?_, ?_⟩
  · intro v out h
    unfold subRipFromAss at h
    rw [Option.map_eq_some'] at h
    obtain ⟨evs, hevs, hout⟩ := h
    have hout2 : SubRipSubtitle.mk evs = out := hout
    subst hout2
    refine optEnumMapGo_map_proj ?_ 0 v.dialogue evs hevs
    intro i a b hb
    rw [Option.map_eq_some'] at hb
    obtain ⟨t, _, hbt⟩ := hb
    rw [← hbt]
  · intro v
    refine enumMapGo_map_proj ?_ 0 v.events
    intro i a
    rfl
  · intro v out h
    unfold subRipFromSsa at h
    rw [Option.map_eq_some'] at h
    obtain ⟨evs, hevs, hout⟩ := h
    have hout2 : SubRipSubtitle.mk evs = out := hout
    subst hout2
    refine optEnumMapGo_map_proj ?_ 0 v.dialogue evs hevs
    intro i a b hb
    rw [Option.map_eq_some'] at hb
    obtain ⟨t, _, hbt⟩ := hb
    rw [← hbt]
  · intro v
    refine enumMapGo_map_proj ?_ 0 v.cues
    intro i a
    rfl
  · intro v
    exact map_map_proj (fun d => rfl) v.dialogue
  · intro v
    exact map_map_proj (fun d => rfl) v.events
  · intro v
    exact map_map_proj (fun d => rfl) v.dialogue
  · intro v
    exact map_map_proj (fun d => rfl) v.events
  · intro v out h
    unfold assFromSubRip at h
    rw [Option.map_eq_some'] at h
    obtain ⟨evs, hevs, hout⟩ := h
    have hout2 : AssSubtitle.mk none evs = out := hout
    subst hout2
    refine optMap_map_proj ?_ v.events evs hevs
    intro a b hb
    rw [Option.map_eq_some'] at hb
    obtain ⟨t, _, hbt⟩ := hb
    rw [← hbt]
  · intro v
    exact map_map_proj (fun d => rfl) v.events
  · intro v
    exact map_map_proj (fun d => rfl) v.dialogue
  · intro v
    exact map_map_proj (fun d => rfl) v.cues
  · intro v
    exact map_map_proj (fun d => rfl) v.dialogue
  · intro v
    exact map_map_proj (fun d => rfl) v.events
  · intro v out h
    unfold ssaFromSubRip at h
    rw [Option.map_eq_some'] at h
    obtain ⟨evs, hevs, hout⟩ := h
    have hout2 : SsaSubtitle.mk none evs = out := hout
    subst hout2
    refine optMap_map_proj ?_ v.events evs hevs
    intro a b hb
    rw [Option.map_eq_some'] at hb
    obtain ⟨t, _, hbt⟩ := hb
    rw [← hbt]
  · intro v
    exact map_map_proj (fun d => rfl) v.cues
  · intro v
    exact map_map_proj (fun d => rfl) v.dialogue
  · intro v
    exact map_map_proj (fun d => rfl) v.dialogue
  · intro v
    exact map_map_proj (fun d => rfl) v.events
  · intro v
    exact map_map_proj (fun d => rfl) v.cues
  · intro v
    exact map_map_proj (fun d => rfl) v.dialogue
  · intro v
    exact map_map_proj (fun d => rfl) v.dialogue
  · intro v
    exact map_map_proj (fun d => rfl) v.events
  · intro v
    exact map_map_proj (fun d => rfl) v.cues
  · intro v
    exact map_map_proj (fun d => rfl) v.events

/-- Claim C8, counterexample: the canonical text
`1\n00:00:01,000 --> 00:00:02,500\nHi\n` (no coordinates, hence no trailing
space on the timing line) does not round-trip byte-for-byte: the parser
turns the absent coordinates into `Some("")` (the `opt(take_until("\n"))`
succeeds with an empty match), and rendering then appends one space after
the end timestamp. -/
theorem c8_counterexample_trailing_space :
    renderSrt (parseSrtStr (S ("1\n00:00:01,000 --> 00:00:02,500\nHi\n"))) =
      S ("1\n00:00:01,000 --> 00:00:02,500 \nHi\n") ∧
    renderSrt (parseSrtStr (S ("1\n00:00:01,000 --> 00:00:02,500\nHi\n"))) ≠
      S ("1\n00:00:01,000 --> 00:00:02,500\nHi\n") := by
  decide

/-- Witness for C10's hypothesis-bearing conjuncts, at concrete one-event
documents (the conversions succeed and the timings are preserved). -/
theorem c10_conversions_preserve_timings_witness :
    (subRipFromAss
        { scriptInfoTitle := none
          dialogue := [{ kind := .dialogue, layer := 0, start := 5, stop := 9,
                         style := none, name := none, marginL := 0, marginR := 0,
                         marginV := 0, effect := none, text := [] }] } =
      some { events := [{ lineNumber := 1, text := [], start := 5, stop := 9,
                          coordinates := none }] } ∧
      srtTimings { events := [{ lineNumber := 1, text := [], start := 5, stop := 9,
                                coordinates := none }] } =
        assTimings
          { scriptInfoTitle := none
            dialogue := [{ kind := .dialogue, layer := 0, start := 5, stop := 9,
                           style := none, name := none, marginL := 0, marginR := 0,
                           marginV := 0, effect := none, text := [] }] }) ∧
    (subRipFromSsa
        { scriptInfoTitle := none
          dialogue := [{ kind := .dialogue, marked := false, start := 5, stop := 9,
                         style := none, name := none, marginL := 0, marginR := 0,
                         marginV := 0, effect := none, text := [] }] } =
      some { events := [{ lineNumber := 1, text := [], start := 5, stop := 9,
                          coordinates := none }] } ∧
      srtTimings { events := [{ lineNumber := 1, text := [], start := 5, stop := 9,
                                coordinates := none }] } =
        ssaTimings
          { scriptInfoTitle := none
            dialogue := [{ kind := .dialogue, marked := false, start := 5, stop := 9,
                           style := none, name := none, marginL := 0, marginR := 0,
                           marginV := 0, effect := none, text := [] }] }) ∧
    (assFromSubRip
        { events := [{ lineNumber := 1, text := [], start := 5, stop := 9,
                       coordinates := none }] } =
      some { scriptInfoTitle := none
             dialogue := [{ kind := .dialogue, layer := 0, start := 5, stop := 9,
                            style := none, name := none, marginL := 0, marginR := 0,
                            marginV := 0, effect := none, text := [] }] } ∧
      assTimings { scriptInfoTitle := none
                   dialogue := [{ kind := .dialogue, layer := 0, start := 5, stop := 9,
                                  style := none, name := none, marginL := 0,
                                  marginR := 0, marginV := 0, effect := none,
                                  text := [] }] } =
        srtTimings { events := [{ lineNumber := 1, text := [], start := 5, stop := 9,
                                  coordinates := none }] }) ∧
    (ssaFromSubRip
        { events := [{ lineNumber := 1, text := [], start := 5, stop := 9,
                       coordinates := none }] } =
      some { scriptInfoTitle := none
             dialogue := [{ kind := .dialogue, marked := false, start := 5, stop := 9,
                            style := none, name := none, marginL := 0, marginR := 0,
                            marginV := 0, effect := none, text := [] }] } ∧
      ssaTimings { scriptInfoTitle := none
                   dialogue := [{ kind := .dialogue, marked := false, start := 5,
                                  stop := 9, style := none, name := none,
                                  marginL := 0, marginR := 0, marginV := 0,
                                  effect := none, text := [] }] } =
        srtTimings { events := [{ lineNumber := 1, text := [], start := 5, stop := 9,
                                  coordinates := none }] }) :=
  ⟨⟨by decide, c10_conversions_preserve_timings.1 _ _ (by decide)⟩,
    ⟨by decide, c10_conversions_preserve_timings.2.2.1 _ _ (by decide)⟩,
    ⟨by decide, c10_conversions_preserve_timings.2.2.2.2.2.2.2.2.1 _ _ (by decide)⟩,
    ⟨by decide,
      c10_conversions_preserve_timings.2.2.2.2.2.2.2.2.2.2.2.2.2.2.1 _ _ (by decide)⟩⟩

/-! ## Line structure of rendered SubRip documents -/

theorem S_nlnl : S ("\n\n") = ['\n', '\n'] := rfl

theorem splitNl_ne_nil (t : Str) : splitNl t ≠ [] := by
  cases t with
  | nil => simp [splitNl]
  | cons c cs =>
    by_cases hc : c = '\n'
    · simp [splitNl, hc]
    · simp only [splitNl, hc, if_false]
      cases h : splitNl cs <;> simp

theorem joinLines_splitNl (t : Str) : joinLines (splitNl t) = t ++ ['\n'] := by
  induction t with
  | nil => rfl
  | cons c cs ih =>
    by_cases hc : c = '\n'
    · subst hc
      simp only [splitNl, if_pos rfl]
      simp only [joinLines, List.map_cons, List.flatten_cons] at ih ⊢
      simp [ih]
    · cases h : splitNl cs with
      | nil => exact absurd h (splitNl_ne_nil cs)
      | cons p ps =>
        have hs : splitNl (c :: cs) = (c :: p) :: ps := by
          simp [splitNl, hc, h]
        rw [hs]
        rw [h] at ih
        simp only [joinLines, List.map_cons, List.flatten_cons,
          List.append_assoc, List.cons_append] at ih ⊢
        simpa using ih

theorem splitNl_append_newline (l rest : Str) (hl : '\n' ∉ l) :
    splitNl (l ++ '\n' :: rest) = l :: splitNl rest := by
  induction l with
  | nil => simp [splitNl]
  | cons c cs ih =>
    have hc : c ≠ '\n' := fun h => hl (h ▸ List.mem_cons_self c cs)
    have hcs : '\n' ∉ cs := fun h => hl (List.mem_cons_of_mem c h)
    rw [List.cons_append]
    simp only [splitNl, hc, if_false]
    rw [ih hcs]

theorem splitNl_joinLines (L : List Str) (h : ∀ l ∈ L, '\n' ∉ l) :
    splitNl (joinLines L) = L ++ [[]] := by
  induction L with
  | nil => rfl
  | cons l ls ih =>
    have h1 : '\n' ∉ l := h l (List.mem_cons_self l ls)
    have h2 : ∀ x ∈ ls, '\n' ∉ x := fun x hx => h x (List.mem_cons_of_mem l hx)
    have hj : joinLines (l :: ls) = l ++ '\n' :: joinLines ls := by
      simp [joinLines]
    rw [hj, splitNl_append_newline l _ h1, ih h2]
    rfl

theorem getLast?_joinLines (L : List Str) (h : L ≠ []) :
    (joinLines L).getLast? = some '\n' := by
  induction L with
  | nil => exact absurd rfl h
  | cons l ls ih =>
    have hj : joinLines (l :: ls) = (l ++ ['\n']) ++ joinLines ls := by
      simp [joinLines]
    rw [hj]
    cases hls : ls with
    | nil =>
      subst hls
      simp [joinLines]
    | cons m ms =>
      have hne : joinLines (m :: ms) ≠ [] := by
        simp [joinLines]
      rw [List.getLast?_append_of_ne_nil _ hne, ← hls]
      exact ih (by simp [hls])

theorem joinLines_ne_nil (l : Str) (ls : List Str) :
    joinLines (l :: ls) ≠ [] := by
  simp [joinLines]

theorem stripCr_eq_self {x : Str} (h : '\r' ∉ x) : stripCr x = x := by
  unfold stripCr
  split
  · next heq =>
    obtain ⟨hne, heq2⟩ := List.mem_getLast?_eq_getLast heq
    have hm : x.getLast hne ∈ x := List.getLast_mem hne
    rw [← heq2] at hm
    exact absurd hm h
  · rfl

theorem rustLines_joinLines (L : List Str)
    (h : ∀ l ∈ L, '\n' ∉ l ∧ '\r' ∉ l) :
    rustLines (joinLines L) = L := by
  cases L with
  | nil => rfl
  | cons l ls =>
    cases hs : joinLines (l :: ls) with
    | nil => exact absurd hs (joinLines_ne_nil l ls)
    | cons c cs =>
      have h1 : rustLines (c :: cs) =
          (if (c :: cs).getLast? = some '\n' then (splitNl (c :: cs)).dropLast
           else splitNl (c :: cs)).map stripCr := rfl
      rw [h1, ← hs, getLast?_joinLines (l :: ls) (by simp), if_pos rfl,
        splitNl_joinLines (l :: ls) (fun x hx => (h x hx).1),
        List.dropLast_concat]
      have : ∀ x ∈ l :: ls, stripCr x = x :=
        fun x hx => stripCr_eq_self (h x hx).2
      exact List.map_congr_left this |>.trans (List.map_id _)

theorem findSub_cons_none {pat : Str} {c : Char} {cs : Str}
    (h : findSub pat (c :: cs) = none) :
    pat.isPrefixOf (c :: cs) = false ∧ findSub pat cs = none := by
  unfold findSub at h
  by_cases hp : pat.isPrefixOf (c :: cs)
  · simp [hp] at h
  · have hp2 : pat.isPrefixOf (c :: cs) = false := Bool.eq_false_iff.mpr hp
    simp only [hp2, Bool.false_eq_true, if_false] at h
    exact ⟨hp2, by simpa using h⟩

theorem splitNl_tail_ne_nil :
    ∀ t : Str, findSub (S ("\n\n")) t = none →
      t.getLast? ≠ some '\n' → ∀ p ∈ (splitNl t).tail, p ≠ [] := by
  intro t
  induction t with
  | nil => intro _ _ p hp; simp [splitNl] at hp
  | cons c cs ih =>
    intro hfs hl p hp
    by_cases hc : c = '\n'
    · subst hc
      rw [show splitNl ('\n' :: cs) = [] :: splitNl cs from by simp [splitNl]] at hp
      simp only [List.tail_cons] at hp
      obtain ⟨hnp, hfs2⟩ := findSub_cons_none hfs
      cases hcs : cs with
      | nil =>
        subst hcs
        exact absurd (by simp) hl
      | cons d ds =>
        have hd : d ≠ '\n' := by
          intro hd
          rw [hcs, hd, S_nlnl] at hnp
          simp [List.isPrefixOf] at hnp
        cases hss : splitNl (d :: ds) with
        | nil => exact absurd hss (splitNl_ne_nil _)
        | cons q qs =>
          rw [hcs, hss] at hp
          rcases List.mem_cons.mp hp with rfl | hp2
          · cases hdd : splitNl ds with
            | nil => exact absurd hdd (splitNl_ne_nil _)
            | cons r rs =>
              rw [show splitNl (d :: ds) = (d :: r) :: rs from by
                simp [splitNl, hd, hdd]] at hss
              cases hss
              simp
          · have hl2 : (d :: ds).getLast? ≠ some '\n' := by
              rw [hcs] at hl
              rwa [List.getLast?_cons_cons] at hl
            have := ih (hcs ▸ hfs2) (hcs ▸ hl2) p
            rw [hcs, hss] at this
            exact this (by simpa using hp2)
    · obtain ⟨hnp, hfs2⟩ := findSub_cons_none hfs
      cases hss : splitNl cs with
      | nil => exact absurd hss (splitNl_ne_nil _)
      | cons q qs =>
        rw [show splitNl (c :: cs) = (c :: q) :: qs from by
          simp [splitNl, hc, hss]] at hp
        simp only [List.tail_cons] at hp
        cases hcs : cs with
        | nil =>
          subst hcs
          rw [show splitNl ([] : Str) = [[]] from rfl] at hss
          cases hss
          simp at hp
        | cons d ds =>
          have hl2 : cs.getLast? ≠ some '\n' := by
            rw [hcs] at hl ⊢
            rwa [List.getLast?_cons_cons] at hl
          have := ih hfs2 hl2 p
          rw [hss] at this
          exact this (by simpa using hp)

theorem splitNl_all_ne_nil (t : Str) (h0 : t ≠ [])
    (hh : t.head? ≠ some '\n') (hfs : findSub (S ("\n\n")) t = none)
    (hl : t.getLast? ≠ some '\n') : ∀ p ∈ splitNl t, p ≠ [] := by
  cases t with
  | nil => exact absurd rfl h0
  | cons c cs =>
    have hc : c ≠ '\n' := by simpa using hh
    cases hss : splitNl cs with
    | nil => exact absurd hss (splitNl_ne_nil _)
    | cons q qs =>
      intro p hp
      rw [show splitNl (c :: cs) = (c :: q) :: qs from by
        simp [splitNl, hc, hss]] at hp
      rcases List.mem_cons.mp hp with rfl | hp2
      · simp
      · have := splitNl_tail_ne_nil (c :: cs) hfs hl p
        rw [show splitNl (c :: cs) = (c :: q) :: qs from by
          simp [splitNl, hc, hss]] at this
        exact this (by simpa using hp2)

theorem splitNl_no_nl (t : Str) : ∀ p ∈ splitNl t, '\n' ∉ p := by
  induction t with
  | nil => intro p hp; simp [splitNl] at hp; simp [hp]
  | cons c cs ih =>
    intro p hp
    by_cases hc : c = '\n'
    · subst hc
      rw [show splitNl ('\n' :: cs) = [] :: splitNl cs from by simp [splitNl]] at hp
      rcases List.mem_cons.mp hp with rfl | hp2
      · simp
      · exact ih p hp2
    · cases hss : splitNl cs with
      | nil => exact absurd hss (splitNl_ne_nil _)
      | cons q qs =>
        rw [show splitNl (c :: cs) = (c :: q) :: qs from by
          simp [splitNl, hc, hss]] at hp
        rcases List.mem_cons.mp hp with rfl | hp2
        · intro hmem
          rcases List.mem_cons.mp hmem with h1 | h1
          · exact hc h1.symm
          · exact ih q (hss ▸ List.mem_cons_self q qs) h1
        · exact ih p (hss ▸ List.mem_cons_of_mem q hp2)

theorem splitNl_mem_mem (t : Str) :
    ∀ p ∈ splitNl t, ∀ c ∈ p, c ∈ t := by
  induction t with
  | nil => intro p hp; simp [splitNl] at hp; simp [hp]
  | cons c cs ih =>
    intro p hp x hx
    by_cases hc : c = '\n'
    · subst hc
      rw [show splitNl ('\n' :: cs) = [] :: splitNl cs from by simp [splitNl]] at hp
      rcases List.mem_cons.mp hp with rfl | hp2
      · simp at hx
      · exact List.mem_cons_of_mem _ (ih p hp2 x hx)
    · cases hss : splitNl cs with
      | nil => exact absurd hss (splitNl_ne_nil _)
      | cons q qs =>
        rw [show splitNl (c :: cs) = (c :: q) :: qs from by
          simp [splitNl, hc, hss]] at hp
        rcases List.mem_cons.mp hp with rfl | hp2
        · rcases List.mem_cons.mp hx with rfl | hx2
          · exact List.mem_cons_self _ _
          · exact List.mem_cons_of_mem _
              (ih q (hss ▸ List.mem_cons_self q qs) x hx2)
        · exact List.mem_cons_of_mem _
            (ih p (hss ▸ List.mem_cons_of_mem q hp2) x hx)

/-! ## Decimal digit rendering and parsing -/

theorem natDigitsGo_fuel : ∀ f g v acc, v ≤ f → v ≤ g →
    natDigitsGo f v acc = natDigitsGo g v acc := by
  intro f
  induction f with
  | zero =>
    intro g v acc hf _
    have hv : v = 0 := Nat.le_zero.mp hf
    subst hv
    cases g with
    | zero => rfl
    | succ g2 => simp [natDigitsGo]
  | succ f2 ih =>
    intro g v acc _ hg
    by_cases hv : v < 10
    · cases g with
      | zero =>
        have : v = 0 := Nat.le_zero.mp hg
        subst this
        simp [natDigitsGo]
      | succ g2 => simp [natDigitsGo, hv]
    · cases g with
      | zero =>
        have : v = 0 := Nat.le_zero.mp hg
        subst this
        exact absurd (by norm_num) hv
      | succ g2 =>
        simp only [natDigitsGo, hv, if_false]
        have hlt : v / 10 < v := Nat.div_lt_self (by omega) (by norm_num)
        exact ih g2 (v / 10) _ (by omega) (by omega)

theorem natDigitsGo_acc : ∀ f v acc,
    natDigitsGo f v acc = natDigitsGo f v [] ++ acc := by
  intro f
  induction f with
  | zero => intro v acc; simp [natDigitsGo]
  | succ f2 ih =>
    intro v acc
    by_cases hv : v < 10
    · simp [natDigitsGo, hv]
    · simp only [natDigitsGo, hv, if_false]
      rw [ih (v / 10) (Char.ofNat (48 + v % 10) :: acc),
        ih (v / 10) [Char.ofNat (48 + v % 10)]]
      simp

theorem natDigits_eq (v : Nat) :
    natDigits v = if v < 10 then [Char.ofNat (48 + v % 10)]
      else natDigits (v / 10) ++ [Char.ofNat (48 + v % 10)] := by
  by_cases h : v < 10
  · rw [if_pos h]
    unfold natDigits
    cases v with
    | zero => rfl
    | succ w => simp [natDigitsGo, h]
  · rw [if_neg h]
    unfold natDigits
    cases v with
    | zero => exact absurd (by norm_num) h
    | succ w =>
      simp only [natDigitsGo, h, if_false]
      rw [natDigitsGo_acc w (Nat.succ w / 10) [Char.ofNat (48 + Nat.succ w % 10)]]
      have hlt : Nat.succ w / 10 < Nat.succ w :=
        Nat.div_lt_self (by omega) (by norm_num)
      rw [natDigitsGo_fuel w (Nat.succ w / 10) (Nat.succ w / 10) []
        (by omega) (by omega)]

theorem digitChar_isDigit (r : Nat) (h : r < 10) :
    (Char.ofNat (48 + r)).isDigit = true := by
  interval_cases r <;> decide

theorem digitChar_toNat (r : Nat) (h : r < 10) :
    (Char.ofNat (48 + r)).toNat = 48 + r := by
  interval_cases r <;> decide

theorem natDigits_all_digit : ∀ f v, v ≤ f → ∀ c ∈ natDigits v, c.isDigit = true := by
  intro f
  induction f with
  | zero =>
    intro v hv c hc
    have : v = 0 := Nat.le_zero.mp hv
    subst this
    rw [natDigits_eq] at hc
    simp only [if_pos (by norm_num : (0 : Nat) < 10)] at hc
    rw [List.mem_singleton.mp hc]
    exact digitChar_isDigit _ (Nat.mod_lt _ (by norm_num))
  | succ f2 ih =>
    intro v hv c hc
    rw [natDigits_eq] at hc
    by_cases h : v < 10
    · rw [if_pos h] at hc
      rw [List.mem_singleton.mp hc]
      exact digitChar_isDigit _ (Nat.mod_lt _ (by norm_num))
    · rw [if_neg h] at hc
      rcases List.mem_append.mp hc with h2 | h2
      · have hlt : v / 10 < v := Nat.div_lt_self (by omega) (by norm_num)
        exact ih (v / 10) (by omega) c h2
      · rw [List.mem_singleton.mp h2]
        exact digitChar_isDigit _ (Nat.mod_lt _ (by norm_num))

theorem natDigits_ne_nil (v : Nat) : natDigits v ≠ [] := by
  rw [natDigits_eq]
  by_cases h : v < 10 <;> simp [h]

theorem foldDigits_append_digit (xs : Str) (d : Char) :
    foldDigits (xs ++ [d]) = foldDigits xs * 10 + (d.toNat - 48) := by
  unfold foldDigits
  rw [List.foldl_append]
  rfl

theorem foldDigits_natDigits : ∀ f v, v ≤ f → foldDigits (natDigits v) = v := by
  intro f
  induction f with
  | zero =>
    intro v hv
    have : v = 0 := Nat.le_zero.mp hv
    subst this
    decide
  | succ f2 ih =>
    intro v hv
    rw [natDigits_eq]
    by_cases h : v < 10
    · rw [if_pos h]
      show foldDigits [Char.ofNat (48 + v % 10)] = v
      unfold foldDigits
      simp only [List.foldl_cons, List.foldl_nil]
      rw [show (Char.ofNat (48 + v % 10)).toNat = 48 + v % 10 from
        digitChar_toNat _ (Nat.mod_lt _ (by norm_num))]
      omega
    · rw [if_neg h, foldDigits_append_digit]
      have hlt : v / 10 < v := Nat.div_lt_self (by omega) (by norm_num)
      rw [ih (v / 10) (by omega)]
      rw [show (Char.ofNat (48 + v % 10)).toNat = 48 + v % 10 from
        digitChar_toNat _ (Nat.mod_lt _ (by norm_num))]
      omega

theorem foldDigits_replicate_zero (k : Nat) (ds : Str) :
    foldDigits (List.replicate k '0' ++ ds) = foldDigits ds := by
  induction k with
  | zero => rfl
  | succ k2 ih =>
    rw [List.replicate_succ, List.cons_append]
    show foldDigits ('0' :: (List.replicate k2 '0' ++ ds)) = foldDigits ds
    unfold foldDigits at ih ⊢
    simp only [List.foldl_cons]
    rw [show (0 * 10 + ('0'.toNat - 48)) = 0 from by decide]
    exact ih

theorem takeWhile_append_eq (p : Char → Bool) (ds rest : Str)
    (hds : ∀ c ∈ ds, p c = true)
    (hrest : ∀ c, rest.head? = some c → p c = false) :
    (ds ++ rest).takeWhile p = ds ∧ (ds ++ rest).dropWhile p = rest := by
  induction ds with
  | nil =>
    simp only [List.nil_append]
    cases rest with
    | nil => simp
    | cons r rs =>
      have hr := hrest r rfl
      simp [List.takeWhile_cons, List.dropWhile_cons, hr]
  | cons d ds2 ih =>
    have hd := hds d (List.mem_cons_self d ds2)
    have h2 := ih (fun c hc => hds c (List.mem_cons_of_mem _ hc))
    simp only [List.cons_append, List.takeWhile_cons, List.dropWhile_cons, hd]
    simp [h2.1, h2.2]

theorem pU32_digits (n : Nat) (rest : Str) (hn : n < 2 ^ 32)
    (hrest : ∀ c, rest.head? = some c → c.isDigit = false) :
    pU32 (natDigits n ++ rest) = .ok rest n := by
  obtain ⟨htw, hdw⟩ := takeWhile_append_eq Char.isDigit (natDigits n) rest
    (natDigits_all_digit n n le_rfl) hrest
  obtain ⟨d, ds, hds⟩ := List.exists_cons_of_ne_nil (natDigits_ne_nil n)
  unfold pU32
  rw [htw, hds]
  simp only
  rw [← hds, foldDigits_natDigits n n le_rfl, if_pos hn, hdw]

theorem pI64_eq_body (i : Str)
    (h : ∀ c, i.head? = some c → c.isDigit = true) :
    pI64 i = pI64Body 1 i := by
  cases i with
  | nil => rfl
  | cons c t =>
    have hc := h c rfl
    have h1 : c ≠ '+' := fun he => by subst he; exact absurd hc (by decide)
    have h2 : c ≠ '-' := fun he => by subst he; exact absurd hc (by decide)
    unfold pI64
    split
    · next heq => injection heq with h3 _; exact absurd h3 h1
    · next heq => injection heq with h3 _; exact absurd h3 h2
    · rfl

theorem pI64Body_digits (k v : Nat) (rest : Str)
    (hv : (v : Int) ≤ 2 ^ 63 - 1)
    (hrest : ∀ c, rest.head? = some c → c.isDigit = false) :
    pI64Body 1 ((List.replicate k '0' ++ natDigits v) ++ rest) =
      .ok rest (v : Int) := by
  have hall : ∀ c ∈ List.replicate k '0' ++ natDigits v, c.isDigit = true := by
    intro c hc
    rcases List.mem_append.mp hc with h2 | h2
    · rw [List.eq_of_mem_replicate h2]; decide
    · exact natDigits_all_digit v v le_rfl c h2
  obtain ⟨htw, hdw⟩ := takeWhile_append_eq Char.isDigit
    (List.replicate k '0' ++ natDigits v) rest hall hrest
  have hne : List.replicate k '0' ++ natDigits v ≠ [] := by
    intro h
    exact natDigits_ne_nil v (List.append_eq_nil.mp h).2
  obtain ⟨d, ds, hds⟩ := List.exists_cons_of_ne_nil hne
  have hfold : foldDigits (List.replicate k '0' ++ natDigits v) = v := by
    rw [foldDigits_replicate_zero, foldDigits_natDigits v v le_rfl]
  unfold pI64Body
  rw [htw, hds]
  simp only
  rw [← hds, hfold, hdw]
  rw [if_pos ⟨by omega, by omega⟩]
  simp

theorem pI64_pad_digits (k v : Nat) (rest : Str)
    (hv : (v : Int) ≤ 2 ^ 63 - 1)
    (hrest : ∀ c, rest.head? = some c → c.isDigit = false) :
    pI64 ((List.replicate k '0' ++ natDigits v) ++ rest) =
      .ok rest (v : Int) := by
  rw [pI64_eq_body]
  · exact pI64Body_digits k v rest hv hrest
  · intro c hc
    cases hk : k with
    | zero =>
      subst hk
      obtain ⟨d, ds, hds⟩ := List.exists_cons_of_ne_nil (natDigits_ne_nil v)
      rw [List.replicate_zero, List.nil_append, hds] at hc
      simp only [List.cons_append, List.head?_cons, Option.some_inj] at hc
      subst hc
      exact natDigits_all_digit v v le_rfl d (hds ▸ List.mem_cons_self _ _)
    | succ k2 =>
      subst hk
      rw [List.replicate_succ] at hc
      simp only [List.cons_append, List.head?_cons, Option.some_inj] at hc
      subst hc
      decide

theorem pad_head_digit (k v : Nat) (rest : Str) :
    ∀ c, ((List.replicate k '0' ++ natDigits v) ++ rest).head? = some c →
      c.isDigit = true := by
  intro c hc
  cases k with
  | zero =>
    obtain ⟨d, ds, hds⟩ := List.exists_cons_of_ne_nil (natDigits_ne_nil v)
    rw [List.replicate_zero, List.nil_append, hds] at hc
    simp only [List.cons_append, List.head?_cons, Option.some_inj] at hc
    subst hc
    exact natDigits_all_digit v v le_rfl d (hds ▸ List.mem_cons_self _ _)
  | succ k2 =>
    rw [List.replicate_succ] at hc
    simp only [List.cons_append, List.head?_cons, Option.some_inj] at hc
    subst hc
    decide

theorem pI64_pad_digits2 (k v : Nat) (rest : Str)
    (hv : (v : Int) ≤ 2 ^ 63 - 1)
    (hrest : ∀ c, rest.head? = some c → c.isDigit = false) :
    pI64 (List.replicate k '0' ++ (natDigits v ++ rest)) = .ok rest (v : Int) := by
  rw [← List.append_assoc]
  exact pI64_pad_digits k v rest hv hrest

theorem pad_head_digit2 (k v : Nat) (rest : Str) :
    ∀ c, (List.replicate k '0' ++ (natDigits v ++ rest)).head? = some c →
      c.isDigit = true := by
  intro c hc
  rw [← List.append_assoc] at hc
  exact pad_head_digit k v rest c hc

theorem isDigit_not_isSp {c : Char} (h : c.isDigit = true) : isSp c = false := by
  unfold isSp
  by_cases h1 : c = ' '
  · subst h1; exact absurd h (by decide)
  · by_cases h2 : c = '\t'
    · subst h2; exact absurd h (by decide)
    · simp [h1, h2]

theorem isDigit_not_isWs {c : Char} (h : c.isDigit = true) : isWs c = false := by
  unfold isWs
  by_cases h1 : c = ' '
  · subst h1; exact absurd h (by decide)
  · by_cases h2 : c = '\t'
    · subst h2; exact absurd h (by decide)
    · by_cases h3 : c = '\r'
      · subst h3; exact absurd h (by decide)
      · by_cases h4 : c = '\n'
        · subst h4; exact absurd h (by decide)
        · simp [h1, h2, h3, h4]

theorem isDigit_ne_nl_cr {c : Char} (h : c.isDigit = true) :
    c ≠ '\n' ∧ c ≠ '\r' := by
  constructor
  · intro he; subst he; exact absurd h (by decide)
  · intro he; subst he; exact absurd h (by decide)

/-! ## Rendering and reparsing timestamps -/

theorem i64Pad_ofNat (w : Nat) (v : Nat) :
    i64Pad w (v : Int) =
      List.replicate (w - (natDigits v).length) '0' ++ natDigits v := by
  simp only [i64Pad]
  rw [if_neg (by omega : ¬ (v : Int) < 0)]
  simp

theorem momentHours_ofNat (mn : Nat) :
    momentHours (mn : Int) = ((mn / 3600000 : Nat) : Int) := by
  show ((((mn : Int)).tdiv 1000).tdiv 60).tdiv 60 = _
  rw [show ((mn : Int)).tdiv 1000 = ((mn / 1000 : Nat) : Int) from rfl,
    show ((mn / 1000 : Nat) : Int).tdiv 60 = ((mn / 1000 / 60 : Nat) : Int) from rfl,
    show ((mn / 1000 / 60 : Nat) : Int).tdiv 60 =
      ((mn / 1000 / 60 / 60 : Nat) : Int) from rfl,
    Nat.div_div_eq_div_mul, Nat.div_div_eq_div_mul]

theorem momentMinutes_ofNat (mn : Nat) :
    momentMinutes (mn : Int) = ((mn / 60000 % 60 : Nat) : Int) := by
  show ((((mn : Int)).tdiv 1000).tdiv 60).tmod 60 = _
  rw [show ((mn : Int)).tdiv 1000 = ((mn / 1000 : Nat) : Int) from rfl,
    show ((mn / 1000 : Nat) : Int).tdiv 60 = ((mn / 1000 / 60 : Nat) : Int) from rfl,
    show ((mn / 1000 / 60 : Nat) : Int).tmod 60 =
      ((mn / 1000 / 60 % 60 : Nat) : Int) from rfl,
    Nat.div_div_eq_div_mul]

theorem momentSeconds_ofNat (mn : Nat) :
    momentSeconds (mn : Int) = ((mn / 1000 % 60 : Nat) : Int) := by
  show (((mn : Int)).tdiv 1000).tmod 60 = _
  rw [show ((mn : Int)).tdiv 1000 = ((mn / 1000 : Nat) : Int) from rfl,
    show ((mn / 1000 : Nat) : Int).tmod 60 = ((mn / 1000 % 60 : Nat) : Int) from rfl]

theorem momentMs_ofNat (mn : Nat) :
    momentMs (mn : Int) = ((mn % 1000 : Nat) : Int) := rfl

theorem asSrtTimestamp_ofNat (mn : Nat) :
    asSrtTimestamp (mn : Int) =
      (List.replicate (2 - (natDigits (mn / 3600000)).length) '0' ++
        natDigits (mn / 3600000)) ++ ':' ::
      ((List.replicate (2 - (natDigits (mn / 60000 % 60)).length) '0' ++
        natDigits (mn / 60000 % 60)) ++ ':' ::
      ((List.replicate (2 - (natDigits (mn / 1000 % 60)).length) '0' ++
        natDigits (mn / 1000 % 60)) ++ ',' ::
      (List.replicate (3 - (natDigits (mn % 1000)).length) '0' ++
        natDigits (mn % 1000)))) := by
  unfold asSrtTimestamp
  rw [momentHours_ofNat, momentMinutes_ofNat, momentSeconds_ofNat, momentMs_ofNat,
    i64Pad_ofNat, i64Pad_ofNat, i64Pad_ofNat, i64Pad_ofNat]
  simp [show S (":") = [':'] from rfl, show S (",") = [','] from rfl]

theorem parseTimestampSrt_render (ks mn : Nat) (rest : Str)
    (hmn : mn < 360000000)
    (hrest : ∀ c, rest.head? = some c → c.isDigit = false) :
    parseTimestampSrt
      (List.replicate ks ' ' ++ (asSrtTimestamp (mn : Int) ++ rest)) =
      .ok (rest.dropWhile isSp) (mn : Int) := by
  rw [asSrtTimestamp_ofNat]
  simp only [List.append_assoc, List.cons_append]
  have hsp := takeWhile_append_eq isSp (List.replicate ks ' ')
    (List.replicate (2 - (natDigits (mn / 3600000)).length) '0' ++
      (natDigits (mn / 3600000) ++ ':' ::
      (List.replicate (2 - (natDigits (mn / 60000 % 60)).length) '0' ++
      (natDigits (mn / 60000 % 60) ++ ':' ::
      (List.replicate (2 - (natDigits (mn / 1000 % 60)).length) '0' ++
      (natDigits (mn / 1000 % 60) ++ ',' ::
      (List.replicate (3 - (natDigits (mn % 1000)).length) '0' ++
      (natDigits (mn % 1000) ++ rest))))))))
    (fun c hc => by rw [List.eq_of_mem_replicate hc]; decide)
    (fun c hc => isDigit_not_isSp (pad_head_digit2 _ _ _ c hc))
  have h2 := pI64_pad_digits2 (2 - (natDigits (mn / 3600000)).length)
    (mn / 3600000)
    (':' :: (List.replicate (2 - (natDigits (mn / 60000 % 60)).length) '0' ++
      (natDigits (mn / 60000 % 60) ++ ':' ::
      (List.replicate (2 - (natDigits (mn / 1000 % 60)).length) '0' ++
      (natDigits (mn / 1000 % 60) ++ ',' ::
      (List.replicate (3 - (natDigits (mn % 1000)).length) '0' ++
      (natDigits (mn % 1000) ++ rest)))))))
    (by omega)
    (fun c hc => by
      simp only [List.head?_cons, Option.some_inj] at hc
      subst hc; decide)
  have h3 := pI64_pad_digits2 (2 - (natDigits (mn / 60000 % 60)).length)
    (mn / 60000 % 60)
    (':' :: (List.replicate (2 - (natDigits (mn / 1000 % 60)).length) '0' ++
      (natDigits (mn / 1000 % 60) ++ ',' ::
      (List.replicate (3 - (natDigits (mn % 1000)).length) '0' ++
      (natDigits (mn % 1000) ++ rest)))))
    (by omega)
    (fun c hc => by
      simp only [List.head?_cons, Option.some_inj] at hc
      subst hc; decide)
  have h4 := pI64_pad_digits2 (2 - (natDigits (mn / 1000 % 60)).length)
    (mn / 1000 % 60)
    (',' :: (List.replicate (3 - (natDigits (mn % 1000)).length) '0' ++
      (natDigits (mn % 1000) ++ rest)))
    (by omega)
    (fun c hc => by
      simp only [List.head?_cons, Option.some_inj] at hc
      subst hc; decide)
  have h5 := pI64_pad_digits2 (3 - (natDigits (mn % 1000)).length)
    (mn % 1000) rest (by omega) hrest
  have hmom : momentFromTimestamp ((mn / 3600000 : Nat) : Int)
      ((mn / 60000 % 60 : Nat) : Int) ((mn / 1000 % 60 : Nat) : Int)
      ((mn % 1000 : Nat) : Int) = (mn : Int) := by
    unfold momentFromTimestamp
    have hval : mn / 3600000 * 3600000 + mn / 60000 % 60 * 60000 +
        mn / 1000 % 60 * 1000 + mn % 1000 = mn := by omega
    push_cast
    exact_mod_cast congrArg (fun z : Nat => (z : Int)) hval
  have pChar_red : ∀ (c : Char) (cs : Str), pChar c (c :: cs) = .ok cs c := by
    intro c cs; simp [pChar]
  simp only [parseTimestampSrt, terminatedP, delimitedP, pSpace0, pTakeWhile0,
    PRes.andThen, hsp.2, h2, pChar_red, h3, h4, h5, hmom]

/-! ## Capturing the block text up to the end-of-block terminator -/

theorem findSub_single_nl (xs ys : Str) (h : '\n' ∉ xs) :
    findSub (S ("\n")) (xs ++ '\n' :: ys) = some xs.length := by
  induction xs with
  | nil =>
    show findSub ['\n'] ('\n' :: ys) = some 0
    unfold findSub
    rw [if_pos (by simp [List.isPrefixOf])]
  | cons x xs2 ih =>
    have hx : x ≠ '\n' := fun he => h (he ▸ List.mem_cons_self x xs2)
    have hxs : '\n' ∉ xs2 := fun he => h (List.mem_cons_of_mem x he)
    rw [List.cons_append]
    show findSub ['\n'] (x :: (xs2 ++ '\n' :: ys)) = some (x :: xs2).length
    unfold findSub
    rw [if_neg (by simp [List.isPrefixOf]; exact Ne.symm hx)]
    rw [show findSub ['\n'] (xs2 ++ '\n' :: ys) = some xs2.length from ih hxs]
    simp

theorem pLineEnding_fail (d : Char) (w : Str) (h1 : d ≠ '\n') (h2 : d ≠ '\r') :
    pLineEnding (d :: w) = .fail := by
  unfold pLineEnding
  split
  · next heq => injection heq with ha _; exact absurd ha h1
  · next heq => injection heq with ha _; exact absurd ha h2
  · rfl

theorem dropWhile_append_ne_nil {p : Char → Bool} {l1 : Str} (l2 : Str)
    (h : ∃ x ∈ l1, p x = false) : List.dropWhile p (l1 ++ l2) ≠ [] := by
  induction l1 with
  | nil => obtain ⟨x, hx, _⟩ := h; simp at hx
  | cons a l ih =>
    obtain ⟨x, hx, hpx⟩ := h
    rw [List.cons_append, List.dropWhile_cons]
    by_cases hpa : p a
    · rw [if_pos hpa]
      apply ih
      rcases List.mem_cons.mp hx with rfl | hx2
      · exact absurd hpa (by simp [hpx])
      · exact ⟨x, hx2, hpx⟩
    · rw [if_neg hpa]; simp

theorem mem_of_getLast?_eq {x : Str} {c : Char} (h : x.getLast? = some c) :
    c ∈ x := by
  obtain ⟨hne, heq2⟩ := List.mem_getLast?_eq_getLast h
  have hm : x.getLast hne ∈ x := List.getLast_mem hne
  rwa [← heq2] at hm

theorem blockTerm_fail (u tail : Str) (hu : u ≠ []) (hr : '\r' ∉ u)
    (hfs : findSub (S ("\n\n")) u = none)
    (hlast : ∀ c, u.getLast? = some c → isWs c = false) :
    alt2 (pairP pLineEnding pLineEnding) (pairP pMultispace0 pEof)
      (u ++ tail) = .fail := by
  obtain ⟨c0, hc0⟩ : ∃ c, u.getLast? = some c := by
    cases u with
    | nil => exact absurd rfl hu
    | cons a as => exact ⟨_, List.getLast?_eq_getLast_of_ne_nil (by simp)⟩
  have hws : isWs c0 = false := hlast c0 hc0
  have hdw : List.dropWhile isWs (u ++ tail) ≠ [] :=
    dropWhile_append_ne_nil tail ⟨c0, mem_of_getLast?_eq hc0, hws⟩
  have hT2 : pairP pMultispace0 pEof (u ++ tail) = .fail := by
    show ((pMultispace0 (u ++ tail)).andThen fun r a =>
      (pEof r).andThen fun r2 b => .ok r2 (a, b)) = .fail
    show ((PRes.ok (List.dropWhile isWs (u ++ tail))
      (List.takeWhile isWs (u ++ tail))).andThen fun r a =>
      (pEof r).andThen fun r2 b => .ok r2 (a, b)) = .fail
    cases hd : List.dropWhile isWs (u ++ tail) with
    | nil => exact absurd hd hdw
    | cons a as => simp [PRes.andThen, pEof]
  have hT1 : pairP pLineEnding pLineEnding (u ++ tail) = .fail := by
    cases u with
    | nil => exact absurd rfl hu
    | cons c u2 =>
      rw [List.cons_append]
      by_cases hc : c = '\n'
      · subst hc
        cases u2 with
        | nil => exact absurd (hlast '\n' rfl) (by decide)
        | cons d u3 =>
          have hd1 : d ≠ '\n' := by
            intro he
            subst he
            rw [S_nlnl] at hfs
            unfold findSub at hfs
            rw [if_pos (by simp [List.isPrefixOf])] at hfs
            exact absurd hfs (by simp)
          have hd2 : d ≠ '\r' := fun he =>
            hr (he ▸ List.mem_cons_of_mem '\n' (List.mem_cons_self d u3))
          show ((pLineEnding ('\n' :: ((d :: u3) ++ tail))).andThen fun r a =>
            (pLineEnding r).andThen fun r2 b => .ok r2 (a, b)) = .fail
          rw [show pLineEnding ('\n' :: ((d :: u3) ++ tail)) =
            .ok ((d :: u3) ++ tail) ['\n'] from rfl]
          rw [List.cons_append]
          simp [PRes.andThen, pLineEnding_fail d _ hd1 hd2]
      · have hc2 : c ≠ '\r' := fun he => hr (he ▸ List.mem_cons_self c u2)
        show ((pLineEnding (c :: (u2 ++ tail))).andThen fun r a =>
          (pLineEnding r).andThen fun r2 b => .ok r2 (a, b)) = .fail
        simp [pLineEnding_fail c _ hc hc2, PRes.andThen]
  unfold alt2
  rw [hT1]
  exact hT2

theorem scanFor_block (tail : Str)
    (hbase : ∃ w, scanFor (alt2 (pairP pLineEnding pLineEnding)
      (pairP pMultispace0 pEof)) tail = .ok [] ([], w)) :
    ∀ u : Str, '\r' ∉ u → findSub (S ("\n\n")) u = none →
      (∀ c, u.getLast? = some c → isWs c = false) →
      ∃ w, scanFor (alt2 (pairP pLineEnding pLineEnding)
        (pairP pMultispace0 pEof)) (u ++ tail) = .ok [] (u, w) := by
  intro u
  induction u with
  | nil => intro _ _ _; simpa using hbase
  | cons c u2 ih =>
    intro hr hfs hlast
    have hterm := blockTerm_fail (c :: u2) tail (by simp) hr hfs hlast
    obtain ⟨hnp, hfs2⟩ := findSub_cons_none hfs
    have hlast2 : ∀ x, u2.getLast? = some x → isWs x = false := by
      intro x hx
      cases u2 with
      | nil => simp at hx
      | cons d u3 => exact hlast x (by rwa [List.getLast?_cons_cons])
    have hr2 : '\r' ∉ u2 := fun h => hr (List.mem_cons_of_mem c h)
    obtain ⟨w, hw⟩ := ih hr2 hfs2 hlast2
    refine ⟨w, ?_⟩
    rw [List.cons_append] at hterm ⊢
    unfold scanFor
    rw [hterm]
    simp only
    rw [hw]

theorem takeUntilEndOfBlock_nlnl (u : Str) (hr : '\r' ∉ u)
    (hfs : findSub (S ("\n\n")) u = none)
    (hlast : ∀ c, u.getLast? = some c → isWs c = false) :
    takeUntilEndOfBlock (u ++ S ("\n\n")) = .ok [] u := by
  obtain ⟨w, hw⟩ := scanFor_block (S ("\n\n")) ⟨_, rfl⟩ u hr hfs hlast
  unfold takeUntilEndOfBlock
  rw [hw]

theorem takeUntilEndOfBlock_nl (u : Str) (hr : '\r' ∉ u)
    (hfs : findSub (S ("\n\n")) u = none)
    (hlast : ∀ c, u.getLast? = some c → isWs c = false) :
    takeUntilEndOfBlock (u ++ S ("\n")) = .ok [] u := by
  obtain ⟨w, hw⟩ := scanFor_block (S ("\n")) ⟨_, rfl⟩ u hr hfs hlast
  unfold takeUntilEndOfBlock
  rw [hw]

/-! ## Canonical predicates, destructured -/

theorem textOkSrt_dest (t : Str) (ht : textOkSrt t = true) :
    t ≠ [] ∧ '\r' ∉ t ∧ findSub (S ("\n\n")) t = none ∧
      t.head? ≠ some '\n' ∧ (∀ c, t.getLast? = some c → isWs c = false) := by
  unfold textOkSrt at ht
  simp only [Bool.and_eq_true] at ht
  obtain ⟨⟨⟨⟨h1, h2⟩, h3⟩, h4⟩, h5⟩ := ht
  refine ⟨?_, ?_, ?_, ?_, ?_⟩
  · intro he; subst he; simp at h1
  · intro hm
    simp only [Bool.not_eq_eq_eq_not, Bool.not_true, List.any_eq_false,
      decide_eq_false_iff_not] at h2
    exact h2 '\r' hm rfl
  · exact Option.isNone_iff_eq_none.mp h3
  · intro he
    rw [he] at h4
    simp at h4
  · intro c hc
    rw [hc] at h5
    simpa using h5

theorem coordOkSrt_dest (c : Str) (hc : coordOkSrt c = true) :
    '\n' ∉ c ∧ '\r' ∉ c ∧ (∀ x, c.head? = some x → isSp x = false) := by
  unfold coordOkSrt at hc
  simp only [Bool.and_eq_true] at hc
  obtain ⟨h1, h2⟩ := hc
  refine ⟨?_, ?_, ?_⟩
  · intro hm
    have h3 : c.any (fun x => decide (x = '\n') || decide (x = '\r')) = true :=
      List.any_eq_true.mpr ⟨'\n', hm, by decide⟩
    rw [h3] at h1
    simp at h1
  · intro hm
    have h3 : c.any (fun x => decide (x = '\n') || decide (x = '\r')) = true :=
      List.any_eq_true.mpr ⟨'\r', hm, by decide⟩
    rw [h3] at h1
    simp at h1
  · intro x hx
    rw [hx] at h2
    simpa using h2

theorem eventOkSrt_dest (e : SubRipEvent) (he : eventOkSrt e = true) :
    e.lineNumber < 2 ^ 32 ∧ 0 ≤ e.start ∧ e.start < 360000000 ∧ 0 ≤ e.stop ∧
      e.stop < 360000000 ∧ (∃ c, e.coordinates = some c ∧ coordOkSrt c = true) ∧
      textOkSrt e.text = true := by
  unfold eventOkSrt at he
  simp only [Bool.and_eq_true, decide_eq_true_eq] at he
  obtain ⟨⟨⟨⟨⟨⟨h1, h2⟩, h3⟩, h4⟩, h5⟩, h6⟩, h7⟩ := he
  refine ⟨h1, h2, h3, h4, h5, ?_, h7⟩
  cases hc : e.coordinates with
  | none => rw [hc] at h6; simp at h6
  | some c =>
    rw [hc] at h6
    exact ⟨c, rfl, h6⟩

/-! ## The lines of a rendered canonical document -/

theorem pad_all_digit (k v : Nat) :
    ∀ c ∈ List.replicate k '0' ++ natDigits v, c.isDigit = true := by
  intro c hc
  rcases List.mem_append.mp hc with h2 | h2
  · rw [List.eq_of_mem_replicate h2]; decide
  · exact natDigits_all_digit v v le_rfl c h2

theorem asSrtTimestamp_mem (mn : Nat) :
    ∀ c ∈ asSrtTimestamp (mn : Int), c.isDigit = true ∨ c = ':' ∨ c = ',' := by
  intro c hc
  rw [asSrtTimestamp_ofNat] at hc
  rcases List.mem_append.mp hc with h | h
  · exact Or.inl (pad_all_digit _ _ c h)
  · rcases List.mem_cons.mp h with rfl | h
    · exact Or.inr (Or.inl rfl)
    · rcases List.mem_append.mp h with h | h
      · exact Or.inl (pad_all_digit _ _ c h)
      · rcases List.mem_cons.mp h with rfl | h
        · exact Or.inr (Or.inl rfl)
        · rcases List.mem_append.mp h with h | h
          · exact Or.inl (pad_all_digit _ _ c h)
          · rcases List.mem_cons.mp h with rfl | h
            · exact Or.inr (Or.inr rfl)
            · exact Or.inl (pad_all_digit _ _ c h)

theorem asSrtTimestamp_no_nl_cr (mn : Nat) :
    ∀ c ∈ asSrtTimestamp (mn : Int), c ≠ '\n' ∧ c ≠ '\r' := by
  intro c hc
  rcases asSrtTimestamp_mem mn c hc with h | h | h
  · exact isDigit_ne_nl_cr h
  · subst h; exact ⟨by decide, by decide⟩
  · subst h; exact ⟨by decide, by decide⟩

theorem srtTimingLine_no_nl_cr (e : SubRipEvent) (he : eventOkSrt e = true) :
    ∀ c ∈ srtTimingLine e, c ≠ '\n' ∧ c ≠ '\r' := by
  obtain ⟨_, hs1, _, hp1, _, ⟨co, hco, hcok⟩, _⟩ := eventOkSrt_dest e he
  obtain ⟨hco1, hco2, _⟩ := coordOkSrt_dest co hcok
  intro c hc
  unfold srtTimingLine at hc
  rw [hco] at hc
  simp only [Option.isSome_some, if_true, Option.getD_some, List.append_assoc,
    List.mem_append] at hc
  have hstart : e.start = ((e.start.toNat : Nat) : Int) := by omega
  have hstop : e.stop = ((e.stop.toNat : Nat) : Int) := by omega
  rcases hc with h | h | h | h | h
  · rw [hstart] at h
    exact asSrtTimestamp_no_nl_cr _ c h
  · have h2 : c ∈ [' ', '-', '-', '>', ' '] := h
    fin_cases h2 <;> exact ⟨by decide, by decide⟩
  · rw [hstop] at h
    exact asSrtTimestamp_no_nl_cr _ c h
  · rcases List.mem_singleton.mp h with rfl
    exact ⟨by decide, by decide⟩
  · exact ⟨fun he2 => hco1 (he2 ▸ h), fun he2 => hco2 (he2 ▸ h)⟩

theorem eventLines_no_nl_cr (e : SubRipEvent) (he : eventOkSrt e = true) :
    ∀ l ∈ eventLines e, '\n' ∉ l ∧ '\r' ∉ l := by
  obtain ⟨_, _, _, _, _, _, htok⟩ := eventOkSrt_dest e he
  obtain ⟨_, htr, _, _, _⟩ := textOkSrt_dest e.text htok
  intro l hl
  unfold eventLines at hl
  rcases List.mem_cons.mp hl with rfl | hl
  · constructor
    · intro hm
      exact absurd (natDigits_all_digit _ _ le_rfl '\n' hm) (by decide)
    · intro hm
      exact absurd (natDigits_all_digit _ _ le_rfl '\r' hm) (by decide)
  rcases List.mem_cons.mp hl with rfl | hl
  · exact ⟨fun hm => (srtTimingLine_no_nl_cr e he '\n' hm).1 rfl,
      fun hm => (srtTimingLine_no_nl_cr e he '\r' hm).2 rfl⟩
  · exact ⟨splitNl_no_nl e.text l hl,
      fun hm => htr (splitNl_mem_mem e.text l hl '\r' hm)⟩

theorem eventLines_ne_nil (e : SubRipEvent) (he : eventOkSrt e = true) :
    ∀ l ∈ eventLines e, l ≠ [] := by
  obtain ⟨_, hs1, _, _, _, _, htok⟩ := eventOkSrt_dest e he
  obtain ⟨htne, _, htfs, hthd, htlast⟩ := textOkSrt_dest e.text htok
  intro l hl
  unfold eventLines at hl
  rcases List.mem_cons.mp hl with rfl | hl
  · exact natDigits_ne_nil _
  rcases List.mem_cons.mp hl with rfl | hl
  · unfold srtTimingLine
    have hstart : e.start = ((e.start.toNat : Nat) : Int) := by omega
    rw [hstart, asSrtTimestamp_ofNat]
    simp
  · have hlast2 : e.text.getLast? ≠ some '\n' := by
      intro hx
      exact absurd (htlast '\n' hx) (by decide)
    exact splitNl_all_ne_nil e.text htne hthd htfs hlast2 l hl

theorem docLines_no_nl_cr (evs : List SubRipEvent)
    (h : ∀ e ∈ evs, eventOkSrt e = true) :
    ∀ l ∈ docLines evs, '\n' ∉ l ∧ '\r' ∉ l := by
  cases evs with
  | nil => intro l hl; simp [docLines] at hl
  | cons e es =>
    intro l hl
    unfold docLines at hl
    rcases List.mem_append.mp hl with h2 | h2
    · exact eventLines_no_nl_cr e (h e (List.mem_cons_self _ _)) l h2
    · obtain ⟨piece, hp1, hp2⟩ := List.mem_flatten.mp h2
      obtain ⟨e2, he2, rfl⟩ := List.mem_map.mp hp1
      rcases List.mem_cons.mp hp2 with rfl | h3
      · exact ⟨by simp, by simp⟩
      · exact eventLines_no_nl_cr e2 (h e2 (List.mem_cons_of_mem _ he2)) l h3

/-! ## The rendered document, line by line -/

theorem joinLines_append (A B : List Str) :
    joinLines (A ++ B) = joinLines A ++ joinLines B := by
  simp [joinLines]

theorem renderSrtEvent_lines (e : SubRipEvent) :
    renderSrtEvent e ++ ['\n'] = joinLines (eventLines e) := by
  show renderSrtEvent e ++ ['\n'] =
    joinLines (natDigits e.lineNumber :: srtTimingLine e :: splitNl e.text)
  have h1 : joinLines (natDigits e.lineNumber :: srtTimingLine e :: splitNl e.text) =
      (natDigits e.lineNumber ++ ['\n']) ++ ((srtTimingLine e ++ ['\n']) ++
        joinLines (splitNl e.text)) := by
    simp [joinLines]
  rw [h1, joinLines_splitNl]
  unfold renderSrtEvent srtTimingLine
  simp [show S ("\n") = ['\n'] from rfl, List.append_assoc]

theorem enumMapGo_renderTail (es : List SubRipEvent) : ∀ st, 1 ≤ st →
    enumMapGo (fun i e2 => (if 0 < i then ['\n'] else []) ++ renderSrtEvent e2 ++
      ['\n']) st es =
    es.map (fun e2 => '\n' :: (renderSrtEvent e2 ++ ['\n'])) := by
  induction es with
  | nil => intro st _; rfl
  | cons a as ih =>
    intro st hst
    cases st with
    | zero => omega
    | succ st2 =>
      unfold enumMapGo
      rw [if_pos (by omega), ih (st2 + 2) (by omega)]
      simp

theorem joinLines_sepBlocks (es : List SubRipEvent) :
    (es.map (fun e2 => '\n' :: (renderSrtEvent e2 ++ ['\n']))).flatten =
      joinLines ((es.map (fun e2 => [] :: eventLines e2)).flatten) := by
  induction es with
  | nil => rfl
  | cons a as ih =>
    simp only [List.map_cons, List.flatten_cons, joinLines_append]
    rw [← ih]
    congr 1
    rw [show joinLines ([] :: eventLines a) =
      '\n' :: joinLines (eventLines a) from by simp [joinLines]]
    rw [← renderSrtEvent_lines]

theorem renderSrt_eq_joinLines (evs : List SubRipEvent) :
    renderSrt { events := evs } = joinLines (docLines evs) := by
  cases evs with
  | nil => rfl
  | cons e es =>
    have h0 : renderSrt { events := e :: es } =
        (renderSrtEvent e ++ ['\n']) ++
          (es.map (fun e2 => '\n' :: (renderSrtEvent e2 ++ ['\n']))).flatten := by
      show (enumMapGo _ 0 (e :: es)).flatten = _
      unfold enumMapGo
      rw [enumMapGo_renderTail es 1 le_rfl]
      simp
    rw [h0]
    show _ = joinLines (eventLines e ++ (es.map (fun e2 => [] :: eventLines e2)).flatten)
    rw [joinLines_append, ← renderSrtEvent_lines]
    congr 1
    exact joinLines_sepBlocks es

/-! ## Reparsing a rendered block -/

theorem many0F_fail_first {α : Type} (p : NomP α) (n : Nat) (i : Str)
    (h : p i = .fail) : many0F p (n + 1) i = .ok i [] := by
  unfold many0F
  rw [h]

theorem pTag_arrow (Z : Str) :
    pTag (S ("-->")) ('-' :: '-' :: '>' :: Z) = .ok Z (S ("-->")) := by
  show (if List.isPrefixOf ['-', '-', '>'] ('-' :: '-' :: '>' :: Z) then
    PRes.ok (List.drop 3 ('-' :: '-' :: '>' :: Z)) (S ("-->")) else .fail) = _
  rw [if_pos (by simp [List.isPrefixOf])]
  simp

theorem parseTimingSrt_render (e : SubRipEvent) (co : Str) (after : Str)
    (hcoord : e.coordinates = some co) (hcok : coordOkSrt co = true)
    (hs1 : 0 ≤ e.start) (hs2 : e.start < 360000000)
    (ht1 : 0 ≤ e.stop) (ht2 : e.stop < 360000000) :
    parseTimingSrt (srtTimingLine e ++ '\n' :: after) =
      .ok after ((e.start, e.stop), some co) := by
  obtain ⟨hco1, hco2, hco3⟩ := coordOkSrt_dest co hcok
  have hstart : e.start = ((e.start.toNat : Nat) : Int) := by omega
  have hstop : e.stop = ((e.stop.toNat : Nat) : Int) := by omega
  have hmn1 : e.start.toNat < 360000000 := by omega
  have hmn2 : e.stop.toNat < 360000000 := by omega
  have hin : srtTimingLine e ++ '\n' :: after =
      asSrtTimestamp ((e.start.toNat : Nat) : Int) ++
        (' ' :: '-' :: '-' :: '>' :: ' ' ::
          (asSrtTimestamp ((e.stop.toNat : Nat) : Int) ++
            (' ' :: (co ++ '\n' :: after)))) := by
    unfold srtTimingLine
    rw [hcoord, ← hstart, ← hstop]
    simp [show S (" --> ") = [' ', '-', '-', '>', ' '] from rfl,
      List.append_assoc]
  rw [hin]
  have h1 := parseTimestampSrt_render 0 e.start.toNat
    (' ' :: '-' :: '-' :: '>' :: ' ' ::
      (asSrtTimestamp ((e.stop.toNat : Nat) : Int) ++ (' ' :: (co ++ '\n' :: after))))
    hmn1 (fun c hc => by
      simp only [List.head?_cons, Option.some_inj] at hc; subst hc; decide)
  rw [List.replicate_zero, List.nil_append] at h1
  have h1b : List.dropWhile isSp
      (' ' :: '-' :: '-' :: '>' :: ' ' ::
        (asSrtTimestamp ((e.stop.toNat : Nat) : Int) ++
          (' ' :: (co ++ '\n' :: after)))) =
      '-' :: '-' :: '>' :: ' ' ::
        (asSrtTimestamp ((e.stop.toNat : Nat) : Int) ++
          (' ' :: (co ++ '\n' :: after))) := by
    rw [List.dropWhile_cons, if_pos (by decide), List.dropWhile_cons,
      if_neg (by decide)]
  rw [h1b] at h1
  have h2 := pTag_arrow (' ' ::
    (asSrtTimestamp ((e.stop.toNat : Nat) : Int) ++ (' ' :: (co ++ '\n' :: after))))
  have h3 := parseTimestampSrt_render 1 e.stop.toNat (' ' :: (co ++ '\n' :: after))
    hmn2 (fun c hc => by
      simp only [List.head?_cons, Option.some_inj] at hc; subst hc; decide)
  rw [show List.replicate 1 ' ' = [' '] from rfl, List.singleton_append] at h3
  have h3b : List.dropWhile isSp (' ' :: (co ++ '\n' :: after)) =
      co ++ '\n' :: after := by
    rw [List.dropWhile_cons, if_pos (by decide)]
    cases hca : co with
    | nil =>
      subst hca
      rw [List.nil_append, List.dropWhile_cons, if_neg (by decide)]
    | cons x xs =>
      subst hca
      rw [List.cons_append, List.dropWhile_cons, if_neg]
      have h5 := hco3 x rfl
      simp [h5]
  rw [h3b] at h3
  have h4 : pTakeUntil (S ("\n")) (co ++ '\n' :: after) = .ok ('\n' :: after) co := by
    unfold pTakeUntil
    rw [findSub_single_nl co after hco1]
    simp only
    rw [List.drop_left, List.take_left]
  have hle : ∀ w : Str, pLineEnding ('\n' :: w) = .ok w ['\n'] := fun w => rfl
  simp only [parseTimingSrt, pairP, sepPairP, terminatedP, pOpt, PRes.andThen,
    h1, h2, h3, h4, hle]
  rw [← hstart, ← hstop]

theorem parseNewLine_render (e : SubRipEvent) (he : eventOkSrt e = true)
    (textTail : Str)
    (htu : takeUntilEndOfBlock (e.text ++ textTail) = .ok [] e.text) :
    parseNewLine (natDigits e.lineNumber ++ '\n' ::
      (srtTimingLine e ++ '\n' :: (e.text ++ textTail))) = .ok [] (.newLine e) := by
  obtain ⟨hn, hs1, hs2, ht1, ht2, ⟨co, hcoord, hcok⟩, htok⟩ := eventOkSrt_dest e he
  obtain ⟨d, ds, hds⟩ := List.exists_cons_of_ne_nil (natDigits_ne_nil e.lineNumber)
  have hd : d.isDigit = true :=
    natDigits_all_digit _ _ le_rfl d (hds ▸ List.mem_cons_self _ _)
  have hfail : pLineEnding (natDigits e.lineNumber ++ '\n' ::
      (srtTimingLine e ++ '\n' :: (e.text ++ textTail))) = .fail := by
    rw [hds, List.cons_append]
    exact pLineEnding_fail d _ (isDigit_ne_nl_cr hd).1 (isDigit_ne_nl_cr hd).2
  have hm0 := many0F_fail_first pLineEnding
    ((natDigits e.lineNumber ++ '\n' ::
      (srtTimingLine e ++ '\n' :: (e.text ++ textTail))).length) _ hfail
  have hu32 := pU32_digits e.lineNumber
    ('\n' :: (srtTimingLine e ++ '\n' :: (e.text ++ textTail))) hn
    (fun c hc => by
      simp only [List.head?_cons, Option.some_inj] at hc; subst hc; decide)
  have htiming := parseTimingSrt_render e co (e.text ++ textTail) hcoord hcok
    hs1 hs2 ht1 ht2
  have hle : ∀ w : Str, pLineEnding ('\n' :: w) = .ok w ['\n'] := fun w => rfl
  simp only [parseNewLine, parseLineNumber, terminatedP, PRes.andThen, hm0,
    hu32, hle, htiming, htu]
  rw [← hcoord]

theorem parseBlockSrt_render (e : SubRipEvent) (he : eventOkSrt e = true)
    (textTail : Str)
    (htu : takeUntilEndOfBlock (e.text ++ textTail) = .ok [] e.text) :
    parseBlockSrt (natDigits e.lineNumber ++ '\n' ::
      (srtTimingLine e ++ '\n' :: (e.text ++ textTail))) = .ok [] (.newLine e) := by
  obtain ⟨d, ds, hds⟩ := List.exists_cons_of_ne_nil (natDigits_ne_nil e.lineNumber)
  have hd : d.isDigit = true :=
    natDigits_all_digit _ _ le_rfl d (hds ▸ List.mem_cons_self _ _)
  have hnl := parseNewLine_render e he textTail htu
  have hms : List.dropWhile isWs (natDigits e.lineNumber ++ '\n' ::
      (srtTimingLine e ++ '\n' :: (e.text ++ textTail))) =
      natDigits e.lineNumber ++ '\n' ::
        (srtTimingLine e ++ '\n' :: (e.text ++ textTail)) := by
    rw [hds, List.cons_append, List.dropWhile_cons,
      if_neg (by simp [isDigit_not_isWs hd]), ← List.cons_append, ← hds]
  show ((PRes.ok (List.dropWhile isWs (natDigits e.lineNumber ++ '\n' ::
      (srtTimingLine e ++ '\n' :: (e.text ++ textTail))))
      (List.takeWhile isWs (natDigits e.lineNumber ++ '\n' ::
      (srtTimingLine e ++ '\n' :: (e.text ++ textTail))))).andThen fun r _ =>
    alt2 parseNewLine parseContinuation r) = .ok [] (.newLine e)
  rw [hms]
  show alt2 parseNewLine parseContinuation _ = .ok [] (.newLine e)
  unfold alt2
  rw [hnl]

theorem parseBlocksSrt_render (e : SubRipEvent) (he : eventOkSrt e = true)
    (extra : Str)
    (htu : takeUntilEndOfBlock (e.text ++ ('\n' :: extra)) = .ok [] e.text) :
    parseBlocksSrt (joinLines (eventLines e) ++ extra) = .ok [] [.newLine e] := by
  have hq : joinLines (eventLines e) ++ extra =
      natDigits e.lineNumber ++ '\n' :: (srtTimingLine e ++ '\n' ::
        (e.text ++ ('\n' :: extra))) := by
    show joinLines (natDigits e.lineNumber :: srtTimingLine e :: splitNl e.text) ++
      extra = _
    have h1 : joinLines (natDigits e.lineNumber :: srtTimingLine e ::
        splitNl e.text) =
        (natDigits e.lineNumber ++ ['\n']) ++ ((srtTimingLine e ++ ['\n']) ++
          joinLines (splitNl e.text)) := by
      simp [joinLines]
    rw [h1, joinLines_splitNl]
    simp [List.append_assoc]
  rw [hq]
  have hblock := parseBlockSrt_render e he ('\n' :: extra) htu
  have hsep : pTag (S ("\n\n")) ([] : Str) = .fail := by decide
  unfold parseBlocksSrt parseBlocksSrtF sepList1F
  rw [hblock]
  simp only
  unfold sepListLoopF
  rw [hsep]

/-! ## The streaming loop on a rendered document -/

theorem srtLoop_append_ne (ls : List Str) :
    ∀ rest queue acc, (∀ l ∈ ls, l ≠ []) →
      srtLoop (ls ++ rest) queue acc = srtLoop rest (queue ++ joinLines ls) acc := by
  induction ls with
  | nil => intro rest q acc _; simp [joinLines]
  | cons l ls2 ih =>
    intro rest q acc h
    have hl : l ≠ [] := h l (List.mem_cons_self _ _)
    rw [List.cons_append]
    show srtLoop (l :: (ls2 ++ rest)) q acc = _
    simp only [srtLoop]
    rw [if_neg hl]
    rw [ih rest (q ++ l ++ ['\n']) acc (fun x hx => h x (List.mem_cons_of_mem _ hx))]
    congr 1
    simp [joinLines]

theorem parseBlocksSrt_nil : parseBlocksSrt ([] : Str) = .fail := by decide

theorem srtLoop_cons_empty (ls : List Str) (q : Str) (acc : List SubRipEvent) :
    srtLoop ([] :: ls) q acc =
      srtLoop ls (srtRound (q ++ ['\n']) acc).1 (srtRound (q ++ ['\n']) acc).2 := by
  show srtLoop ls (srtRound (q ++ [] ++ ['\n']) acc).1
    (srtRound (q ++ [] ++ ['\n']) acc).2 = _
  rw [List.append_nil]

theorem srtRound_block (e : SubRipEvent) (he : eventOkSrt e = true)
    (acc : List SubRipEvent) (hr : '\r' ∉ e.text)
    (hfs : findSub (S ("\n\n")) e.text = none)
    (hlast : ∀ c, e.text.getLast? = some c → isWs c = false) :
    srtRound (joinLines (eventLines e) ++ ['\n']) acc = ([], acc ++ [e]) := by
  have hK1 := parseBlocksSrt_render e he ['\n']
    (takeUntilEndOfBlock_nlnl e.text hr hfs hlast)
  unfold srtRound
  rw [hK1]
  simp [srtApplyBlock]

theorem srtLoop_doc : ∀ evs acc, (∀ e ∈ evs, eventOkSrt e = true) →
    srtLoop (docLines evs) [] acc = acc ++ evs := by
  intro evs
  induction evs with
  | nil =>
    intro acc _
    show (srtRound [] acc).2 = acc ++ []
    unfold srtRound
    rw [parseBlocksSrt_nil]
    simp
  | cons e es ih =>
    intro acc hok
    have he := hok e (List.mem_cons_self _ _)
    obtain ⟨_, _, _, _, _, _, htok⟩ := eventOkSrt_dest e he
    obtain ⟨_, htr, htfs, _, htlast⟩ := textOkSrt_dest e.text htok
    show srtLoop (eventLines e ++ (es.map (fun e2 => [] :: eventLines e2)).flatten)
      [] acc = acc ++ e :: es
    rw [srtLoop_append_ne (eventLines e) _ [] acc (eventLines_ne_nil e he),
      List.nil_append]
    cases es with
    | nil =>
      simp only [List.map_nil, List.flatten_nil]
      show (srtRound (joinLines (eventLines e)) acc).2 = acc ++ [e]
      have hK2 := parseBlocksSrt_render e he []
        (takeUntilEndOfBlock_nl e.text htr htfs htlast)
      rw [List.append_nil] at hK2
      unfold srtRound
      rw [hK2]
      simp [srtApplyBlock]
    | cons e2 es2 =>
      simp only [List.map_cons, List.flatten_cons]
      show srtLoop (([] :: eventLines e2) ++
        (es2.map (fun e3 => [] :: eventLines e3)).flatten)
        (joinLines (eventLines e)) acc = acc ++ e :: e2 :: es2
      rw [List.cons_append, srtLoop_cons_empty,
        srtRound_block e he acc htr htfs htlast]
      have h2 := ih (acc ++ [e]) (fun x hx => hok x (List.mem_cons_of_mem _ hx))
      rw [show docLines (e2 :: es2) = eventLines e2 ++
        (es2.map (fun e3 => [] :: eventLines e3)).flatten from rfl] at h2
      show srtLoop (eventLines e2 ++
        (es2.map (fun e3 => [] :: eventLines e3)).flatten) [] (acc ++ [e]) =
        acc ++ e :: e2 :: es2
      rw [h2]
      simp

/-- Claim C8, amended: for every canonical SubRip document whose every event
carries a coordinate string (possibly empty, newline-free, not starting with
a space or tab), parsing the rendered text gives the document back exactly,
and rendering again reproduces the rendered bytes.  (The parser stores
`Some("")` when no coordinates are present and rendering then emits a
trailing space, which is why the coordinate field must be present for the
byte-for-byte round trip; `c8_counterexample_trailing_space` shows the
coordinate-free case.) -/
theorem c8_amended_roundtrip_with_coordinates (d : SubRipSubtitle)
    (h : canonSrt d = true) :
    parseSrtStr (renderSrt d) = d ∧
    renderSrt (parseSrtStr (renderSrt d)) = renderSrt d := by
  have hall : ∀ e ∈ d.events, eventOkSrt e = true := by
    intro e he2
    unfold canonSrt at h
    exact List.all_eq_true.mp h e he2
  have h1 : parseSrtStr (renderSrt d) = d := by
    obtain ⟨evs⟩ := d
    show parseSrtStr (renderSrt { events := evs }) = { events := evs }
    unfold parseSrtStr
    rw [renderSrt_eq_joinLines,
      rustLines_joinLines (docLines evs) (docLines_no_nl_cr evs hall),
      srtLoop_doc evs [] hall]
    simp
  exact ⟨h1, by rw [h1]⟩

/-- Witness for the amended C8 round trip: a concrete canonical two-event
document, one event with coordinates `X1:10 X2:20` and one with the empty
coordinate string. -/
theorem c8_amended_roundtrip_with_coordinates_witness :
    canonSrt { events := [
      { lineNumber := 1, text := S ("Hi there\nfriend"), start := 1000,
        stop := 2500, coordinates := some (S ("X1:10 X2:20")) },
      { lineNumber := 2, text := S ("Second"), start := 63000,
        stop := 3726700, coordinates := some [] }] } = true ∧
    parseSrtStr (renderSrt { events := [
      { lineNumber := 1, text := S ("Hi there\nfriend"), start := 1000,
        stop := 2500, coordinates := some (S ("X1:10 X2:20")) },
      { lineNumber := 2, text := S ("Second"), start := 63000,
        stop := 3726700, coordinates := some [] }] }) = { events := [
      { lineNumber := 1, text := S ("Hi there\nfriend"), start := 1000,
        stop := 2500, coordinates := some (S ("X1:10 X2:20")) },
      { lineNumber := 2, text := S ("Second"), start := 63000,
        stop := 3726700, coordinates := some [] }] } :=
  ⟨by decide, (c8_amended_roundtrip_with_coordinates _ (by decide)).1⟩

end Aspasia
